import Mathlib

/-!
The vote-casting core of `src/services/pollsService.js` (voteapp).

A shallow embedding of the polls service.  The Firestore database is an explicit
`Store` holding the three collections the service touches (`polls`, the
`pollOptions` subcollections and `votes`), each one a list of `(key, document)`
pairs.  The clock (`Timestamp.now()`, `new Date()`, `serverTimestamp()`) is a
parameter `now`, and the identifiers Firestore generates for new documents are
parameters of `createPoll`.

A document is looked up under any string key.  The SDK's `doc(...)` accepts only
well-formed document ids (`isDocumentId`) and throws on the others before anything
is read, so the statements that name the error text of a lookup that finds nothing
('Poll not found', 'Invalid option selected') carry that premise on the ids.  The
size limits of the store (documents per batch) are not modelled.  Transactions run
alone: the retry loop of `runTransaction` under contention is outside this model,
and the two readings of `Timestamp.now()` inside one `castVote` are the same
instant `now`.

Numbers computed by `getPollResults` are JavaScript numbers: each `/` and `*` yields
the double nearest to the exact result (`toDouble`).
-/

namespace VoteApp

/-! ## Documents -/

/-- A document of the `polls` collection. -/
structure Poll where
  title : String
  description : String
  type : String
  status : String
  anonymous : Bool
  guestVoting : Bool
  resultVisibility : String
  showResults : Bool
  createdBy : String
  totalVotes : Nat
  publicLink : String
  createdAt : Nat
  updatedAt : Nat
  startsAt : Option Nat
  closesAt : Option Nat
  deriving DecidableEq, Repr

/-- A document of a `pollOptions` subcollection. -/
structure PollOption where
  pollId : String
  text : String
  order : Nat
  voteCount : Nat
  createdAt : Nat
  deriving DecidableEq, Repr

/-- A document of the `votes` collection. -/
structure Vote where
  pollId : String
  userId : Option String
  guestId : Option String
  optionIds : List String
  anonymous : Bool
  createdAt : Nat
  deriving DecidableEq, Repr

/-- The database: `polls` keyed by poll id, `pollOptions` keyed by the pair
(poll id, option id), `votes` keyed by vote id. -/
structure Store where
  polls : List (String × Poll)
  pollOptions : List ((String × String) × PollOption)
  votes : List (String × Vote)
  deriving DecidableEq, Repr

/-- The database with no document. -/
def Store.empty : Store := ⟨[], [], []⟩

/-! ## Collections -/

section Docs
variable {κ : Type} {α : Type} [DecidableEq κ]

/-- Read of the document at key `k` (`getDoc` / `transaction.get`). -/
def docGet : List (κ × α) → κ → Option α
  | [], _ => none
  | (k', v) :: rest, k => if k' = k then some v else docGet rest k

/-- Removal of the document at key `k` (`batch.delete`). -/
def docDelete (c : List (κ × α)) (k : κ) : List (κ × α) :=
  c.filter (fun e => decide (e.1 ≠ k))

/-- Write of a whole document at key `k` (`set`), replacing what was there. -/
def docSet (c : List (κ × α)) (k : κ) (v : α) : List (κ × α) :=
  (k, v) :: docDelete c k

/-- Change of fields of the document at key `k` (`update`), when it exists. -/
def docUpdate (c : List (κ × α)) (k : κ) (f : α → α) : List (κ × α) :=
  c.map (fun e => if e.1 = k then (e.1, f e.2) else e)

end Docs

/-- The strings that name a document when given as the last segment of
`doc(db, ...)`: not empty and without `/` (on these `doc` throws or addresses another
path), not `.` or `..`, not of the reserved form `__...__`, at most 1500 bytes long
(these the store refuses). -/
def isDocumentId (id : String) : Bool :=
  decide (id ≠ "") && !id.toList.contains '/' && decide (id ≠ ".") && decide (id ≠ "..") &&
  !(id.toList.take 2 == ['_', '_'] && id.toList.reverse.take 2 == ['_', '_']) &&
  decide (id.utf8ByteSize ≤ 1500)

/-! ## Constants (`src/utils/constants.js`) -/

def POLL_TYPES.SINGLE_CHOICE : String := "single"
def POLL_TYPES.MULTIPLE_CHOICE : String := "multiple"
def POLL_STATUS.DRAFT : String := "draft"
def POLL_STATUS.ACTIVE : String := "active"
def POLL_STATUS.CLOSED : String := "closed"

/-! ## JavaScript values -/

/-- Truthiness of a `string | null` value: `null` and `''` are falsy. -/
def truthy : Option String → Bool
  | none => false
  | some s => decide (s ≠ "")

/-- The value of `x || null` for a `string | null` value. -/
def orNull (x : Option String) : Option String :=
  if truthy x then x else none

/-- Text of a `string | null` value inside a template literal. -/
def jsString : Option String → String
  | none => "null"
  | some s => s

/-- White space and line terminators removed by `String.prototype.trim`. -/
def jsWhiteSpace (c : Char) : Bool :=
  let n := c.toNat
  n = 9 || n = 10 || n = 11 || n = 12 || n = 13 || n = 32 || n = 160 ||
  n = 0x1680 || (0x2000 ≤ n && n ≤ 0x200A) || n = 0x2028 || n = 0x2029 ||
  n = 0x202F || n = 0x205F || n = 0x3000 || n = 0xFEFF

/-- The method `String.prototype.trim`. -/
def jsTrim (s : String) : String :=
  String.mk (((s.toList.dropWhile jsWhiteSpace).reverse.dropWhile jsWhiteSpace).reverse)

/-! ## Vote ids and point reads -/

/-- The function `getVoteId`: `pollId_userId` for a truthy user id, else
`pollId_guest_<guestId>`. -/
def getVoteId (pollId : String) (userId : Option String) (guestId : Option String) : String :=
  if truthy userId then pollId ++ "_" ++ jsString userId
  else pollId ++ "_guest_" ++ jsString guestId

/-- The function `hasUserVoted`. -/
def hasUserVoted (s : Store) (pollId : String) (userId guestId : Option String) : Bool :=
  (docGet s.votes (getVoteId pollId userId guestId)).isSome

/-- The function `getUserVote`: the stored vote together with its id. -/
def getUserVote (s : Store) (pollId : String) (userId guestId : Option String) :
    Option (String × Vote) :=
  match docGet s.votes (getVoteId pollId userId guestId) with
  | none => none
  | some v => some (getVoteId pollId userId guestId, v)

/-! ## Transactions -/

/-- A write buffered by a transaction of `castVote`. -/
inductive Write where
  | setVote (voteId : String) (data : Vote)
  | incrementTotalVotes (pollId : String)
  | incrementVoteCount (pollId optionId : String)
  deriving DecidableEq, Repr

/-- One buffered write applied to the database.  An `update` of a document
that does not exist fails. -/
def applyWrite (s : Store) : Write → Except String Store
  | .setVote voteId data => .ok { s with votes := docSet s.votes voteId data }
  | .incrementTotalVotes pollId =>
    match docGet s.polls pollId with
    | none => .error "No document to update"
    | some _ =>
      .ok { s with polls := docUpdate s.polls pollId
                    (fun p => { p with totalVotes := p.totalVotes + 1 }) }
  | .incrementVoteCount pollId optionId =>
    match docGet s.pollOptions (pollId, optionId) with
    | none => .error "No document to update"
    | some _ =>
      .ok { s with pollOptions := docUpdate s.pollOptions (pollId, optionId)
                    (fun o => { o with voteCount := o.voteCount + 1 }) }

/-- The buffered writes applied in order; the first failure aborts. -/
def commit (s : Store) : List Write → Except String Store
  | [] => .ok s
  | w :: ws =>
    match applyWrite s w with
    | .error e => .error e
    | .ok s' => commit s' ws

/-- The function `runTransaction`: the body reads the database and buffers its
writes; they reach the database only when the body returns and the commit
succeeds. -/
def runTransaction (s : Store) (body : Store → Except String (List Write)) :
    Store × Except String Unit :=
  match body s with
  | .error e => (s, .error e)
  | .ok ws =>
    match commit s ws with
    | .error e => (s, .error e)
    | .ok s' => (s', .ok ())

/-! ## castVote -/

/-- The update function `castVote` passes to `runTransaction`. -/
def castVoteBody (now : Nat) (pollId : String) (userId : Option String)
    (optionIds : List String) (anonymous : Bool) (guestId : Option String)
    (s : Store) : Except String (List Write) :=
  match docGet s.polls pollId with
  | none => .error "Poll not found"
  | some poll =>
    if !truthy userId && !poll.guestVoting then
      .error "This poll requires authentication to vote"
    else if (match poll.startsAt with
             | some startsAt => decide (now < startsAt)
             | none => false) then
      .error "Poll has not started yet"
    else if poll.status ≠ POLL_STATUS.ACTIVE then
      .error "Poll is not active"
    else if (match poll.closesAt with
             | some closesAt => decide (now ≥ closesAt)
             | none => false) then
      .error "Poll has closed"
    else if poll.type = POLL_TYPES.SINGLE_CHOICE ∧ optionIds.length > 1 then
      .error "Single choice poll only allows one option"
    else if (docGet s.votes (getVoteId pollId userId guestId)).isSome then
      .error "You have already voted on this poll"
    else if optionIds.any (fun optionId => (docGet s.pollOptions (pollId, optionId)).isNone) then
      .error "Invalid option selected"
    else
      .ok (Write.setVote (getVoteId pollId userId guestId)
              { pollId := pollId
                userId := orNull userId
                guestId := orNull guestId
                optionIds := optionIds
                anonymous := anonymous || poll.anonymous
                createdAt := now }
            :: Write.incrementTotalVotes pollId
            :: optionIds.map (fun optionId => Write.incrementVoteCount pollId optionId))

/-- The function `castVote`.  A missing `optionIds` argument is `none`. -/
def castVote (s : Store) (now : Nat) (pollId : String) (userId : Option String)
    (optionIds : Option (List String)) (anonymous : Bool) (guestId : Option String) :
    Store × Except String Unit :=
  match optionIds with
  | none => (s, .error "At least one option must be selected")
  | some ids =>
    if ids.length = 0 then (s, .error "At least one option must be selected")
    else runTransaction s (castVoteBody now pollId userId ids anonymous guestId)

/-! ## createPoll, updatePoll, closePoll, deletePoll -/

/-- The argument `pollData` of `createPoll`; an absent field is `none`. -/
structure PollData where
  title : String
  description : Option String
  type : Option String
  anonymous : Option Bool
  guestVoting : Option Bool
  resultVisibility : Option String
  showResults : Option Bool
  options : Option (List String)
  startsAt : Option Nat
  closesAt : Option Nat
  deriving DecidableEq, Repr

/-- The option documents `createPoll` puts in its batch: one per option text
that is not blank, carrying its index in `pollData.options` as `order`. -/
def createOptions (now : Nat) (pollId : String) (optionId : Nat → String) :
    Nat → List String → List ((String × String) × PollOption)
  | _, [] => []
  | index, optionText :: rest =>
    if jsTrim optionText ≠ "" then
      ((pollId, optionId index),
        { pollId := pollId, text := jsTrim optionText, order := index,
          voteCount := 0, createdAt := now })
        :: createOptions now pollId optionId (index + 1) rest
    else createOptions now pollId optionId (index + 1) rest

/-- The initial status `createPoll` derives from the start date. -/
def initialStatus (now : Nat) (startsAt : Option Nat) : String :=
  match startsAt with
  | some startsAt => if startsAt > now then POLL_STATUS.DRAFT else POLL_STATUS.ACTIVE
  | none => POLL_STATUS.ACTIVE

/-- The poll document `createPoll` puts in its batch (`publicLink` is set after
the commit). -/
def pollDoc (now : Nat) (pollData : PollData) (userId : String) : Poll :=
  { title := jsTrim pollData.title
    description := match pollData.description with
                   | some d => jsTrim d
                   | none => ""
    type := if truthy pollData.type then jsString pollData.type else POLL_TYPES.SINGLE_CHOICE
    status := initialStatus now pollData.startsAt
    anonymous := pollData.anonymous.getD false
    guestVoting := pollData.guestVoting.getD false
    resultVisibility :=
      if truthy pollData.resultVisibility then jsString pollData.resultVisibility else "public"
    showResults := decide (pollData.showResults ≠ some false)
    createdBy := userId
    totalVotes := 0
    publicLink := ""
    createdAt := now
    updatedAt := now
    startsAt := pollData.startsAt
    closesAt := pollData.closesAt }

/-- The function `generatePublicLink`; `baseUrl` is `window.location.origin`. -/
def generatePublicLink (baseUrl pollId : String) : String :=
  baseUrl ++ "/vote/" ++ pollId

/-- The function `createPoll`.  `pollId` is the id Firestore generates for the
poll document, `optionId i` the one it generates for the option at index `i`,
`baseUrl` is `window.location.origin`.  Returns the new database and the poll id. -/
def createPoll (s : Store) (now : Nat) (baseUrl : String) (pollId : String)
    (optionId : Nat → String) (pollData : PollData) (userId : String) : Store × String :=
  let batch := createOptions now pollId optionId 0 (pollData.options.getD [])
  let committed : Store :=
    { s with polls := docSet s.polls pollId (pollDoc now pollData userId)
             pollOptions := batch.foldl (fun c e => docSet c e.1 e.2) s.pollOptions }
  let publicLink := generatePublicLink baseUrl pollId
  ({ committed with
      polls := docUpdate committed.polls pollId (fun p => { p with publicLink := publicLink }) },
    pollId)

/-- The argument `updates` of `updatePoll`; an absent field is `none`, and
`closesAt := some none` is an explicit `null`. -/
structure PollUpdates where
  title : Option String := none
  description : Option String := none
  status : Option String := none
  startsAt : Option (Option Nat) := none
  closesAt : Option (Option Nat) := none
  deriving DecidableEq, Repr

/-- The function `updatePoll`: `updateDoc` fails on a poll that does not exist. -/
def updatePoll (s : Store) (now : Nat) (pollId : String) (updates : PollUpdates) :
    Store × Except String Unit :=
  match docGet s.polls pollId with
  | none => (s, .error "No document to update")
  | some _ =>
    let updateData : Poll → Poll := fun p =>
      { p with title := updates.title.getD p.title
               description := updates.description.getD p.description
               status := updates.status.getD p.status
               startsAt := updates.startsAt.getD p.startsAt
               closesAt := updates.closesAt.getD p.closesAt
               updatedAt := now }
    ({ s with polls := docUpdate s.polls pollId updateData }, .ok ())

/-- The function `closePoll`. -/
def closePoll (s : Store) (now : Nat) (pollId : String) : Store × Except String Unit :=
  updatePoll s now pollId { status := some POLL_STATUS.CLOSED }

/-- The function `deletePoll`: one batch deleting every option document of the
poll, every vote whose `pollId` field is the poll's id, and the poll document. -/
def deletePoll (s : Store) (pollId : String) : Store :=
  let optionRefs := (s.pollOptions.filter (fun e => decide (e.1.1 = pollId))).map Prod.fst
  let voteRefs := (s.votes.filter (fun e => decide (e.2.pollId = pollId))).map Prod.fst
  { polls := docDelete s.polls pollId
    pollOptions := optionRefs.foldl docDelete s.pollOptions
    votes := voteRefs.foldl docDelete s.votes }

/-! ## getPoll, getPollResults -/

/-- The order of `orderBy('order', 'asc')` on option documents, given with their
ids: ascending `order` field, documents with equal `order` by ascending id. -/
def optionBefore (a b : String × PollOption) : Bool :=
  decide (a.2.order < b.2.order) || (decide (a.2.order = b.2.order) && decide (a.1 ≤ b.1))

/-- The options query of `getPoll`: the documents of `polls/pollId/pollOptions`, each
with its id, ordered by `order`. -/
def getOptions (s : Store) (pollId : String) : List (String × PollOption) :=
  List.insertionSort (fun a b => optionBefore a b = true)
    ((s.pollOptions.filter (fun e => decide (e.1.1 = pollId))).map (fun e => (e.1.2, e.2)))

/-- The function `getPoll`: the poll document with its ordered options, or `none`
(JavaScript `null`) when the poll does not exist. -/
def getPoll (s : Store) (pollId : String) : Option (Poll × List (String × PollOption)) :=
  match docGet s.polls pollId with
  | none => none
  | some poll => some (poll, getOptions s pollId)

/-- The integer nearest to `q`, the even one of the two when `q` lies halfway between
two integers (the rounding of IEEE 754 arithmetic). -/
def roundHalfEven (q : ℚ) : ℤ :=
  if q - ⌊q⌋ < 1 / 2 then ⌊q⌋
  else if 1 / 2 < q - ⌊q⌋ then ⌊q⌋ + 1
  else if ⌊q⌋ % 2 = 0 then ⌊q⌋ else ⌊q⌋ + 1

/-- The JavaScript number (IEEE 754 double) nearest to the exact value `q`: `q`
rounded to 53 significant bits, ties to even.  The exponent range of doubles
(overflow to `Infinity`, subnormal numbers) is not modelled; the quotients and
products `getPollResults` forms from counters below `2 ^ 53` stay well inside it. -/
def toDouble (q : ℚ) : ℚ :=
  if q = 0 then 0
  else roundHalfEven (q / 2 ^ (Int.log 2 |q| - 52)) * 2 ^ (Int.log 2 |q| - 52)

/-- The JavaScript operator `/` on two numbers, the divisor not zero. -/
def jsDiv (x y : ℚ) : ℚ := toDouble (x / y)

/-- The JavaScript operator `*` on two numbers. -/
def jsMul (x y : ℚ) : ℚ := toDouble (x * y)

/-- An entry of `options` in the value of `getPollResults`. -/
structure OptionResult where
  id : String
  text : String
  voteCount : Nat
  percentage : ℚ
  deriving DecidableEq, Repr

/-- The value of `getPollResults`. -/
structure PollResults where
  pollId : String
  totalVotes : Nat
  options : List OptionResult
  deriving DecidableEq, Repr

/-- The value of `x || 0` for a counter field `x` read from a document; `none` is a
field the document does not have (`undefined`). -/
def orZero : Option Nat → Nat
  | none => 0
  | some n => n

/-- The expression
`poll.totalVotes > 0 ? ((option.voteCount || 0) / poll.totalVotes) * 100 : 0` of
`getPollResults`, on the two counter fields as read from the documents: a division and
a multiplication, each rounded to a double.  With `totalVotes` missing the
comparison `undefined > 0` is false. -/
def percentage (voteCount totalVotes : Option Nat) : ℚ :=
  match totalVotes with
  | none => 0
  | some t =>
    if t > 0 then jsMul (jsDiv ((orZero voteCount : Nat) : ℚ) (t : ℚ)) 100 else 0

/-- The function `getPollResults`.  The counters are integers below `2 ^ 53`, which
the numbers read from the store hold exactly; the documents of this model (those
`createPoll` writes) always have both counter fields. -/
def getPollResults (s : Store) (pollId : String) : Option PollResults :=
  match getPoll s pollId with
  | none => none
  | some (poll, options) =>
    some { pollId := pollId
           totalVotes := orZero (some poll.totalVotes)
           options := options.map (fun option =>
             { id := option.1
               text := option.2.text
               voteCount := orZero (some option.2.voteCount)
               percentage := percentage (some option.2.voteCount) (some poll.totalVotes) }) }

/-! ## Names for what a committed vote writes -/

/-- The field change `totalVotes: increment(1)`. -/
def incTotalVotes (p : Poll) : Poll := { p with totalVotes := p.totalVotes + 1 }

/-- The field change `voteCount: increment(n)`. -/
def addVoteCount (n : Nat) (o : PollOption) : PollOption := { o with voteCount := o.voteCount + n }

/-- The option counters after one `voteCount: increment(1)` per selected id, in order. -/
def bumpOptions (c : List ((String × String) × PollOption)) (pollId : String)
    (ids : List String) : List ((String × String) × PollOption) :=
  ids.foldl (fun c o => docUpdate c (pollId, o) (addVoteCount 1)) c

/-- The database once the writes of a successful `castVote` are committed. -/
def afterVote (s : Store) (voteId : String) (data : Vote) (pollId : String)
    (ids : List String) : Store :=
  { polls := docUpdate s.polls pollId incTotalVotes
    pollOptions := bumpOptions s.pollOptions pollId ids
    votes := docSet s.votes voteId data }

/-- The vote document `castVote` writes. -/
def voteData (now : Nat) (pollId : String) (userId : Option String) (ids : List String)
    (anonymous : Bool) (guestId : Option String) (poll : Poll) : Vote :=
  { pollId := pollId, userId := orNull userId, guestId := orNull guestId, optionIds := ids,
    anonymous := anonymous || poll.anonymous, createdAt := now }


/-- The checks of `castVote` that a vote passes to be committed. -/
structure Accepts (s : Store) (now : Nat) (pollId : String) (userId : Option String)
    (ids : List String) (guestId : Option String) (poll : Poll) : Prop where
  nonempty : ids ≠ []
  poll_eq : docGet s.polls pollId = some poll
  permitted : truthy userId = true ∨ poll.guestVoting = true
  started : ∀ t, poll.startsAt = some t → t ≤ now
  active : poll.status = POLL_STATUS.ACTIVE
  open_ : ∀ t, poll.closesAt = some t → now < t
  cardinality : poll.type = POLL_TYPES.SINGLE_CHOICE → ids.length ≤ 1
  fresh : docGet s.votes (getVoteId pollId userId guestId) = none
  options : ∀ o ∈ ids, (docGet s.pollOptions (pollId, o)).isSome = true


/-! ## Reachable databases and their invariant -/

/-- The vote documents whose `pollId` field is `p`. -/
def votesOf (votes : List (String × Vote)) (p : String) : List (String × Vote) :=
  votes.filter (fun e => decide (e.2.pollId = p))

/-- The option documents of the subcollection `polls/p/pollOptions`. -/
def optionsOf (options : List ((String × String) × PollOption)) (p : String) :
    List ((String × String) × PollOption) :=
  options.filter (fun e => decide (e.1.1 = p))

/-- How many times the votes of poll `p` name option `o`, repeats included. -/
def selections (votes : List (String × Vote)) (p o : String) : Nat :=
  ((votesOf votes p).map (fun e => e.2.optionIds.count o)).sum

/-- How many votes of poll `p` name option `o` at least once. -/
def voters (votes : List (String × Vote)) (p o : String) : Nat :=
  ((votesOf votes p).filter (fun e => decide (o ∈ e.2.optionIds))).length

/-- The databases reachable from the empty one by `createPoll`, `castVote`,
`closePoll` and `deletePoll`.  The ids Firestore generates in `createPoll` are
new: the poll id names no existing poll and the option ids are pairwise distinct. -/
inductive Reachable : Store → Prop where
  | empty : Reachable Store.empty
  | create {s : Store} (now : Nat) (baseUrl pollId : String) (optionId : Nat → String)
      (pollData : PollData) (userId : String) :
      Reachable s → docGet s.polls pollId = none →
      (∀ i j, i < (pollData.options.getD []).length → j < (pollData.options.getD []).length →
        optionId i = optionId j → i = j) →
      Reachable (createPoll s now baseUrl pollId optionId pollData userId).1
  | vote {s : Store} (now : Nat) (pollId : String) (userId : Option String)
      (optionIds : Option (List String)) (anonymous : Bool) (guestId : Option String) :
      Reachable s → Reachable (castVote s now pollId userId optionIds anonymous guestId).1
  | close {s : Store} (now : Nat) (pollId : String) :
      Reachable s → Reachable (closePoll s now pollId).1
  | delete {s : Store} (pollId : String) :
      Reachable s → Reachable (deletePoll s pollId)

/-- The consistency of the three collections that the four operations maintain. -/
structure Inv (s : Store) : Prop where
  polls_nodup : (s.polls.map Prod.fst).Nodup
  options_nodup : (s.pollOptions.map Prod.fst).Nodup
  votes_nodup : (s.votes.map Prod.fst).Nodup
  vote_poll : ∀ e ∈ s.votes, e.2.pollId ∈ s.polls.map Prod.fst
  option_poll : ∀ e ∈ s.pollOptions, e.1.1 ∈ s.polls.map Prod.fst
  total : ∀ e ∈ s.polls, e.2.totalVotes = (votesOf s.votes e.1).length
  count : ∀ e ∈ s.pollOptions, e.2.voteCount = selections s.votes e.1.1 e.1.2
  vote_options : ∀ e ∈ s.votes, ∀ o ∈ e.2.optionIds,
    (e.2.pollId, o) ∈ s.pollOptions.map Prod.fst
  vote_nonempty : ∀ e ∈ s.votes, e.2.optionIds ≠ []
  vote_single : ∀ e ∈ s.votes, ∀ pe ∈ s.polls, pe.1 = e.2.pollId →
    pe.2.type = POLL_TYPES.SINGLE_CHOICE → e.2.optionIds.length = 1


/-! ## The deduplication of the specification -/

/-- The deduplication the specification describes for `optionIds` ("deduplicated
before validation"): every repeated id removed, first occurrences kept.  The source
has no such step; this definition is what `castVote` is compared with. -/
def dedupOptionIds : List String → List String
  | [] => []
  | a :: rest => a :: (dedupOptionIds rest).filter (fun b => decide (b ≠ a))


/-! ## A small scenario -/

/-- A single-choice poll with the options Red and Blue, open to guests. -/
def demoPollData : PollData :=
  { title := "Colour", description := none, type := some "single", anonymous := none,
    guestVoting := some true, resultVisibility := none, showResults := none,
    options := some ["Red", "Blue"], startsAt := none, closesAt := none }

/-- The option ids generated in the scenario: `o0`, `o1`, ... -/
def demoOptionId (i : Nat) : String := "o" ++ toString i

/-- The database after the single-choice poll `P` is created at instant 10. -/
def demoStore : Store :=
  (createPoll Store.empty 10 "https://voteapp.example" "P" demoOptionId demoPollData "creator").1

/-- The database after user `alice` votes Red on poll `P` at instant 20. -/
def demoVoted : Store := (castVote demoStore 20 "P" (some "alice") (some ["o0"]) false none).1

/-- The database after poll `P` is closed at instant 25. -/
def demoClosed : Store := (closePoll demoVoted 25 "P").1


/-- The poll document of `P` as created. -/
def demoPoll : Poll :=
  { title := "Colour", description := "", type := "single", status := "active",
    anonymous := false, guestVoting := true, resultVisibility := "public",
    showResults := true, createdBy := "creator", totalVotes := 0,
    publicLink := "https://voteapp.example/vote/P", createdAt := 10, updatedAt := 10,
    startsAt := none, closesAt := none }


/-- A multiple-choice poll with the options Ham and Olives. -/
def demoMultiData : PollData :=
  { title := "Toppings", description := none, type := some "multiple", anonymous := none,
    guestVoting := some true, resultVisibility := none, showResults := none,
    options := some ["Ham", "Olives"], startsAt := none, closesAt := none }

/-- The database after the multiple-choice poll `Q` is created at instant 10. -/
def demoMulti : Store :=
  (createPoll Store.empty 10 "https://voteapp.example" "Q" demoOptionId demoMultiData "creator").1

/-- The database after `alice` votes for both options of poll `Q`. -/
def demoMultiVoted : Store :=
  (castVote demoMulti 20 "Q" (some "alice") (some ["o0", "o1"]) false none).1

/-- The database after `alice` votes on poll `Q` with the selection `[o0, o0]`. -/
def demoRepeatVoted : Store :=
  (castVote demoMulti 20 "Q" (some "alice") (some ["o0", "o0"]) false none).1



/-- A poll scheduled to start at 20 and close at 30. -/
def demoScheduledData : PollData :=
  { title := "Lunch", description := none, type := some "single", anonymous := none,
    guestVoting := some true, resultVisibility := none, showResults := none,
    options := some ["Soup", "Salad"], startsAt := some 20, closesAt := some 30 }

/-- The database after the scheduled poll `S` is created at instant 10. -/
def demoScheduled : Store :=
  (createPoll Store.empty 10 "https://voteapp.example" "S" demoOptionId demoScheduledData
    "creator").1

/-- The database after guest `g1` votes Red and user `u1` votes Blue on poll `P`. -/
def demoTwoVotes : Store :=
  (castVote (castVote demoStore 20 "P" none (some ["o0"]) false (some "g1")).1
    21 "P" (some "u1") (some ["o1"]) false none).1

/-- A multiple-choice poll that requires authentication to vote. -/
def demoMembersData : PollData :=
  { title := "Board", description := none, type := some "multiple", anonymous := some true,
    guestVoting := some false, resultVisibility := none, showResults := none,
    options := some ["Ann", "Ben"], startsAt := none, closesAt := none }

/-- The database after the members-only poll `M` is created at instant 10. -/
def demoMembers : Store :=
  (createPoll Store.empty 10 "https://voteapp.example" "M" demoOptionId demoMembersData
    "creator").1

/-- The poll document of `M` as created. -/
def demoMembersPoll : Poll :=
  { title := "Board", description := "", type := "multiple", status := "active",
    anonymous := true, guestVoting := false, resultVisibility := "public",
    showResults := true, createdBy := "creator", totalVotes := 0,
    publicLink := "https://voteapp.example/vote/M", createdAt := 10, updatedAt := 10,
    startsAt := none, closesAt := none }

/-- The poll document of `S` as created. -/
def demoScheduledPoll : Poll :=
  { title := "Lunch", description := "", type := "single", status := "draft",
    anonymous := false, guestVoting := true, resultVisibility := "public",
    showResults := true, createdBy := "creator", totalVotes := 0,
    publicLink := "https://voteapp.example/vote/S", createdAt := 10, updatedAt := 10,
    startsAt := some 20, closesAt := some 30 }

/-- The poll document of `Q` as created. -/
def demoMultiPoll : Poll :=
  { title := "Toppings", description := "", type := "multiple", status := "active",
    anonymous := false, guestVoting := true, resultVisibility := "public",
    showResults := true, createdBy := "creator", totalVotes := 0,
    publicLink := "https://voteapp.example/vote/Q", createdAt := 10, updatedAt := 10,
    startsAt := none, closesAt := none }

/-- The vote document of `alice` on poll `P`. -/
def demoVote : Vote :=
  { pollId := "P", userId := some "alice", guestId := none, optionIds := ["o0"],
    anonymous := false, createdAt := 20 }

/-- A poll scheduled to start at 20, with no closing time. -/
def demoOpeningData : PollData :=
  { title := "Dinner", description := none, type := some "single", anonymous := none,
    guestVoting := some true, resultVisibility := none, showResults := none,
    options := some ["Rice", "Pasta"], startsAt := some 20, closesAt := none }

/-- The database after the scheduled poll `D` is created at instant 10. -/
def demoOpening : Store :=
  (createPoll Store.empty 10 "https://voteapp.example" "D" demoOptionId demoOpeningData
    "creator").1

/-- A poll that closes at 30. -/
def demoTimedData : PollData :=
  { title := "Venue", description := none, type := some "single", anonymous := none,
    guestVoting := some true, resultVisibility := none, showResults := none,
    options := some ["Hall", "Park"], startsAt := none, closesAt := some 30 }

/-- The database after the poll `T` is created at instant 10. -/
def demoTimed : Store :=
  (createPoll Store.empty 10 "https://voteapp.example" "T" demoOptionId demoTimedData
    "creator").1

/-- The poll document of `T` as created. -/
def demoTimedPoll : Poll :=
  { title := "Venue", description := "", type := "single", status := "active",
    anonymous := false, guestVoting := true, resultVisibility := "public",
    showResults := true, createdBy := "creator", totalVotes := 0,
    publicLink := "https://voteapp.example/vote/T", createdAt := 10, updatedAt := 10,
    startsAt := none, closesAt := some 30 }

/-- The database after poll `T` is closed by its creator at instant 25. -/
def demoTimedClosed : Store := (closePoll demoTimed 25 "T").1

/-- Two polls whose ids are `a` and `a_b`, created at instants 10 and 11. -/
def demoTwoPolls : Store :=
  (createPoll
    (createPoll Store.empty 10 "https://voteapp.example" "a" demoOptionId demoPollData
      "creator").1
    11 "https://voteapp.example" "a_b" demoOptionId demoPollData "creator").1

/-- The database after user `u2` also votes Blue on poll `P`: Red 1, Blue 2 of 3. -/
def demoThreeVotes : Store :=
  (castVote demoTwoVotes 22 "P" (some "u2") (some ["o1"]) false none).1

/-- A database holding the poll `R` with the counters Red 7, Blue 93 of 100. -/
def demoTally : Store :=
  { polls := [("R", { demoPoll with
                        totalVotes := 100, publicLink := "https://voteapp.example/vote/R" })]
    pollOptions :=
      [(("R", "o0"), { pollId := "R", text := "Red", order := 0, voteCount := 7,
                       createdAt := 10 }),
       (("R", "o1"), { pollId := "R", text := "Blue", order := 1, voteCount := 93,
                       createdAt := 10 })]
    votes := [] }

/-! ## Guest ids (`src/utils/guestUtils.js`) -/

/-- The constant `GUEST_ID_KEY`. -/
def GUEST_ID_KEY : String := "voteapp_guest_id"

/-- The browser's `localStorage`: string values under string keys. -/
abbrev LocalStorage := List (String × String)

/-- The function `getGuestId`.  `now` is `Date.now()` and `random` is
`Math.random().toString(36).substr(2, 9)`.  Returns the storage and the guest id. -/
def getGuestId (localStorage : LocalStorage) (now : Nat) (random : String) :
    LocalStorage × String :=
  match docGet localStorage GUEST_ID_KEY with
  | some guestId =>
    if guestId ≠ "" then (localStorage, guestId)
    else
      (docSet localStorage GUEST_ID_KEY ("guest_" ++ toString now ++ "_" ++ random),
        "guest_" ++ toString now ++ "_" ++ random)
  | none =>
    (docSet localStorage GUEST_ID_KEY ("guest_" ++ toString now ++ "_" ++ random),
      "guest_" ++ toString now ++ "_" ++ random)

/-- The function `clearGuestId`. -/
def clearGuestId (localStorage : LocalStorage) : LocalStorage :=
  docDelete localStorage GUEST_ID_KEY

/-! ## The vote page (`src/pages/polls/VotePage.js`) -/

/-- The function `handleOptionToggle`: the next value of `selectedOptions`. -/
def handleOptionToggle (currentPoll : Option Poll) (selectedOptions : List String)
    (optionId : String) : List String :=
  match currentPoll with
  | none => selectedOptions
  | some poll =>
    if poll.type = POLL_TYPES.SINGLE_CHOICE then [optionId]
    else if selectedOptions.contains optionId then
      selectedOptions.filter (fun id => decide (id ≠ optionId))
    else selectedOptions ++ [optionId]

/-- The selection after a sequence of clicks, each one a call of
`handleOptionToggle`. -/
def toggleAll (currentPoll : Option Poll) (selectedOptions : List String)
    (clicks : List String) : List String :=
  clicks.foldl (handleOptionToggle currentPoll) selectedOptions

/-- The constant `hasVoted` of the page: `userVote !== null`. -/
def hasVoted (userVote : Option (String × Vote)) : Bool := userVote.isSome

/-- The condition under which the page renders its voting section:
`!hasVoted && currentPoll.status === POLL_STATUS.ACTIVE`. -/
def showsVotingSection (currentPoll : Poll) (userVote : Option (String × Vote)) : Bool :=
  !hasVoted userVote && decide (currentPoll.status = POLL_STATUS.ACTIVE)

/-- What `handleVote` does: one of its early returns, or the dispatch of
`castVoteAction` with these arguments. -/
inductive VoteAttempt where
  | selectOption
  | noPoll
  | loginRequired
  | pollNotActive
  | dispatch (pollId : String) (userId : Option String) (optionIds : List String)
      (anonymous : Bool) (guestId : Option String)
  deriving DecidableEq, Repr

/-- The function `handleVote` up to its dispatch.  `user` is the uid of the signed-in
user, `none` when there is none; `now` and `random` feed `getGuestId`. -/
def handleVote (localStorage : LocalStorage) (now : Nat) (random : String)
    (pollId : String) (selectedOptions : List String) (currentPoll : Option Poll)
    (user : Option String) : LocalStorage × VoteAttempt :=
  if selectedOptions.length = 0 then (localStorage, .selectOption)
  else
    match currentPoll with
    | none => (localStorage, .noPoll)
    | some poll =>
      if !poll.guestVoting && user.isNone then (localStorage, .loginRequired)
      else if poll.status ≠ POLL_STATUS.ACTIVE then (localStorage, .pollNotActive)
      else
        match user with
        | some uid =>
          (localStorage, .dispatch pollId (orNull (some uid)) selectedOptions poll.anonymous none)
        | none =>
          ((getGuestId localStorage now random).1,
            .dispatch pollId none selectedOptions poll.anonymous
              (some (getGuestId localStorage now random).2))

/-! ## Voter identities -/

/-- A voter identity as the vote page produces it: a signed-in user's uid, or the
guest id of a visitor who is not signed in. -/
inductive VoterIdentity where
  | user (id : String)
  | guest (id : String)
  deriving DecidableEq, Repr

/-- The `userId` argument the vote page passes for an identity. -/
def VoterIdentity.userId : VoterIdentity → Option String
  | .user id => some id
  | .guest _ => none

/-- The `guestId` argument the vote page passes for an identity. -/
def VoterIdentity.guestId : VoterIdentity → Option String
  | .user _ => none
  | .guest id => some id

/-- The gate of `castVote` on the poll's state and the clock: none of its three
eligibility checks raises. -/
def votable (now : Nat) (poll : Poll) : Prop :=
  (∀ t, poll.startsAt = some t → t ≤ now) ∧ poll.status = POLL_STATUS.ACTIVE ∧
    (∀ t, poll.closesAt = some t → now < t)

/-- The well-formed identities: a user id is non-empty and does not begin with
`guest_`. -/
def VoterIdentity.valid : VoterIdentity → Prop
  | .user id => id ≠ "" ∧ ¬ ("guest_".toList <+: id.toList)
  | .guest _ => True

/-- What follows `pollId_` in the vote id of an identity. -/
def VoterIdentity.key : VoterIdentity → String
  | .user id => id
  | .guest id => "guest_" ++ id

/-! ## Lemmas on collections -/

section DocLemmas
variable {κ : Type} {α : Type} [DecidableEq κ]

theorem docGet_docDelete (c : List (κ × α)) (k k' : κ) :
    docGet (docDelete c k) k' = if k' = k then none else docGet c k' := by
  induction c with
  | nil => simp [docDelete, docGet]
  | cons e rest ih =>
    obtain ⟨ke, ve⟩ := e
    simp only [docDelete] at ih ⊢
    by_cases h : ke = k
    · subst h
      simp only [List.filter, ne_eq, not_true_eq_false, decide_False, ih, docGet]
      by_cases h' : k' = ke
      · simp [h']
      · have : ¬ ke = k' := fun e => h' e.symm
        simp [h', this]
    · simp only [List.filter, ne_eq, h, not_false_eq_true, decide_True, docGet, ih]
      by_cases h' : k' = k
      · subst h'; simp [h]
      · simp [h']

theorem docGet_docSet (c : List (κ × α)) (k k' : κ) (v : α) :
    docGet (docSet c k v) k' = if k' = k then some v else docGet c k' := by
  simp only [docSet, docGet, docGet_docDelete]
  by_cases h : k' = k
  · subst h; simp
  · have : ¬ k = k' := fun e => h e.symm
    simp [h, this]

theorem docUpdate_cons (e : κ × α) (rest : List (κ × α)) (k : κ) (f : α → α) :
    docUpdate (e :: rest) k f
      = (if e.1 = k then (e.1, f e.2) else e) :: docUpdate rest k f := rfl

theorem docGet_cons (ke : κ) (ve : α) (rest : List (κ × α)) (k : κ) :
    docGet ((ke, ve) :: rest) k = if ke = k then some ve else docGet rest k := rfl

theorem docGet_docUpdate (c : List (κ × α)) (k k' : κ) (f : α → α) :
    docGet (docUpdate c k f) k' = if k' = k then (docGet c k').map f else docGet c k' := by
  induction c with
  | nil => simp [docUpdate, docGet]
  | cons e rest ih =>
    obtain ⟨ke, ve⟩ := e
    rw [docUpdate_cons]
    by_cases h : ke = k
    · subst h
      by_cases h' : ke = k'
      · subst h'; simp [docGet_cons]
      · have : ¬ k' = ke := fun e => h' e.symm
        simp [docGet_cons, h', this, ih]
    · by_cases h' : ke = k'
      · subst h'
        simp [docGet_cons, h]
      · simp [docGet_cons, h, h', ih]

theorem docDelete_eq_self (c : List (κ × α)) (k : κ) (h : docGet c k = none) :
    docDelete c k = c := by
  induction c with
  | nil => rfl
  | cons e rest ih =>
    obtain ⟨ke, ve⟩ := e
    simp only [docGet] at h
    by_cases hk : ke = k
    · simp [hk] at h
    · simp only [hk, if_false] at h
      have ih' := ih h
      simp only [docDelete] at ih' ⊢
      rw [List.filter_cons_of_pos (by simpa using hk), ih']

end DocLemmas

/-! ## Lemmas on `castVote` -/

theorem commit_increments (p : String) (ids : List String) (s : Store)
    (h : ∀ o ∈ ids, (docGet s.pollOptions (p, o)).isSome = true) :
    commit s (ids.map (fun o => Write.incrementVoteCount p o))
      = .ok { s with pollOptions := bumpOptions s.pollOptions p ids } := by
  induction ids generalizing s with
  | nil => rfl
  | cons o rest ih =>
    have ho := h o (List.mem_cons_self _ _)
    obtain ⟨d, hd⟩ := Option.isSome_iff_exists.mp ho
    simp only [List.map_cons, commit, applyWrite, hd, bumpOptions, List.foldl_cons]
    rw [ih]
    · rfl
    · intro o' ho'
      have := h o' (List.mem_cons_of_mem _ ho')
      simp only [docGet_docUpdate]
      split_ifs
      · simpa using this
      · exact this

theorem commit_castVote (s : Store) (voteId : String) (data : Vote) (p : String)
    (ids : List String) (hp : (docGet s.polls p).isSome = true)
    (h : ∀ o ∈ ids, (docGet s.pollOptions (p, o)).isSome = true) :
    commit s (Write.setVote voteId data :: Write.incrementTotalVotes p
        :: ids.map (fun o => Write.incrementVoteCount p o))
      = .ok (afterVote s voteId data p ids) := by
  obtain ⟨d, hd⟩ := Option.isSome_iff_exists.mp hp
  simp only [commit, applyWrite, hd]
  rw [commit_increments]
  · rfl
  · exact h

theorem castVote_of_accepts {s : Store} {now : Nat} {pollId : String} {userId : Option String}
    {ids : List String} {guestId : Option String} {poll : Poll} (anonymous : Bool)
    (h : Accepts s now pollId userId ids guestId poll) :
    castVote s now pollId userId (some ids) anonymous guestId
      = (afterVote s (getVoteId pollId userId guestId)
          (voteData now pollId userId ids anonymous guestId poll) pollId ids, .ok ()) := by
  have hlen : ¬ ids.length = 0 := by
    intro h0; exact h.nonempty (List.length_eq_zero.mp h0)
  have h1 : ¬ ((!truthy userId && !poll.guestVoting) = true) := by
    rcases h.permitted with hp | hp <;> simp [hp]
  have h2 : ¬ ((match poll.startsAt with
             | some startsAt => decide (now < startsAt)
             | none => false) = true) := by
    cases hs : poll.startsAt with
    | none => simp
    | some t => simpa using h.started t hs
  have h3 : ¬ (poll.status ≠ POLL_STATUS.ACTIVE) := by simpa using h.active
  have h4 : ¬ ((match poll.closesAt with
             | some closesAt => decide (now ≥ closesAt)
             | none => false) = true) := by
    cases hs : poll.closesAt with
    | none => simp
    | some t => simpa using h.open_ t hs
  have h5 : ¬ (poll.type = POLL_TYPES.SINGLE_CHOICE ∧ ids.length > 1) := by
    rintro ⟨a, b⟩; have := h.cardinality a; omega
  have h6 : ¬ ((docGet s.votes (getVoteId pollId userId guestId)).isSome = true) := by
    simp [h.fresh]
  have h7 : ¬ (ids.any (fun optionId => (docGet s.pollOptions (pollId, optionId)).isNone) = true) := by
    simp only [List.any_eq_true, not_exists, not_and]
    intro o ho
    have := h.options o ho
    obtain ⟨d, hd⟩ := Option.isSome_iff_exists.mp this
    simp [hd]
  have hbody : castVoteBody now pollId userId ids anonymous guestId s
      = .ok (Write.setVote (getVoteId pollId userId guestId)
              (voteData now pollId userId ids anonymous guestId poll)
            :: Write.incrementTotalVotes pollId
            :: ids.map (fun optionId => Write.incrementVoteCount pollId optionId)) := by
    simp only [castVoteBody, h.poll_eq]
    rw [if_neg h1, if_neg h2, if_neg h3, if_neg h4, if_neg h5, if_neg h6, if_neg h7]
    rfl
  simp only [castVote, if_neg hlen, runTransaction, hbody]
  rw [commit_castVote s _ _ pollId ids (by simp [h.poll_eq]) h.options]

theorem castVoteBody_ok {s : Store} {now : Nat} {pollId : String} {userId : Option String}
    {ids : List String} {anonymous : Bool} {guestId : Option String} {ws : List Write}
    (hne : ids ≠ [])
    (h : castVoteBody now pollId userId ids anonymous guestId s = .ok ws) :
    ∃ poll, Accepts s now pollId userId ids guestId poll := by
  unfold castVoteBody at h
  split at h
  · exact absurd h (by simp)
  · rename_i poll hpoll
    split_ifs at h with h1 h2 h3 h4 h5 h6 h7
    refine ⟨poll, hne, hpoll, ?_, ?_, ?_, ?_, ?_, ?_, ?_⟩
    · cases hu : truthy userId <;> cases hg : poll.guestVoting <;> simp [hu, hg] at h1 ⊢
    · intro t ht
      simp only [ht, decide_eq_true_eq] at h2
      omega
    · simpa using h3
    · intro t ht
      simp only [ht, decide_eq_true_eq] at h4
      omega
    · intro hs
      by_contra hl
      exact h5 ⟨hs, by omega⟩
    · simpa using h6
    · intro o ho
      simp only [List.any_eq_true, not_exists, not_and] at h7
      have := h7 o ho
      cases hd : docGet s.pollOptions (pollId, o) <;> simp [hd] at this ⊢

theorem accepts_of_castVote_ok {s : Store} {now : Nat} {pollId : String}
    {userId : Option String} {optionIds : Option (List String)} {anonymous : Bool}
    {guestId : Option String}
    (h : (castVote s now pollId userId optionIds anonymous guestId).2 = .ok ()) :
    ∃ ids poll, optionIds = some ids ∧ Accepts s now pollId userId ids guestId poll := by
  cases optionIds with
  | none => simp [castVote] at h
  | some ids =>
    by_cases hlen : ids.length = 0
    · simp [castVote, hlen] at h
    · have hne : ids ≠ [] := fun e => hlen (by simp [e])
      simp only [castVote, if_neg hlen, runTransaction] at h
      cases hb : castVoteBody now pollId userId ids anonymous guestId s with
      | error e => simp [hb] at h
      | ok ws =>
        obtain ⟨poll, hacc⟩ := castVoteBody_ok hne hb
        exact ⟨ids, poll, rfl, hacc⟩

theorem castVote_store_of_error (s : Store) (now : Nat) (pollId : String)
    (userId : Option String) (optionIds : Option (List String)) (anonymous : Bool)
    (guestId : Option String) (e : String)
    (h : (castVote s now pollId userId optionIds anonymous guestId).2 = .error e) :
    (castVote s now pollId userId optionIds anonymous guestId).1 = s := by
  unfold castVote at h ⊢
  split
  · rfl
  · split_ifs
    · rfl
    · rename_i ids hlen
      simp only [if_neg hlen] at h
      unfold runTransaction at h ⊢
      split
      · rfl
      · split
        · rfl
        · rename_i heq1 _ _ heq2
          simp [heq1, heq2] at h

theorem castVote_result {s : Store} (now : Nat) (pollId : String) (userId : Option String)
    {ids : List String} (anonymous : Bool) (guestId : Option String) (hne : ids ≠ []) :
    (castVote s now pollId userId (some ids) anonymous guestId).2
      = (castVoteBody now pollId userId ids anonymous guestId s).map (fun _ => ()) := by
  cases hb : castVoteBody now pollId userId ids anonymous guestId s with
  | error e =>
    have hlen : ¬ ids.length = 0 := fun h0 => hne (List.length_eq_zero.mp h0)
    simp [castVote, hlen, runTransaction, hb, Except.map]
  | ok ws =>
    obtain ⟨poll, hacc⟩ := castVoteBody_ok hne hb
    rw [castVote_of_accepts anonymous hacc]
    rfl

theorem string_append_left_cancel {p a b : String} (h : p ++ a = p ++ b) : a = b := by
  have := congrArg String.data h
  simp only [String.data_append] at this
  exact String.ext (List.append_cancel_left this)

theorem string_append_right_cancel {p q a : String} (h : p ++ a = q ++ a) : p = q := by
  have := congrArg String.data h
  simp only [String.data_append] at this
  exact String.ext (List.append_cancel_right this)

theorem truthy_some {u : String} (h : u ≠ "") : truthy (some u) = true := by
  simp [truthy, h]

theorem docGet_bumpOptions (ids : List String) (c : List ((String × String) × PollOption))
    (p q o : String) :
    docGet (bumpOptions c p ids) (q, o)
      = (docGet c (q, o)).map (addVoteCount (if q = p then ids.count o else 0)) := by
  induction ids generalizing c with
  | nil =>
    cases h : docGet c (q, o) <;> simp [bumpOptions, h, addVoteCount]
  | cons i rest ih =>
    have hstep : bumpOptions c p (i :: rest)
        = bumpOptions (docUpdate c (p, i) (addVoteCount 1)) p rest := rfl
    rw [hstep, ih, docGet_docUpdate]
    by_cases hq : q = p
    · subst hq
      by_cases ho : o = i
      · subst ho
        cases h : docGet c (q, o) <;> simp [h, addVoteCount]
        omega
      · have ho' : ¬ i = o := fun e => ho e.symm
        have hc : List.count o (i :: rest) = List.count o rest := by
          rw [List.count_cons]; simp [ho']
        simp [ho, hc]
    · have : ¬ ((q, o) = (p, i)) := by
        intro e; exact hq (congrArg Prod.fst e)
      simp [hq, this]

theorem castVoteBody_already_voted {s : Store} {now : Nat} {pollId : String}
    {userId : Option String} {ids : List String} {guestId : Option String} {poll : Poll}
    (anonymous : Bool)
    (hpoll : docGet s.polls pollId = some poll)
    (hperm : truthy userId = true ∨ poll.guestVoting = true)
    (hstart : ∀ t, poll.startsAt = some t → t ≤ now)
    (hactive : poll.status = POLL_STATUS.ACTIVE)
    (hopen : ∀ t, poll.closesAt = some t → now < t)
    (hcard : poll.type = POLL_TYPES.SINGLE_CHOICE → ids.length ≤ 1)
    (hvote : (docGet s.votes (getVoteId pollId userId guestId)).isSome = true) :
    castVoteBody now pollId userId ids anonymous guestId s
      = .error "You have already voted on this poll" := by
  have h1 : ¬ ((!truthy userId && !poll.guestVoting) = true) := by
    rcases hperm with hp | hp <;> simp [hp]
  have h2 : ¬ ((match poll.startsAt with
             | some startsAt => decide (now < startsAt)
             | none => false) = true) := by
    cases hs : poll.startsAt with
    | none => simp
    | some t => simpa using hstart t hs
  have h3 : ¬ (poll.status ≠ POLL_STATUS.ACTIVE) := by simpa using hactive
  have h4 : ¬ ((match poll.closesAt with
             | some closesAt => decide (now ≥ closesAt)
             | none => false) = true) := by
    cases hs : poll.closesAt with
    | none => simp
    | some t => simpa using hopen t hs
  have h5 : ¬ (poll.type = POLL_TYPES.SINGLE_CHOICE ∧ ids.length > 1) := by
    rintro ⟨a, b⟩; have := hcard a; omega
  simp only [castVoteBody, hpoll]
  rw [if_neg h1, if_neg h2, if_neg h3, if_neg h4, if_neg h5, if_pos hvote]

theorem castVote_eq_of_body_error {s : Store} {now : Nat} {pollId : String}
    {userId : Option String} {ids : List String} {anonymous : Bool}
    {guestId : Option String} {e : String}
    (h : castVoteBody now pollId userId ids anonymous guestId s = .error e) :
    castVote s now pollId userId (some ids) anonymous guestId
      = (s, .error (if ids.length = 0 then "At least one option must be selected" else e)) := by
  by_cases hlen : ids.length = 0
  · simp [castVote, hlen]
  · simp [castVote, hlen, runTransaction, h]

/-- C2: `castVote` is all-or-nothing.  Whenever it fails, with whatever error, the
database it leaves is exactly the one it was given: no vote document is created
and no poll or option counter changes. -/
theorem castVote_all_or_nothing (s : Store) (now : Nat) (pollId : String)
    (userId : Option String) (optionIds : Option (List String)) (anonymous : Bool)
    (guestId : Option String) (e : String)
    (h : (castVote s now pollId userId optionIds anonymous guestId).2 = .error e) :
    (castVote s now pollId userId optionIds anonymous guestId).1 = s :=
  castVote_store_of_error s now pollId userId optionIds anonymous guestId e h

/-- C1: a successful `castVote` with a duplicate-free selection creates exactly one
vote document, at key `getVoteId pollId userId guestId` where none existed, raises
the poll's `totalVotes` by exactly 1 and the `voteCount` of each selected option by
exactly 1, and leaves every other poll, option and vote document unchanged. -/
theorem castVote_success_effect (s s' : Store) (now : Nat) (pollId : String)
    (userId : Option String) (ids : List String) (anonymous : Bool)
    (guestId : Option String) (hnodup : ids.Nodup)
    (h : castVote s now pollId userId (some ids) anonymous guestId = (s', .ok ())) :
    docGet s.votes (getVoteId pollId userId guestId) = none ∧
    (∃ poll, docGet s.polls pollId = some poll ∧
      s'.votes = (getVoteId pollId userId guestId,
          { pollId := pollId, userId := orNull userId, guestId := orNull guestId,
            optionIds := ids, anonymous := anonymous || poll.anonymous,
            createdAt := now }) :: s.votes ∧
      docGet s'.polls pollId = some { poll with totalVotes := poll.totalVotes + 1 }) ∧
    (∀ k, k ≠ getVoteId pollId userId guestId → docGet s'.votes k = docGet s.votes k) ∧
    (∀ q, q ≠ pollId → docGet s'.polls q = docGet s.polls q) ∧
    (∀ o ∈ ids, ∃ opt, docGet s.pollOptions (pollId, o) = some opt ∧
      docGet s'.pollOptions (pollId, o) = some { opt with voteCount := opt.voteCount + 1 }) ∧
    (∀ q o, ¬ (q = pollId ∧ o ∈ ids) →
      docGet s'.pollOptions (q, o) = docGet s.pollOptions (q, o)) := by
  obtain ⟨ids', poll, hids, hacc⟩ := accepts_of_castVote_ok (by rw [h])
  cases hids
  rw [castVote_of_accepts anonymous hacc] at h
  have hs' : s' = afterVote s (getVoteId pollId userId guestId)
      (voteData now pollId userId ids anonymous guestId poll) pollId ids :=
    (congrArg Prod.fst h).symm
  subst hs'
  refine ⟨hacc.fresh, ⟨poll, hacc.poll_eq, ?_, ?_⟩, ?_, ?_, ?_, ?_⟩
  · simp only [afterVote, docSet, docDelete_eq_self _ _ hacc.fresh]
    rfl
  · simp only [afterVote, docGet_docUpdate, hacc.poll_eq]
    simp [incTotalVotes]
  · intro k hk
    simp only [afterVote, docGet_docSet, if_neg hk]
  · intro q hq
    simp only [afterVote, docGet_docUpdate, if_neg hq]
  · intro o ho
    obtain ⟨opt, hopt⟩ := Option.isSome_iff_exists.mp (hacc.options o ho)
    refine ⟨opt, hopt, ?_⟩
    simp only [afterVote, docGet_bumpOptions, hopt, if_true, Option.map_some',
      List.count_eq_one_of_mem hnodup ho]
    rfl
  · intro q o hqo
    simp only [afterVote, docGet_bumpOptions]
    have : (if q = pollId then List.count o ids else 0) = 0 := by
      by_cases hq : q = pollId
      · simp only [hq, if_true]
        exact List.count_eq_zero_of_not_mem (fun ho => hqo ⟨hq, ho⟩)
      · simp [hq]
    rw [this]
    cases hd : docGet s.pollOptions (q, o) <;> simp [addVoteCount]

theorem getVoteId_user (pollId : String) {u : String} (hu : u ≠ "") (g : Option String) :
    getVoteId pollId (some u) g = pollId ++ "_" ++ u := by
  simp [getVoteId, truthy_some hu, jsString]

theorem getVoteId_guest (pollId : String) (g : Option String) :
    getVoteId pollId none g = pollId ++ "_guest_" ++ jsString g := by
  simp [getVoteId, truthy]

/-- C8: `getVoteId` has the documented format, `pollId_userId` for a non-empty user
id (whatever the guest id) and `pollId_guest_guestId` when the user id is null or
empty, and `hasUserVoted`, `getUserVote` and `castVote` read and write the vote
document at exactly this id. -/
theorem getVoteId_format (pollId : String) (guestId : Option String) :
    (∀ u : String, u ≠ "" → getVoteId pollId (some u) guestId = pollId ++ "_" ++ u) ∧
    (∀ g : String, getVoteId pollId none (some g) = pollId ++ "_guest_" ++ g) ∧
    (∀ g : String, getVoteId pollId (some "") (some g) = pollId ++ "_guest_" ++ g) ∧
    (∀ (s : Store) (userId : Option String), hasUserVoted s pollId userId guestId
      = (docGet s.votes (getVoteId pollId userId guestId)).isSome) ∧
    (∀ (s : Store) (userId : Option String), getUserVote s pollId userId guestId
      = (docGet s.votes (getVoteId pollId userId guestId)).map
          (fun v => (getVoteId pollId userId guestId, v))) ∧
    (∀ (s : Store) (now : Nat) (userId : Option String) (optionIds : Option (List String))
        (anonymous : Bool),
      ((docGet s.votes (getVoteId pollId userId guestId)).isSome = true →
        (castVote s now pollId userId optionIds anonymous guestId).2 ≠ .ok ()) ∧
      ((castVote s now pollId userId optionIds anonymous guestId).2 = .ok () →
        (docGet (castVote s now pollId userId optionIds anonymous guestId).1.votes
          (getVoteId pollId userId guestId)).isSome = true ∧
        ∀ k, k ≠ getVoteId pollId userId guestId →
          docGet (castVote s now pollId userId optionIds anonymous guestId).1.votes k
            = docGet s.votes k)) := by
  refine ⟨?_, ?_, ?_, ?_, ?_, ?_⟩
  · intro u hu
    simp [getVoteId, truthy_some hu, jsString]
  · intro g
    simp [getVoteId, truthy, jsString]
  · intro g
    simp [getVoteId, truthy, jsString]
  · intro s userId
    rfl
  · intro s userId
    unfold getUserVote
    cases docGet s.votes (getVoteId pollId userId guestId) <;> rfl
  · intro s now userId optionIds anonymous
    constructor
    · intro hex hok
      obtain ⟨ids, poll, _, hacc⟩ := accepts_of_castVote_ok hok
      rw [hacc.fresh] at hex
      simp at hex
    · intro hok
      obtain ⟨ids, poll, hids, hacc⟩ := accepts_of_castVote_ok hok
      subst hids
      rw [castVote_of_accepts anonymous hacc]
      constructor
      · simp [afterVote, docGet_docSet]
      · intro k hk
        simp only [afterVote, docGet_docSet, if_neg hk]

/-- C9: for one poll, the vote id of a non-empty user id that does not begin with
`guest_` differs from the vote id of every guest, and `getVoteId` is injective on
non-empty user ids and injective on guest ids. -/
theorem getVoteId_collision_free (pollId : String) :
    (∀ (u : String) (g : Option String), u ≠ "" → ¬ ("guest_".toList <+: u.toList) →
      getVoteId pollId (some u) none ≠ getVoteId pollId none g) ∧
    (∀ (u u' : String) (g g' : Option String), u ≠ "" → u' ≠ "" →
      getVoteId pollId (some u) g = getVoteId pollId (some u') g' → u = u') ∧
    (∀ g g' : String,
      getVoteId pollId none (some g) = getVoteId pollId none (some g') → g = g') := by
  refine ⟨?_, ?_, ?_⟩
  · intro u g hu hpre heq
    rw [getVoteId_user pollId hu, getVoteId_guest] at heq
    have h1 := congrArg String.data heq
    simp only [String.data_append] at h1
    rw [List.append_assoc, List.append_assoc] at h1
    have h2 := List.append_cancel_left h1
    apply hpre
    refine ⟨(jsString g).toList, ?_⟩
    have h3 : "_".data ++ u.data = "_".data ++ ("guest_".data ++ (jsString g).data) := by
      rw [h2]; rfl
    exact (List.append_cancel_left h3).symm
  · intro u u' g g' hu hu' heq
    rw [getVoteId_user pollId hu, getVoteId_user pollId hu'] at heq
    exact string_append_left_cancel heq
  · intro g g' heq
    rw [getVoteId_guest, getVoteId_guest] at heq
    exact string_append_left_cancel heq

/-- C10: for an existing poll, a permitted voter and a non-empty selection,
`castVote` at instant `now` passes the eligibility checks (fails with none of
'Poll has not started yet', 'Poll is not active', 'Poll has closed') exactly when
the status is active, `startsAt` is unset or `now ≥ startsAt`, and `closesAt` is
unset or `now < closesAt`; so a vote at `now = startsAt` is eligible and a vote at
`now = closesAt` is rejected. -/
theorem castVote_eligibility_gate (s : Store) (now : Nat) (pollId : String)
    (userId : Option String) (ids : List String) (anonymous : Bool)
    (guestId : Option String) (poll : Poll)
    (hpoll : docGet s.polls pollId = some poll)
    (hperm : truthy userId = true ∨ poll.guestVoting = true)
    (hne : ids ≠ []) :
    (((castVote s now pollId userId (some ids) anonymous guestId).2
          ≠ .error "Poll has not started yet" ∧
        (castVote s now pollId userId (some ids) anonymous guestId).2
          ≠ .error "Poll is not active" ∧
        (castVote s now pollId userId (some ids) anonymous guestId).2
          ≠ .error "Poll has closed")
      ↔ (poll.status = POLL_STATUS.ACTIVE ∧ (∀ t, poll.startsAt = some t → t ≤ now) ∧
          (∀ t, poll.closesAt = some t → now < t))) ∧
    (poll.status = POLL_STATUS.ACTIVE → poll.startsAt = some now →
      (∀ t, poll.closesAt = some t → now < t) →
      (castVote s now pollId userId (some ids) anonymous guestId).2
          ≠ .error "Poll has not started yet" ∧
        (castVote s now pollId userId (some ids) anonymous guestId).2
          ≠ .error "Poll is not active" ∧
        (castVote s now pollId userId (some ids) anonymous guestId).2
          ≠ .error "Poll has closed") ∧
    (poll.closesAt = some now →
      (castVote s now pollId userId (some ids) anonymous guestId).2
          = .error "Poll has not started yet" ∨
        (castVote s now pollId userId (some ids) anonymous guestId).2
          = .error "Poll is not active" ∨
        (castVote s now pollId userId (some ids) anonymous guestId).2
          = .error "Poll has closed") := by
  have h1 : ¬ ((!truthy userId && !poll.guestVoting) = true) := by
    rcases hperm with hp | hp <;> simp [hp]
  have key : (castVote s now pollId userId (some ids) anonymous guestId).2
      = (if (match poll.startsAt with
             | some startsAt => decide (now < startsAt)
             | none => false) = true then .error "Poll has not started yet"
         else if poll.status ≠ POLL_STATUS.ACTIVE then .error "Poll is not active"
         else if (match poll.closesAt with
             | some closesAt => decide (now ≥ closesAt)
             | none => false) = true then .error "Poll has closed"
         else (castVote s now pollId userId (some ids) anonymous guestId).2) := by
    split_ifs with a b c
    · rw [castVote_result now pollId userId anonymous guestId hne]
      simp only [castVoteBody, hpoll, if_neg h1, if_pos a]; rfl
    · rw [castVote_result now pollId userId anonymous guestId hne]
      simp only [castVoteBody, hpoll, if_neg h1, if_neg a, if_pos b]; rfl
    · rw [castVote_result now pollId userId anonymous guestId hne]
      simp only [castVoteBody, hpoll, if_neg h1, if_neg a, if_neg b, if_pos c]; rfl
    · rfl
  have later : (poll.status = POLL_STATUS.ACTIVE ∧ (∀ t, poll.startsAt = some t → t ≤ now) ∧
          (∀ t, poll.closesAt = some t → now < t)) →
      ((castVote s now pollId userId (some ids) anonymous guestId).2
          ≠ .error "Poll has not started yet" ∧
        (castVote s now pollId userId (some ids) anonymous guestId).2
          ≠ .error "Poll is not active" ∧
        (castVote s now pollId userId (some ids) anonymous guestId).2
          ≠ .error "Poll has closed") := by
    rintro ⟨hact, hstart, hopen⟩
    have h2 : ¬ ((match poll.startsAt with
               | some startsAt => decide (now < startsAt)
               | none => false) = true) := by
      cases hs : poll.startsAt with
      | none => simp
      | some t => simpa using hstart t hs
    have h3 : ¬ (poll.status ≠ POLL_STATUS.ACTIVE) := by simpa using hact
    have h4 : ¬ ((match poll.closesAt with
               | some closesAt => decide (now ≥ closesAt)
               | none => false) = true) := by
      cases hs : poll.closesAt with
      | none => simp
      | some t => simpa using hopen t hs
    rw [castVote_result now pollId userId anonymous guestId hne]
    simp only [castVoteBody, hpoll, if_neg h1, if_neg h2, if_neg h3, if_neg h4]
    split_ifs <;> simp [Except.map]
  have earlier : ((castVote s now pollId userId (some ids) anonymous guestId).2
          ≠ .error "Poll has not started yet" ∧
        (castVote s now pollId userId (some ids) anonymous guestId).2
          ≠ .error "Poll is not active" ∧
        (castVote s now pollId userId (some ids) anonymous guestId).2
          ≠ .error "Poll has closed") →
      (poll.status = POLL_STATUS.ACTIVE ∧ (∀ t, poll.startsAt = some t → t ≤ now) ∧
          (∀ t, poll.closesAt = some t → now < t)) := by
    rintro ⟨n1, n2, n3⟩
    by_cases a : (match poll.startsAt with
             | some startsAt => decide (now < startsAt)
             | none => false) = true
    · rw [key, if_pos a] at n1; exact absurd rfl n1
    · by_cases b : poll.status ≠ POLL_STATUS.ACTIVE
      · rw [key, if_neg a, if_pos b] at n2; exact absurd rfl n2
      · by_cases c : (match poll.closesAt with
             | some closesAt => decide (now ≥ closesAt)
             | none => false) = true
        · rw [key, if_neg a, if_neg b, if_pos c] at n3; exact absurd rfl n3
        · refine ⟨by simpa using b, ?_, ?_⟩
          · intro t ht
            simp only [ht, decide_eq_true_eq] at a
            omega
          · intro t ht
            simp only [ht, decide_eq_true_eq] at c
            omega
  refine ⟨⟨earlier, later⟩, ?_, ?_⟩
  · intro hact hstart hopen
    refine later ⟨hact, ?_, hopen⟩
    intro t ht
    rw [hstart] at ht
    cases ht
    exact le_refl _
  · intro hclose
    by_contra hcon
    simp only [not_or] at hcon
    have := (earlier hcon).2.2 now hclose
    omega

theorem docGet_votes_filter_key (c : List (String × Vote)) (k : String)
    (h : docGet c k = none) : c.filter (fun e => decide (e.1 = k)) = [] := by
  induction c with
  | nil => rfl
  | cons e rest ih =>
    obtain ⟨ke, ve⟩ := e
    rw [docGet_cons] at h
    by_cases hk : ke = k
    · simp [hk] at h
    · rw [if_neg hk] at h
      rw [List.filter_cons_of_neg (by simpa using hk), ih h]

/-- C6: when `castVote` succeeds, the same call repeated on the resulting database at
the same instant fails with 'You have already voted on this poll' and changes
nothing; exactly one vote document then exists at the voter's vote id and the
poll's `totalVotes` was raised once. -/
theorem castVote_idempotent_rejection (s s' : Store) (now : Nat) (pollId : String)
    (userId : Option String) (optionIds : Option (List String)) (anonymous : Bool)
    (guestId : Option String)
    (h : castVote s now pollId userId optionIds anonymous guestId = (s', .ok ())) :
    castVote s' now pollId userId optionIds anonymous guestId
      = (s', .error "You have already voted on this poll") ∧
    (s'.votes.filter (fun e => decide (e.1 = getVoteId pollId userId guestId))).length = 1 ∧
    (s.votes.filter (fun e => decide (e.1 = getVoteId pollId userId guestId))).length = 0 ∧
    ∃ poll, docGet s.polls pollId = some poll ∧
      docGet s'.polls pollId = some { poll with totalVotes := poll.totalVotes + 1 } := by
  obtain ⟨ids, poll, hids, hacc⟩ := accepts_of_castVote_ok (by rw [h])
  subst hids
  rw [castVote_of_accepts anonymous hacc] at h
  have hs' : s' = afterVote s (getVoteId pollId userId guestId)
      (voteData now pollId userId ids anonymous guestId poll) pollId ids :=
    (congrArg Prod.fst h).symm
  have hpoll' : docGet s'.polls pollId = some (incTotalVotes poll) := by
    rw [hs']
    simp only [afterVote, docGet_docUpdate, hacc.poll_eq]
    simp
  have hvote' : (docGet s'.votes (getVoteId pollId userId guestId)).isSome = true := by
    rw [hs']
    simp [afterVote, docGet_docSet]
  refine ⟨?_, ?_, ?_, poll, hacc.poll_eq, hpoll'⟩
  · have hb := castVoteBody_already_voted anonymous hpoll'
      hacc.permitted hacc.started hacc.active hacc.open_ hacc.cardinality hvote'
    rw [castVote_eq_of_body_error hb]
    have hlen : ¬ ids.length = 0 := fun h0 => hacc.nonempty (List.length_eq_zero.mp h0)
    rw [if_neg hlen]
  · rw [hs']
    simp only [afterVote, docSet, docDelete_eq_self _ _ hacc.fresh]
    rw [List.filter_cons_of_pos (by simp), docGet_votes_filter_key _ _ hacc.fresh]
    rfl
  · rw [docGet_votes_filter_key _ _ hacc.fresh]
    rfl

/-- C7 fails as stated: after a user has voted and the poll was closed, the same
user's next attempt fails with 'Poll is not active', not with 'You have already
voted on this poll'. -/
theorem castVote_duplicate_on_closed_poll :
    (docGet demoClosed.polls "P").isSome = true ∧
    (docGet demoClosed.votes (getVoteId "P" (some "alice") none)).isSome = true ∧
    (castVote demoClosed 30 "P" (some "alice") (some ["o0"]) false none).2
      = .error "Poll is not active" ∧
    (castVote demoClosed 30 "P" (some "alice") (some ["o0"]) false none).2
      ≠ .error "You have already voted on this poll" := by
  refine ⟨by decide, by decide, by rfl, ?_⟩
  have : (castVote demoClosed 30 "P" (some "alice") (some ["o0"]) false none).2
      = .error "Poll is not active" := by rfl
  rw [this]
  simp

/-- C7, amended: when a vote document already exists at the caller's vote id for an
existing poll, a `castVote` by that voter with a non-empty selection never succeeds
and changes nothing; it fails with 'You have already voted on this poll' exactly
when the voter is permitted, the poll is votable at that instant and the selection
passes the single-choice check, the checks that come before the duplicate check. -/
theorem castVote_duplicate_attempt (s : Store) (now : Nat) (pollId : String)
    (userId : Option String) (ids : List String) (anonymous : Bool)
    (guestId : Option String) (poll : Poll)
    (hpoll : docGet s.polls pollId = some poll)
    (hvote : (docGet s.votes (getVoteId pollId userId guestId)).isSome = true)
    (hne : ids ≠ []) :
    (castVote s now pollId userId (some ids) anonymous guestId).2 ≠ .ok () ∧
    (castVote s now pollId userId (some ids) anonymous guestId).1 = s ∧
    ((castVote s now pollId userId (some ids) anonymous guestId).2
        = .error "You have already voted on this poll"
      ↔ ((truthy userId = true ∨ poll.guestVoting = true) ∧
          (∀ t, poll.startsAt = some t → t ≤ now) ∧
          poll.status = POLL_STATUS.ACTIVE ∧
          (∀ t, poll.closesAt = some t → now < t) ∧
          (poll.type = POLL_TYPES.SINGLE_CHOICE → ids.length ≤ 1))) := by
  have hnok : (castVote s now pollId userId (some ids) anonymous guestId).2 ≠ .ok () := by
    intro hok
    obtain ⟨ids', poll', _, hacc⟩ := accepts_of_castVote_ok hok
    rw [hacc.fresh] at hvote
    simp at hvote
  refine ⟨hnok, ?_, ?_⟩
  · cases hr : (castVote s now pollId userId (some ids) anonymous guestId).2 with
    | ok u => exact absurd hr hnok
    | error e => exact castVote_store_of_error _ _ _ _ _ _ _ e hr
  · constructor
    · intro hres
      rw [castVote_result now pollId userId anonymous guestId hne] at hres
      simp only [castVoteBody, hpoll] at hres
      split_ifs at hres with h1 h2 h3 h4 h5
      · simp [Except.map] at hres
      · simp [Except.map] at hres
      · simp [Except.map] at hres
      · simp [Except.map] at hres
      · simp [Except.map] at hres
      · refine ⟨?_, ?_, ?_, ?_, ?_⟩
        · cases hu : truthy userId <;> cases hg : poll.guestVoting <;> simp [hu, hg] at h1 ⊢
        · intro t ht
          simp only [ht, decide_eq_true_eq] at h2
          omega
        · simpa using h3
        · intro t ht
          simp only [ht, decide_eq_true_eq] at h4
          omega
        · intro hs
          by_contra hl
          exact h5 ⟨hs, by omega⟩
    · rintro ⟨hperm, hstart, hact, hopen, hcard⟩
      have hb := castVoteBody_already_voted anonymous hpoll
        hperm hstart hact hopen hcard hvote
      rw [castVote_eq_of_body_error hb]
      have hlen : ¬ ids.length = 0 := fun h0 => hne (List.length_eq_zero.mp h0)
      rw [if_neg hlen]

/-! ## The invariant of reachable databases -/

section KeyLemmas
variable {κ : Type} {α : Type} [DecidableEq κ]

theorem docGet_isSome_iff (c : List (κ × α)) (k : κ) :
    (docGet c k).isSome = true ↔ k ∈ c.map Prod.fst := by
  induction c with
  | nil => simp [docGet]
  | cons e rest ih =>
    obtain ⟨ke, ve⟩ := e
    rw [docGet_cons]
    by_cases h : ke = k
    · simp [h]
    · have h' : ¬ k = ke := fun e => h e.symm
      simp [h, h', ih]

theorem docGet_eq_none_iff (c : List (κ × α)) (k : κ) :
    docGet c k = none ↔ k ∉ c.map Prod.fst := by
  rw [← docGet_isSome_iff]
  cases docGet c k <;> simp

theorem mem_of_docGet {c : List (κ × α)} {k : κ} {v : α} (h : docGet c k = some v) :
    (k, v) ∈ c := by
  induction c with
  | nil => simp [docGet] at h
  | cons e rest ih =>
    obtain ⟨ke, ve⟩ := e
    rw [docGet_cons] at h
    by_cases hk : ke = k
    · rw [if_pos hk] at h
      cases h
      subst hk
      exact List.mem_cons_self _ _
    · rw [if_neg hk] at h
      exact List.mem_cons_of_mem _ (ih h)

theorem docGet_of_mem {c : List (κ × α)} (hnd : (c.map Prod.fst).Nodup) {k : κ} {v : α}
    (h : (k, v) ∈ c) : docGet c k = some v := by
  induction c with
  | nil => simp at h
  | cons e rest ih =>
    obtain ⟨ke, ve⟩ := e
    rw [List.map_cons, List.nodup_cons] at hnd
    rw [docGet_cons]
    rcases List.mem_cons.mp h with heq | hmem
    · cases heq
      simp
    · have hne : ¬ ke = k := by
        intro hk
        subst hk
        exact hnd.1 (List.mem_map.mpr ⟨(ke, v), hmem, rfl⟩)
      rw [if_neg hne]
      exact ih hnd.2 hmem

theorem eq_of_mem_of_key_eq {c : List (κ × α)} (hnd : (c.map Prod.fst).Nodup)
    {e e' : κ × α} (he : e ∈ c) (he' : e' ∈ c) (hk : e.1 = e'.1) : e = e' := by
  obtain ⟨k, v⟩ := e
  obtain ⟨k', v'⟩ := e'
  simp only at hk
  subst hk
  have h1 := docGet_of_mem hnd he
  have h2 := docGet_of_mem hnd he'
  rw [h1] at h2
  cases h2
  rfl

theorem docUpdate_keys (c : List (κ × α)) (k : κ) (f : α → α) :
    (docUpdate c k f).map Prod.fst = c.map Prod.fst := by
  induction c with
  | nil => rfl
  | cons e rest ih =>
    rw [docUpdate_cons, List.map_cons, List.map_cons, ih]
    split_ifs <;> rfl

theorem mem_docUpdate {c : List (κ × α)} {k : κ} {f : α → α} {e' : κ × α}
    (h : e' ∈ docUpdate c k f) :
    ∃ e ∈ c, e'.1 = e.1 ∧ ((e.1 = k ∧ e'.2 = f e.2) ∨ (e.1 ≠ k ∧ e'.2 = e.2)) := by
  simp only [docUpdate, List.mem_map] at h
  obtain ⟨e, he, heq⟩ := h
  refine ⟨e, he, ?_⟩
  by_cases hk : e.1 = k
  · rw [if_pos hk] at heq
    subst heq
    exact ⟨rfl, Or.inl ⟨hk, rfl⟩⟩
  · rw [if_neg hk] at heq
    subst heq
    exact ⟨rfl, Or.inr ⟨hk, rfl⟩⟩

theorem docUpdate_eq_self (c : List (κ × α)) (k : κ) (f : α → α)
    (h : docGet c k = none) : docUpdate c k f = c := by
  induction c with
  | nil => rfl
  | cons e rest ih =>
    obtain ⟨ke, ve⟩ := e
    rw [docGet_cons] at h
    by_cases hk : ke = k
    · simp [hk] at h
    · rw [if_neg hk] at h
      rw [docUpdate_cons, if_neg hk, ih h]

theorem foldl_docDelete (ks : List κ) (c : List (κ × α)) :
    ks.foldl docDelete c = c.filter (fun e => decide (e.1 ∉ ks)) := by
  induction ks generalizing c with
  | nil => simp
  | cons k rest ih =>
    rw [List.foldl_cons, ih, docDelete, List.filter_filter]
    apply List.filter_congr
    intro e _
    by_cases h1 : e.1 = k <;> by_cases h2 : e.1 ∈ rest <;> simp [h1, h2]

theorem docGet_filter_key (c : List (κ × α)) (P : κ → Bool) (k : κ) :
    docGet (c.filter (fun e => P e.1)) k = if P k = true then docGet c k else none := by
  induction c with
  | nil => simp [docGet]
  | cons e rest ih =>
    obtain ⟨ke, ve⟩ := e
    by_cases hp : P ke = true
    · rw [List.filter_cons_of_pos (by simpa using hp), docGet_cons, docGet_cons, ih]
      by_cases hk : ke = k
      · subst hk; simp [hp]
      · simp [hk]
    · rw [List.filter_cons_of_neg (by simpa using hp), docGet_cons, ih]
      by_cases hk : ke = k
      · subst hk; simp [hp]
      · simp [hk]

end KeyLemmas

theorem filter_keys_nodup {κ : Type} {α : Type} {c : List (κ × α)} (P : κ × α → Bool)
    (h : (c.map Prod.fst).Nodup) : ((c.filter P).map Prod.fst).Nodup :=
  List.Nodup.sublist (List.Sublist.map _ (List.filter_sublist c)) h

theorem bumpOptions_eq_map (ids : List String) (c : List ((String × String) × PollOption))
    (p : String) :
    bumpOptions c p ids
      = c.map (fun e => if e.1.1 = p then (e.1, addVoteCount (ids.count e.1.2) e.2) else e) := by
  induction ids generalizing c with
  | nil =>
    simp only [bumpOptions, List.foldl_nil, List.count_nil]
    symm
    convert List.map_id c using 2
    funext e
    split_ifs <;> rfl
  | cons i rest ih =>
    have hstep : bumpOptions c p (i :: rest)
        = bumpOptions (docUpdate c (p, i) (addVoteCount 1)) p rest := rfl
    rw [hstep, ih, docUpdate, List.map_map]
    apply List.map_congr_left
    intro e _
    obtain ⟨⟨q, o⟩, d⟩ := e
    simp only [Function.comp]
    by_cases hq : q = p
    · subst hq
      by_cases ho : o = i
      · subst ho
        simp [addVoteCount, List.count_cons]
        omega
      · have ho' : ¬ i = o := fun e => ho e.symm
        simp [ho, ho', List.count_cons]
    · have : ¬ ((q, o) = (p, i)) := fun e => hq (congrArg Prod.fst e)
      simp [hq]

theorem bumpOptions_keys (ids : List String) (c : List ((String × String) × PollOption))
    (p : String) : (bumpOptions c p ids).map Prod.fst = c.map Prod.fst := by
  rw [bumpOptions_eq_map, List.map_map]
  apply List.map_congr_left
  intro e _
  simp only [Function.comp]
  split_ifs <;> rfl

theorem mem_bumpOptions {ids : List String} {c : List ((String × String) × PollOption)}
    {p : String} {e' : (String × String) × PollOption} (h : e' ∈ bumpOptions c p ids) :
    ∃ e ∈ c, e'.1 = e.1 ∧
      e'.2.voteCount = e.2.voteCount + (if e.1.1 = p then ids.count e.1.2 else 0) := by
  rw [bumpOptions_eq_map, List.mem_map] at h
  obtain ⟨e, he, heq⟩ := h
  refine ⟨e, he, ?_⟩
  by_cases hp : e.1.1 = p
  · rw [if_pos hp] at heq
    subst heq
    simp [hp, addVoteCount]
  · rw [if_neg hp] at heq
    subst heq
    simp [hp]

theorem votesOf_cons (e : String × Vote) (votes : List (String × Vote)) (q : String) :
    votesOf (e :: votes) q
      = if e.2.pollId = q then e :: votesOf votes q else votesOf votes q := by
  by_cases h : e.2.pollId = q
  · rw [if_pos h, votesOf, List.filter_cons_of_pos (by simpa using h)]; rfl
  · rw [if_neg h, votesOf, List.filter_cons_of_neg (by simpa using h)]; rfl

theorem selections_cons (e : String × Vote) (votes : List (String × Vote)) (q o : String) :
    selections (e :: votes) q o
      = (if e.2.pollId = q then e.2.optionIds.count o else 0) + selections votes q o := by
  unfold selections
  rw [votesOf_cons]
  by_cases h : e.2.pollId = q
  · simp [h]
  · simp [h]

theorem Inv.afterVote {s : Store} (hinv : Inv s) {now : Nat} {pollId : String}
    {userId : Option String} {ids : List String} {guestId : Option String} {poll : Poll}
    (anonymous : Bool) (hacc : Accepts s now pollId userId ids guestId poll) :
    Inv (afterVote s (getVoteId pollId userId guestId)
      (voteData now pollId userId ids anonymous guestId poll) pollId ids) := by
  have hvotes : docSet s.votes (getVoteId pollId userId guestId)
      (voteData now pollId userId ids anonymous guestId poll)
      = (getVoteId pollId userId guestId, voteData now pollId userId ids anonymous guestId poll)
        :: s.votes := by
    rw [docSet, docDelete_eq_self _ _ hacc.fresh]
  have hpollmem : pollId ∈ s.polls.map Prod.fst :=
    (docGet_isSome_iff _ _).mp (by rw [hacc.poll_eq]; rfl)
  constructor
  · show ((docUpdate s.polls pollId incTotalVotes).map Prod.fst).Nodup
    rw [docUpdate_keys]; exact hinv.polls_nodup
  · show ((bumpOptions s.pollOptions pollId ids).map Prod.fst).Nodup
    rw [bumpOptions_keys]; exact hinv.options_nodup
  · show ((docSet s.votes _ _).map Prod.fst).Nodup
    rw [hvotes, List.map_cons, List.nodup_cons]
    exact ⟨(docGet_eq_none_iff _ _).mp hacc.fresh, hinv.votes_nodup⟩
  · show ∀ e ∈ docSet s.votes _ _, e.2.pollId ∈ (docUpdate s.polls pollId incTotalVotes).map Prod.fst
    rw [hvotes, docUpdate_keys]
    intro e he
    rcases List.mem_cons.mp he with heq | hmem
    · subst heq; exact hpollmem
    · exact hinv.vote_poll e hmem
  · show ∀ e ∈ bumpOptions s.pollOptions pollId ids,
      e.1.1 ∈ (docUpdate s.polls pollId incTotalVotes).map Prod.fst
    rw [docUpdate_keys]
    intro e he
    obtain ⟨e0, he0, hk, _⟩ := mem_bumpOptions he
    rw [hk]
    exact hinv.option_poll e0 he0
  · show ∀ e ∈ docUpdate s.polls pollId incTotalVotes,
      e.2.totalVotes = (votesOf (docSet s.votes _ _) e.1).length
    rw [hvotes]
    intro e he
    obtain ⟨e0, he0, hk, hcase⟩ := mem_docUpdate he
    rw [votesOf_cons, hk]
    have h0 := hinv.total e0 he0
    rcases hcase with ⟨hp, hv⟩ | ⟨hp, hv⟩
    · have : (voteData now pollId userId ids anonymous guestId poll).pollId = e0.1 := hp.symm
      rw [if_pos this, hv, List.length_cons, ← h0]
      rfl
    · have : ¬ (voteData now pollId userId ids anonymous guestId poll).pollId = e0.1 :=
        fun h => hp h.symm
      rw [if_neg this, hv, h0]
  · show ∀ e ∈ bumpOptions s.pollOptions pollId ids,
      e.2.voteCount = selections (docSet s.votes _ _) e.1.1 e.1.2
    rw [hvotes]
    intro e he
    obtain ⟨e0, he0, hk, hv⟩ := mem_bumpOptions he
    rw [selections_cons, hk, hv, hinv.count e0 he0, Nat.add_comm]
    congr 1
    by_cases hp : e0.1.1 = pollId
    · have : (voteData now pollId userId ids anonymous guestId poll).pollId = e0.1.1 := hp.symm
      rw [if_pos hp, if_pos this]; rfl
    · have : ¬ (voteData now pollId userId ids anonymous guestId poll).pollId = e0.1.1 :=
        fun h => hp h.symm
      rw [if_neg hp, if_neg this]
  · show ∀ e ∈ docSet s.votes _ _, ∀ o ∈ e.2.optionIds,
      (e.2.pollId, o) ∈ (bumpOptions s.pollOptions pollId ids).map Prod.fst
    rw [hvotes, bumpOptions_keys]
    intro e he o ho
    rcases List.mem_cons.mp he with heq | hmem
    · subst heq
      exact (docGet_isSome_iff _ _).mp (hacc.options o ho)
    · exact hinv.vote_options e hmem o ho
  · show ∀ e ∈ docSet s.votes _ _, e.2.optionIds ≠ []
    rw [hvotes]
    intro e he
    rcases List.mem_cons.mp he with heq | hmem
    · subst heq; exact hacc.nonempty
    · exact hinv.vote_nonempty e hmem
  · show ∀ e ∈ docSet s.votes _ _, ∀ pe ∈ docUpdate s.polls pollId incTotalVotes,
      pe.1 = e.2.pollId → pe.2.type = POLL_TYPES.SINGLE_CHOICE → e.2.optionIds.length = 1
    rw [hvotes]
    intro e he pe hpe hk hty
    obtain ⟨p0, hp0, hk0, hcase⟩ := mem_docUpdate hpe
    have hty0 : p0.2.type = POLL_TYPES.SINGLE_CHOICE := by
      rcases hcase with ⟨_, hv⟩ | ⟨_, hv⟩
      · rw [hv] at hty; exact hty
      · rw [hv] at hty; exact hty
    rcases List.mem_cons.mp he with heq | hmem
    · subst heq
      have hp0' : p0 = (pollId, poll) := by
        apply eq_of_mem_of_key_eq hinv.polls_nodup hp0 (mem_of_docGet hacc.poll_eq)
        rw [← hk0, hk]; rfl
      have hlen := hacc.cardinality (by rw [hp0'] at hty0; exact hty0)
      have hne := hacc.nonempty
      show ids.length = 1
      cases ids with
      | nil => exact absurd rfl hne
      | cons a rest =>
        simp only [List.length_cons] at hlen ⊢
        omega
    · exact hinv.vote_single e hmem p0 hp0 (by rw [← hk0, hk]) hty0

theorem inv_castVote {s : Store} (hinv : Inv s) (now : Nat) (pollId : String)
    (userId : Option String) (optionIds : Option (List String)) (anonymous : Bool)
    (guestId : Option String) :
    Inv (castVote s now pollId userId optionIds anonymous guestId).1 := by
  cases hr : (castVote s now pollId userId optionIds anonymous guestId).2 with
  | error e =>
    rw [castVote_store_of_error _ _ _ _ _ _ _ e hr]
    exact hinv
  | ok u =>
    obtain ⟨ids, poll, hids, hacc⟩ := accepts_of_castVote_ok hr
    subst hids
    rw [castVote_of_accepts anonymous hacc]
    exact hinv.afterVote anonymous hacc

theorem Inv.updatePolls {s : Store} (hinv : Inv s) (pollId : String) (f : Poll → Poll)
    (htotal : ∀ p, (f p).totalVotes = p.totalVotes) (htype : ∀ p, (f p).type = p.type) :
    Inv { s with polls := docUpdate s.polls pollId f } := by
  constructor
  · show ((docUpdate s.polls pollId f).map Prod.fst).Nodup
    rw [docUpdate_keys]; exact hinv.polls_nodup
  · exact hinv.options_nodup
  · exact hinv.votes_nodup
  · show ∀ e ∈ s.votes, e.2.pollId ∈ (docUpdate s.polls pollId f).map Prod.fst
    rw [docUpdate_keys]; exact hinv.vote_poll
  · show ∀ e ∈ s.pollOptions, e.1.1 ∈ (docUpdate s.polls pollId f).map Prod.fst
    rw [docUpdate_keys]; exact hinv.option_poll
  · show ∀ e ∈ docUpdate s.polls pollId f, e.2.totalVotes = (votesOf s.votes e.1).length
    intro e he
    obtain ⟨e0, he0, hk, hcase⟩ := mem_docUpdate he
    rw [hk, ← hinv.total e0 he0]
    rcases hcase with ⟨_, hv⟩ | ⟨_, hv⟩
    · rw [hv, htotal]
    · rw [hv]
  · exact hinv.count
  · exact hinv.vote_options
  · exact hinv.vote_nonempty
  · show ∀ e ∈ s.votes, ∀ pe ∈ docUpdate s.polls pollId f,
      pe.1 = e.2.pollId → pe.2.type = POLL_TYPES.SINGLE_CHOICE → e.2.optionIds.length = 1
    intro e he pe hpe hk hty
    obtain ⟨p0, hp0, hk0, hcase⟩ := mem_docUpdate hpe
    apply hinv.vote_single e he p0 hp0 (by rw [← hk0, hk])
    rcases hcase with ⟨_, hv⟩ | ⟨_, hv⟩
    · rw [hv, htype] at hty; exact hty
    · rw [hv] at hty; exact hty

theorem inv_closePoll {s : Store} (hinv : Inv s) (now : Nat) (pollId : String) :
    Inv (closePoll s now pollId).1 := by
  unfold closePoll updatePoll
  split
  · exact hinv
  · exact hinv.updatePolls pollId _ (fun _ => rfl) (fun _ => rfl)

theorem deletePoll_eq {s : Store} (hinv : Inv s) (pollId : String) :
    deletePoll s pollId
      = { polls := s.polls.filter (fun e => decide (e.1 ≠ pollId))
          pollOptions := s.pollOptions.filter (fun e => decide (e.1.1 ≠ pollId))
          votes := s.votes.filter (fun e => decide (e.2.pollId ≠ pollId)) } := by
  unfold deletePoll
  simp only [foldl_docDelete, docDelete]
  congr 1
  · apply List.filter_congr
    intro e he
    by_cases h : e.1.1 = pollId
    · have : e.1 ∈ (s.pollOptions.filter (fun e => decide (e.1.1 = pollId))).map Prod.fst :=
        List.mem_map.mpr ⟨e, List.mem_filter.mpr ⟨he, by simpa using h⟩, rfl⟩
      simp [h, this]
    · have : e.1 ∉ (s.pollOptions.filter (fun e => decide (e.1.1 = pollId))).map Prod.fst := by
        intro hm
        obtain ⟨e', he', hk⟩ := List.mem_map.mp hm
        have h' := (List.mem_filter.mp he').2
        simp only [decide_eq_true_eq] at h'
        rw [hk] at h'
        exact h h'
      simp [h, this]
  · apply List.filter_congr
    intro e he
    by_cases h : e.2.pollId = pollId
    · have : e.1 ∈ (s.votes.filter (fun e => decide (e.2.pollId = pollId))).map Prod.fst :=
        List.mem_map.mpr ⟨e, List.mem_filter.mpr ⟨he, by simpa using h⟩, rfl⟩
      simp [h, this]
    · have : e.1 ∉ (s.votes.filter (fun e => decide (e.2.pollId = pollId))).map Prod.fst := by
        intro hm
        obtain ⟨e', he', hk⟩ := List.mem_map.mp hm
        have hf := List.mem_filter.mp he'
        have h' := hf.2
        simp only [decide_eq_true_eq] at h'
        have := eq_of_mem_of_key_eq hinv.votes_nodup hf.1 he hk
        rw [this] at h'
        exact h h'
      simp [h, this]

theorem mem_keys_filter_ne {α : Type} {c : List (String × α)} {k p : String}
    (hk : k ∈ c.map Prod.fst) (hne : k ≠ p) :
    k ∈ (c.filter (fun e => decide (e.1 ≠ p))).map Prod.fst := by
  obtain ⟨e, he, rfl⟩ := List.mem_map.mp hk
  exact List.mem_map.mpr ⟨e, List.mem_filter.mpr ⟨he, by simpa using hne⟩, rfl⟩

theorem votesOf_filter_ne (votes : List (String × Vote)) {p q : String} (h : q ≠ p) :
    votesOf (votes.filter (fun e => decide (e.2.pollId ≠ p))) q = votesOf votes q := by
  unfold votesOf
  rw [List.filter_filter]
  apply List.filter_congr
  intro e _
  by_cases h1 : e.2.pollId = q
  · subst h1
    simp [h]
  · simp [h1]

theorem inv_deletePoll {s : Store} (hinv : Inv s) (pollId : String) :
    Inv (deletePoll s pollId) := by
  rw [deletePoll_eq hinv]
  constructor
  · exact filter_keys_nodup _ hinv.polls_nodup
  · exact filter_keys_nodup _ hinv.options_nodup
  · exact filter_keys_nodup _ hinv.votes_nodup
  · intro e he
    have hf := List.mem_filter.mp he
    have hne : e.2.pollId ≠ pollId := by simpa using hf.2
    exact mem_keys_filter_ne (hinv.vote_poll e hf.1) hne
  · intro e he
    have hf := List.mem_filter.mp he
    have hne : e.1.1 ≠ pollId := by simpa using hf.2
    exact mem_keys_filter_ne (hinv.option_poll e hf.1) hne
  · intro e he
    have hf := List.mem_filter.mp he
    have hne : e.1 ≠ pollId := by simpa using hf.2
    show e.2.totalVotes = (votesOf (s.votes.filter _) e.1).length
    rw [votesOf_filter_ne _ hne]
    exact hinv.total e hf.1
  · intro e he
    have hf := List.mem_filter.mp he
    have hne : e.1.1 ≠ pollId := by simpa using hf.2
    show e.2.voteCount = selections (s.votes.filter _) e.1.1 e.1.2
    unfold selections
    rw [votesOf_filter_ne _ hne]
    exact hinv.count e hf.1
  · intro e he o ho
    have hf := List.mem_filter.mp he
    have hne : e.2.pollId ≠ pollId := by simpa using hf.2
    obtain ⟨e', he', hk⟩ := List.mem_map.mp (hinv.vote_options e hf.1 o ho)
    refine List.mem_map.mpr ⟨e', List.mem_filter.mpr ⟨he', ?_⟩, hk⟩
    rw [hk]
    simpa using hne
  · intro e he
    exact hinv.vote_nonempty e (List.mem_filter.mp he).1
  · intro e he pe hpe hk hty
    exact hinv.vote_single e (List.mem_filter.mp he).1 pe (List.mem_filter.mp hpe).1 hk hty

theorem mem_createOptions {now : Nat} {pollId : String} {optionId : Nat → String}
    {opts : List String} {start : Nat} {e : (String × String) × PollOption}
    (h : e ∈ createOptions now pollId optionId start opts) :
    e.1.1 = pollId ∧ e.2.voteCount = 0 ∧
      ∃ i, start ≤ i ∧ i < start + opts.length ∧ e.1.2 = optionId i := by
  induction opts generalizing start with
  | nil => simp [createOptions] at h
  | cons t rest ih =>
    unfold createOptions at h
    split_ifs at h with ht
    · rcases List.mem_cons.mp h with heq | hmem
      · subst heq
        exact ⟨rfl, rfl, start, le_refl _, by simp, rfl⟩
      · obtain ⟨h1, h2, i, hi1, hi2, hi3⟩ := ih hmem
        exact ⟨h1, h2, i, by omega, by simp only [List.length_cons]; omega, hi3⟩
    · obtain ⟨h1, h2, i, hi1, hi2, hi3⟩ := ih h
      exact ⟨h1, h2, i, by omega, by simp only [List.length_cons]; omega, hi3⟩

theorem createOptions_keys_nodup (now : Nat) (pollId : String) (optionId : Nat → String)
    (opts : List String) (start bound : Nat) (hb : start + opts.length ≤ bound)
    (hinj : ∀ i j, i < bound → j < bound → optionId i = optionId j → i = j) :
    ((createOptions now pollId optionId start opts).map Prod.fst).Nodup := by
  induction opts generalizing start with
  | nil => simp [createOptions]
  | cons t rest ih =>
    simp only [List.length_cons] at hb
    unfold createOptions
    split_ifs with ht
    · rw [List.map_cons, List.nodup_cons]
      refine ⟨?_, ih (start + 1) (by omega)⟩
      intro hm
      obtain ⟨e, he, hk⟩ := List.mem_map.mp hm
      obtain ⟨_, _, i, hi1, hi2, hi3⟩ := mem_createOptions he
      have h2 : e.1.2 = optionId start := by rw [hk]
      rw [hi3] at h2
      have := hinj i start (by omega) (by omega) h2
      omega
    · exact ih (start + 1) (by omega)

theorem foldl_docSet_fresh {κ : Type} {α : Type} [DecidableEq κ] (batch c : List (κ × α))
    (hnd : (batch.map Prod.fst).Nodup)
    (hdis : ∀ e ∈ batch, e.1 ∉ c.map Prod.fst) :
    batch.foldl (fun c e => docSet c e.1 e.2) c = batch.reverse ++ c := by
  induction batch generalizing c with
  | nil => rfl
  | cons e rest ih =>
    rw [List.map_cons, List.nodup_cons] at hnd
    have hfresh : docGet c e.1 = none :=
      (docGet_eq_none_iff _ _).mpr (hdis e (List.mem_cons_self _ _))
    rw [List.foldl_cons, docSet, docDelete_eq_self _ _ hfresh, ih _ hnd.2]
    · simp
    · intro e' he' hm
      rw [List.map_cons, List.mem_cons] at hm
      rcases hm with heq | hm
      · exact hnd.1 (heq ▸ List.mem_map.mpr ⟨e', he', rfl⟩)
      · exact hdis e' (List.mem_cons_of_mem _ he') hm

theorem votesOf_eq_nil_of_fresh {s : Store} (hinv : Inv s) {pollId : String}
    (hfresh : docGet s.polls pollId = none) : votesOf s.votes pollId = [] := by
  unfold votesOf
  rw [List.filter_eq_nil_iff]
  intro e he
  have hm := hinv.vote_poll e he
  have hn := (docGet_eq_none_iff _ _).mp hfresh
  simp only [decide_eq_true_eq]
  intro heq
  rw [heq] at hm
  exact hn hm

theorem createPoll_eq {s : Store} (hinv : Inv s) (now : Nat) (baseUrl pollId : String)
    (optionId : Nat → String) (pollData : PollData) (userId : String)
    (hfresh : docGet s.polls pollId = none)
    (hinj : ∀ i j, i < (pollData.options.getD []).length →
      j < (pollData.options.getD []).length → optionId i = optionId j → i = j) :
    (createPoll s now baseUrl pollId optionId pollData userId).1
      = { polls := (pollId, { pollDoc now pollData userId with
                      publicLink := generatePublicLink baseUrl pollId }) :: s.polls
          pollOptions :=
            (createOptions now pollId optionId 0 (pollData.options.getD [])).reverse
              ++ s.pollOptions
          votes := s.votes } := by
  have hopts : (createOptions now pollId optionId 0 (pollData.options.getD [])).foldl
      (fun c e => docSet c e.1 e.2) s.pollOptions
      = (createOptions now pollId optionId 0 (pollData.options.getD [])).reverse
          ++ s.pollOptions := by
    apply foldl_docSet_fresh
    · exact createOptions_keys_nodup now pollId optionId _ 0 _ (by omega) hinj
    · intro e he hm
      obtain ⟨e', he', hk⟩ := List.mem_map.mp hm
      have h1 := hinv.option_poll e' he'
      rw [hk, (mem_createOptions he).1] at h1
      exact (docGet_eq_none_iff _ _).mp hfresh h1
  simp only [createPoll]
  rw [hopts, docSet, docDelete_eq_self _ _ hfresh, docUpdate_cons, if_pos rfl,
    docUpdate_eq_self _ _ _ hfresh]

theorem inv_createPoll {s : Store} (hinv : Inv s) (now : Nat) (baseUrl pollId : String)
    (optionId : Nat → String) (pollData : PollData) (userId : String)
    (hfresh : docGet s.polls pollId = none)
    (hinj : ∀ i j, i < (pollData.options.getD []).length →
      j < (pollData.options.getD []).length → optionId i = optionId j → i = j) :
    Inv (createPoll s now baseUrl pollId optionId pollData userId).1 := by
  rw [createPoll_eq hinv now baseUrl pollId optionId pollData userId hfresh hinj]
  have hnotin : pollId ∉ s.polls.map Prod.fst := (docGet_eq_none_iff _ _).mp hfresh
  have hvotes : votesOf s.votes pollId = [] := votesOf_eq_nil_of_fresh hinv hfresh
  have hbatch := createOptions_keys_nodup now pollId optionId (pollData.options.getD []) 0 _
    (by omega) hinj
  constructor
  · show (((pollId, _) :: s.polls).map Prod.fst).Nodup
    rw [List.map_cons, List.nodup_cons]
    exact ⟨hnotin, hinv.polls_nodup⟩
  · show ((_ ++ s.pollOptions).map Prod.fst).Nodup
    rw [List.map_append, List.map_reverse]
    refine List.Nodup.append (List.nodup_reverse.mpr hbatch) hinv.options_nodup ?_
    intro k hk1 hk2
    obtain ⟨e, he, hke⟩ := List.mem_map.mp (List.mem_reverse.mp hk1)
    obtain ⟨e', he', hke'⟩ := List.mem_map.mp hk2
    have h1 := hinv.option_poll e' he'
    rw [hke', ← hke, (mem_createOptions he).1] at h1
    exact hnotin h1
  · exact hinv.votes_nodup
  · intro e he
    show e.2.pollId ∈ ((pollId, _) :: s.polls).map Prod.fst
    rw [List.map_cons]
    exact List.mem_cons_of_mem _ (hinv.vote_poll e he)
  · intro e he
    show e.1.1 ∈ ((pollId, _) :: s.polls).map Prod.fst
    rw [List.map_cons]
    rcases List.mem_append.mp he with hb | ho
    · rw [(mem_createOptions (List.mem_reverse.mp hb)).1]
      exact List.mem_cons_self _ _
    · exact List.mem_cons_of_mem _ (hinv.option_poll e ho)
  · intro e he
    show e.2.totalVotes = (votesOf s.votes e.1).length
    rcases List.mem_cons.mp he with heq | hmem
    · subst heq
      rw [hvotes]
      rfl
    · exact hinv.total e hmem
  · intro e he
    show e.2.voteCount = selections s.votes e.1.1 e.1.2
    rcases List.mem_append.mp he with hb | ho
    · obtain ⟨h1, h2, _⟩ := mem_createOptions (List.mem_reverse.mp hb)
      rw [h2, h1, selections, hvotes]
      rfl
    · exact hinv.count e ho
  · intro e he o ho
    show (e.2.pollId, o) ∈ (_ ++ s.pollOptions).map Prod.fst
    rw [List.map_append]
    exact List.mem_append_right _ (hinv.vote_options e he o ho)
  · exact hinv.vote_nonempty
  · intro e he pe hpe hk hty
    rcases List.mem_cons.mp hpe with heq | hmem
    · exfalso
      subst heq
      have := hinv.vote_poll e he
      rw [← hk] at this
      exact hnotin this
    · exact hinv.vote_single e he pe hmem hk hty

theorem inv_empty : Inv Store.empty := by
  constructor <;> simp [Store.empty]

theorem inv_of_reachable {s : Store} (h : Reachable s) : Inv s := by
  induction h with
  | empty => exact inv_empty
  | create now baseUrl pollId optionId pollData userId _ hfresh hinj ih =>
    exact inv_createPoll ih now baseUrl pollId optionId pollData userId hfresh hinj
  | vote now pollId userId optionIds anonymous guestId _ ih =>
    exact inv_castVote ih now pollId userId optionIds anonymous guestId
  | close now pollId _ ih => exact inv_closePoll ih now pollId
  | delete pollId _ ih => exact inv_deletePoll ih pollId

theorem sum_indicator_eq_count (K : List String) (a : String) :
    (K.map (fun k => if a = k then 1 else 0)).sum = K.count a := by
  induction K with
  | nil => rfl
  | cons k rest ih =>
    rw [List.map_cons, List.sum_cons, ih, List.count_cons]
    by_cases h : a = k
    · subst h; simp; omega
    · have h' : ¬ k = a := fun e => h e.symm
      simp [h, h']

theorem sum_count_eq_length (K ids : List String) (hK : K.Nodup) (hsub : ∀ o ∈ ids, o ∈ K) :
    (K.map (fun k => ids.count k)).sum = ids.length := by
  induction ids with
  | nil => simp
  | cons a rest ih =>
    have h1 : (fun k => (a :: rest).count k)
        = (fun k => rest.count k + (if a = k then 1 else 0)) := by
      funext k
      rw [List.count_cons]
      by_cases h : a = k <;> simp [h]
    rw [h1, List.sum_map_add, ih (fun o ho => hsub o (List.mem_cons_of_mem _ ho)),
      sum_indicator_eq_count, List.count_eq_one_of_mem hK (hsub a (List.mem_cons_self _ _)),
      List.length_cons]

theorem sum_selections_eq (O : List ((String × String) × PollOption))
    (V : List (String × Vote))
    (hO : (O.map (fun e => e.1.2)).Nodup)
    (hV : ∀ v ∈ V, ∀ o ∈ v.2.optionIds, o ∈ O.map (fun e => e.1.2)) :
    (O.map (fun e => (V.map (fun v => v.2.optionIds.count e.1.2)).sum)).sum
      = (V.map (fun v => v.2.optionIds.length)).sum := by
  induction V with
  | nil => simp
  | cons v rest ih =>
    simp only [List.map_cons, List.sum_cons]
    rw [List.sum_map_add, ih (fun v' hv' => hV v' (List.mem_cons_of_mem _ hv'))]
    congr 1
    have := sum_count_eq_length (O.map (fun e => e.1.2)) v.2.optionIds hO
      (hV v (List.mem_cons_self _ _))
    rw [List.map_map] at this
    exact this

theorem optionsOf_ids_nodup {s : Store} (hinv : Inv s) (p : String) :
    ((optionsOf s.pollOptions p).map (fun e => e.1.2)).Nodup := by
  have hk : ((optionsOf s.pollOptions p).map Prod.fst).Nodup :=
    filter_keys_nodup _ hinv.options_nodup
  have hmap : (optionsOf s.pollOptions p).map (fun e => e.1.2)
      = ((optionsOf s.pollOptions p).map Prod.fst).map Prod.snd := by
    rw [List.map_map]; rfl
  rw [hmap]
  apply List.Nodup.map_on _ hk
  intro k hk1 k' hk2 heq
  obtain ⟨e, he, rfl⟩ := List.mem_map.mp hk1
  obtain ⟨e', he', rfl⟩ := List.mem_map.mp hk2
  have h1 := (List.mem_filter.mp he).2
  have h2 := (List.mem_filter.mp he').2
  simp only [decide_eq_true_eq] at h1 h2
  exact Prod.ext (h1.trans h2.symm) heq

theorem sum_voteCount_eq {s : Store} (hinv : Inv s) (p : String) :
    ((optionsOf s.pollOptions p).map (fun e => e.2.voteCount)).sum
      = ((votesOf s.votes p).map (fun v => v.2.optionIds.length)).sum := by
  have h1 : (optionsOf s.pollOptions p).map (fun e => e.2.voteCount)
      = (optionsOf s.pollOptions p).map
          (fun e => ((votesOf s.votes p).map (fun v => v.2.optionIds.count e.1.2)).sum) := by
    apply List.map_congr_left
    intro e he
    have hf := List.mem_filter.mp he
    have hp : e.1.1 = p := by simpa using hf.2
    rw [hinv.count e hf.1, hp]
    rfl
  rw [h1]
  apply sum_selections_eq _ _ (optionsOf_ids_nodup hinv p)
  intro v hv o ho
  have hf := List.mem_filter.mp hv
  have hp : v.2.pollId = p := by simpa using hf.2
  obtain ⟨e, he, hk⟩ := List.mem_map.mp (hinv.vote_options v hf.1 o ho)
  refine List.mem_map.mpr ⟨e, List.mem_filter.mpr ⟨he, ?_⟩, ?_⟩
  · rw [hk, hp]; simp
  · rw [hk]

theorem sum_const_one (V : List (String × Vote)) (f : String × Vote → Nat)
    (h : ∀ v ∈ V, f v = 1) : (V.map f).sum = V.length := by
  induction V with
  | nil => rfl
  | cons v rest ih =>
    rw [List.map_cons, List.sum_cons, h v (List.mem_cons_self _ _),
      ih (fun v' hv' => h v' (List.mem_cons_of_mem _ hv')), List.length_cons]
    omega

theorem length_le_sum (V : List (String × Vote)) (f : String × Vote → Nat)
    (h : ∀ v ∈ V, 1 ≤ f v) : V.length ≤ (V.map f).sum := by
  induction V with
  | nil => simp
  | cons v rest ih =>
    rw [List.map_cons, List.sum_cons, List.length_cons]
    have := h v (List.mem_cons_self _ _)
    have := ih (fun v' hv' => h v' (List.mem_cons_of_mem _ hv'))
    omega

theorem selections_eq_voters (votes : List (String × Vote)) (p o : String)
    (h : ∀ v ∈ votesOf votes p, v.2.optionIds.Nodup) :
    selections votes p o = voters votes p o := by
  unfold selections voters
  generalize votesOf votes p = V at h
  induction V with
  | nil => rfl
  | cons v rest ih =>
    have hv := h v (List.mem_cons_self _ _)
    have ih' := ih (fun v' hv' => h v' (List.mem_cons_of_mem _ hv'))
    rw [List.map_cons, List.sum_cons, ih']
    by_cases ho : o ∈ v.2.optionIds
    · rw [List.filter_cons_of_pos (by simpa using ho), List.length_cons,
        List.count_eq_one_of_mem hv ho]
      omega
    · rw [List.filter_cons_of_neg (by simpa using ho), List.count_eq_zero_of_not_mem ho]
      omega

/-! ## The scenario is reachable -/

theorem demoOptionId_injective : ∀ i j, i < 2 → j < 2 → demoOptionId i = demoOptionId j → i = j := by
  intro i j hi hj h
  interval_cases i <;> interval_cases j <;> first | rfl | (exfalso; revert h; decide)

theorem reachable_demoStore : Reachable demoStore :=
  Reachable.create 10 "https://voteapp.example" "P" demoOptionId demoPollData "creator"
    Reachable.empty rfl demoOptionId_injective

theorem reachable_demoVoted : Reachable demoVoted :=
  Reachable.vote 20 "P" (some "alice") (some ["o0"]) false none reachable_demoStore

theorem reachable_demoMulti : Reachable demoMulti :=
  Reachable.create 10 "https://voteapp.example" "Q" demoOptionId demoMultiData "creator"
    Reachable.empty rfl demoOptionId_injective

theorem reachable_demoMultiVoted : Reachable demoMultiVoted :=
  Reachable.vote 20 "Q" (some "alice") (some ["o0", "o1"]) false none reachable_demoMulti

theorem reachable_demoRepeatVoted : Reachable demoRepeatVoted :=
  Reachable.vote 20 "Q" (some "alice") (some ["o0", "o0"]) false none reachable_demoMulti

/-! ## Counter invariants -/

theorem voters_le_selections (votes : List (String × Vote)) (p o : String) :
    voters votes p o ≤ selections votes p o := by
  unfold selections voters
  generalize votesOf votes p = V
  induction V with
  | nil => simp
  | cons v rest ih =>
    rw [List.map_cons, List.sum_cons]
    by_cases ho : o ∈ v.2.optionIds
    · rw [List.filter_cons_of_pos (by simpa using ho), List.length_cons]
      have := List.count_pos_iff.mpr ho
      omega
    · rw [List.filter_cons_of_neg (by simpa using ho)]
      omega

/-- C3: in every database reachable from the empty one by `createPoll`, `castVote`,
`closePoll` and `deletePoll`, each existing poll's `totalVotes` is the number of
vote documents whose `pollId` field is that poll's id (each vote id being the key
of one document). -/
theorem totalVotes_eq_vote_documents (s : Store) (h : Reachable s) (pollId : String)
    (poll : Poll) (hp : docGet s.polls pollId = some poll) :
    poll.totalVotes = (votesOf s.votes pollId).length ∧ (s.votes.map Prod.fst).Nodup := by
  have hinv := inv_of_reachable h
  exact ⟨hinv.total (pollId, poll) (mem_of_docGet hp), hinv.votes_nodup⟩

theorem totalVotes_eq_vote_documents_witness :
    Reachable demoVoted ∧
    docGet demoVoted.polls "P" = some { demoPoll with totalVotes := 1 } ∧
    (1 = (votesOf demoVoted.votes "P").length ∧ (demoVoted.votes.map Prod.fst).Nodup) :=
  ⟨reachable_demoVoted, by rfl,
    totalVotes_eq_vote_documents demoVoted reachable_demoVoted "P"
      { demoPoll with totalVotes := 1 } (by rfl)⟩

/-- C4 fails as stated: after one vote naming both options of a multiple-choice
poll, reachable by `createPoll` and `castVote`, the option counters sum to 2 while
`totalVotes` is 1. -/
theorem option_counts_exceed_totalVotes :
    Reachable demoMultiVoted ∧
    (docGet demoMultiVoted.polls "Q").map Poll.totalVotes = some 1 ∧
    ((optionsOf demoMultiVoted.pollOptions "Q").map (fun e => e.2.voteCount)).sum = 2 :=
  ⟨reachable_demoMultiVoted, by decide, by decide⟩

/-- C4, amended: in every reachable database, for every existing single-choice poll
the sum of `voteCount` over the poll's options equals the poll's `totalVotes`, and
for every existing poll, multiple-choice included, that sum is at least
`totalVotes`. -/
theorem option_counts_sum (s : Store) (h : Reachable s) (pollId : String)
    (poll : Poll) (hp : docGet s.polls pollId = some poll) :
    (poll.type = POLL_TYPES.SINGLE_CHOICE →
      ((optionsOf s.pollOptions pollId).map (fun e => e.2.voteCount)).sum = poll.totalVotes) ∧
    poll.totalVotes ≤ ((optionsOf s.pollOptions pollId).map (fun e => e.2.voteCount)).sum := by
  have hinv := inv_of_reachable h
  have hsum := sum_voteCount_eq hinv pollId
  have htot := hinv.total (pollId, poll) (mem_of_docGet hp)
  simp only at htot
  refine ⟨?_, ?_⟩
  · intro hty
    rw [hsum, htot]
    apply sum_const_one
    intro v hv
    have hf := List.mem_filter.mp hv
    have hpid : v.2.pollId = pollId := by simpa using hf.2
    exact hinv.vote_single v hf.1 (pollId, poll) (mem_of_docGet hp) hpid.symm hty
  · rw [hsum, htot]
    apply length_le_sum
    intro v hv
    have hne := hinv.vote_nonempty v (List.mem_filter.mp hv).1
    cases hl : v.2.optionIds with
    | nil => exact absurd hl hne
    | cons a rest => simp

theorem option_counts_sum_witness :
    Reachable demoVoted ∧
    docGet demoVoted.polls "P" = some { demoPoll with totalVotes := 1 } ∧
    ((optionsOf demoVoted.pollOptions "P").map (fun e => e.2.voteCount)).sum = 1 :=
  ⟨reachable_demoVoted, by rfl,
    (option_counts_sum demoVoted reachable_demoVoted "P" { demoPoll with totalVotes := 1 }
      (by rfl)).1 (by rfl)⟩

/-- C5: the code breaks the claim at `castVote("Q", "alice", ["o0", "o0"])` on a fresh
multiple-choice poll.  The database, reachable by `createPoll` and `castVote`, then
holds one vote document naming option `o0`, while the `voteCount` of `o0` is 2. -/
theorem voteCount_double_counts_repeated_id :
    Reachable demoRepeatVoted ∧
    (docGet demoRepeatVoted.pollOptions ("Q", "o0")).map PollOption.voteCount = some 2 ∧
    voters demoRepeatVoted.votes "Q" "o0" = 1 :=
  ⟨reachable_demoRepeatVoted, by decide, by decide⟩

/-- In every reachable database each option's `voteCount` equals the number of times
the votes of its poll name the option, repeats included; this is never less than the
number of votes naming the option, and equals it when no vote of the poll repeats an
id, as on every single-choice poll. -/
theorem voteCount_eq_selections (s : Store) (h : Reachable s) (pollId optionId : String)
    (opt : PollOption) (ho : docGet s.pollOptions (pollId, optionId) = some opt) :
    opt.voteCount = selections s.votes pollId optionId ∧
    voters s.votes pollId optionId ≤ opt.voteCount ∧
    ((∀ v ∈ votesOf s.votes pollId, v.2.optionIds.Nodup) →
      opt.voteCount = voters s.votes pollId optionId) ∧
    (∀ poll, docGet s.polls pollId = some poll → poll.type = POLL_TYPES.SINGLE_CHOICE →
      opt.voteCount = voters s.votes pollId optionId) := by
  have hinv := inv_of_reachable h
  have hcount := hinv.count ((pollId, optionId), opt) (mem_of_docGet ho)
  simp only at hcount
  refine ⟨hcount, ?_, ?_, ?_⟩
  · rw [hcount]; exact voters_le_selections _ _ _
  · intro hnd
    rw [hcount]; exact selections_eq_voters _ _ _ hnd
  · intro poll hp hty
    rw [hcount]
    apply selections_eq_voters
    intro v hv
    have hf := List.mem_filter.mp hv
    have hpid : v.2.pollId = pollId := by simpa using hf.2
    have hlen := hinv.vote_single v hf.1 (pollId, poll) (mem_of_docGet hp) hpid.symm hty
    cases hl : v.2.optionIds with
    | nil => simp
    | cons a rest =>
      rw [hl] at hlen
      simp only [List.length_cons, Nat.add_eq_right, List.length_eq_zero] at hlen
      subst hlen
      simp

/-! ## The claims at the scenario -/

theorem castVote_success_effect_witness :
    ["o0"].Nodup ∧
    castVote demoStore 20 "P" (some "alice") (some ["o0"]) false none = (demoVoted, .ok ()) ∧
    docGet demoStore.votes (getVoteId "P" (some "alice") none) = none :=
  ⟨by decide, by rfl,
    (castVote_success_effect demoStore demoVoted 20 "P" (some "alice") ["o0"] false none
      (by decide) (by rfl)).1⟩

theorem castVote_all_or_nothing_witness :
    (castVote demoVoted 21 "P" (some "alice") (some ["o1"]) false none).2
      = .error "You have already voted on this poll" ∧
    (castVote demoVoted 21 "P" (some "alice") (some ["o1"]) false none).1 = demoVoted :=
  ⟨by rfl,
    castVote_all_or_nothing demoVoted 21 "P" (some "alice") (some ["o1"]) false none
      "You have already voted on this poll" (by rfl)⟩

theorem castVote_idempotent_rejection_witness :
    castVote demoStore 20 "P" (some "alice") (some ["o0"]) false none = (demoVoted, .ok ()) ∧
    castVote demoVoted 20 "P" (some "alice") (some ["o0"]) false none
      = (demoVoted, .error "You have already voted on this poll") :=
  ⟨by rfl,
    (castVote_idempotent_rejection demoStore demoVoted 20 "P" (some "alice") (some ["o0"])
      false none (by rfl)).1⟩

theorem castVote_duplicate_attempt_witness :
    docGet demoVoted.polls "P" = some { demoPoll with totalVotes := 1 } ∧
    (docGet demoVoted.votes (getVoteId "P" (some "alice") none)).isSome = true ∧
    ["o1"] ≠ [] ∧
    (castVote demoVoted 21 "P" (some "alice") (some ["o1"]) false none).1 = demoVoted :=
  ⟨by rfl, by decide, by decide,
    (castVote_duplicate_attempt demoVoted 21 "P" (some "alice") ["o1"] false none
      { demoPoll with totalVotes := 1 } (by rfl) (by decide) (by decide)).2.1⟩

theorem getVoteId_format_witness :
    "alice" ≠ "" ∧ getVoteId "P" (some "alice") none = "P" ++ "_" ++ "alice" :=
  ⟨by decide, (getVoteId_format "P" none).1 "alice" (by decide)⟩

theorem getVoteId_collision_free_witness :
    "alice" ≠ "" ∧ ¬ ("guest_".toList <+: "alice".toList) ∧
    getVoteId "P" (some "alice") none ≠ getVoteId "P" none (some "g1") :=
  ⟨by decide, by decide,
    (getVoteId_collision_free "P").1 "alice" (some "g1") (by decide) (by decide)⟩

theorem castVote_eligibility_gate_witness :
    docGet demoStore.polls "P" = some demoPoll ∧
    (truthy (some "alice") = true ∨ demoPoll.guestVoting = true) ∧
    ["o0"] ≠ [] ∧
    ((castVote demoStore 20 "P" (some "alice") (some ["o0"]) false none).2
        ≠ .error "Poll has not started yet" ∧
      (castVote demoStore 20 "P" (some "alice") (some ["o0"]) false none).2
        ≠ .error "Poll is not active" ∧
      (castVote demoStore 20 "P" (some "alice") (some ["o0"]) false none).2
        ≠ .error "Poll has closed") :=
  ⟨by rfl, Or.inl (by decide), by decide,
    (castVote_eligibility_gate demoStore 20 "P" (some "alice") ["o0"] false none demoPoll
      (by rfl) (Or.inl (by decide)) (by decide)).1.mpr
      ⟨by rfl, by intro t h; simp [demoPoll] at h, by intro t h; simp [demoPoll] at h⟩⟩

/-! ## The error of each check of `castVote` -/

theorem not_started_iff (now : Nat) (startsAt : Option Nat) :
    ((match startsAt with
      | some t => decide (now < t)
      | none => false) = true) ↔ ∃ t, startsAt = some t ∧ now < t := by
  cases startsAt with
  | none => simp
  | some t => simp

theorem expired_iff (now : Nat) (closesAt : Option Nat) :
    ((match closesAt with
      | some t => decide (now ≥ t)
      | none => false) = true) ↔ ∃ t, closesAt = some t ∧ t ≤ now := by
  cases closesAt with
  | none => simp
  | some t => simp

theorem not_permitted_iff (userId : Option String) (poll : Poll) :
    ((!truthy userId && !poll.guestVoting) = true)
      ↔ (truthy userId = false ∧ poll.guestVoting = false) := by
  cases truthy userId <;> cases poll.guestVoting <;> simp

theorem castVote_eq_error {s : Store} {now : Nat} {pollId : String}
    {userId : Option String} {ids : List String} {anonymous : Bool}
    {guestId : Option String} {e : String} (hne : ids ≠ [])
    (h : castVoteBody now pollId userId ids anonymous guestId s = .error e) :
    castVote s now pollId userId (some ids) anonymous guestId = (s, .error e) := by
  rw [castVote_eq_of_body_error h]
  have hlen : ¬ ids.length = 0 := fun h0 => hne (List.length_eq_zero.mp h0)
  rw [if_neg hlen]

theorem castVoteBody_not_permitted {s : Store} (now : Nat) {pollId : String}
    {userId : Option String} (ids : List String) (anonymous : Bool) (guestId : Option String)
    {poll : Poll} (hpoll : docGet s.polls pollId = some poll)
    (hu : truthy userId = false) (hg : poll.guestVoting = false) :
    castVoteBody now pollId userId ids anonymous guestId s
      = .error "This poll requires authentication to vote" := by
  simp only [castVoteBody, hpoll]
  rw [if_pos ((not_permitted_iff userId poll).mpr ⟨hu, hg⟩)]

theorem castVoteBody_not_started {s : Store} {now : Nat} {pollId : String}
    {userId : Option String} (ids : List String) (anonymous : Bool) (guestId : Option String)
    {poll : Poll} {t : Nat} (hpoll : docGet s.polls pollId = some poll)
    (hperm : truthy userId = true ∨ poll.guestVoting = true)
    (hs : poll.startsAt = some t) (hlt : now < t) :
    castVoteBody now pollId userId ids anonymous guestId s
      = .error "Poll has not started yet" := by
  have h1 : ¬ ((!truthy userId && !poll.guestVoting) = true) := by
    rw [not_permitted_iff]; rcases hperm with hp | hp <;> simp [hp]
  simp only [castVoteBody, hpoll]
  rw [if_neg h1, if_pos ((not_started_iff now poll.startsAt).mpr ⟨t, hs, hlt⟩)]

theorem castVoteBody_not_active {s : Store} {now : Nat} {pollId : String}
    {userId : Option String} (ids : List String) (anonymous : Bool) (guestId : Option String)
    {poll : Poll} (hpoll : docGet s.polls pollId = some poll)
    (hperm : truthy userId = true ∨ poll.guestVoting = true)
    (hstart : ∀ t, poll.startsAt = some t → t ≤ now)
    (hst : poll.status ≠ POLL_STATUS.ACTIVE) :
    castVoteBody now pollId userId ids anonymous guestId s = .error "Poll is not active" := by
  have h1 : ¬ ((!truthy userId && !poll.guestVoting) = true) := by
    rw [not_permitted_iff]; rcases hperm with hp | hp <;> simp [hp]
  have h2 : ¬ ((match poll.startsAt with
             | some t => decide (now < t)
             | none => false) = true) := by
    rw [not_started_iff]
    rintro ⟨t, ht, hlt⟩
    have := hstart t ht
    omega
  simp only [castVoteBody, hpoll]
  rw [if_neg h1, if_neg h2, if_pos hst]

theorem castVoteBody_closed {s : Store} {now : Nat} {pollId : String}
    {userId : Option String} (ids : List String) (anonymous : Bool) (guestId : Option String)
    {poll : Poll} {t : Nat} (hpoll : docGet s.polls pollId = some poll)
    (hperm : truthy userId = true ∨ poll.guestVoting = true)
    (hstart : ∀ t, poll.startsAt = some t → t ≤ now)
    (hact : poll.status = POLL_STATUS.ACTIVE)
    (hc : poll.closesAt = some t) (hle : t ≤ now) :
    castVoteBody now pollId userId ids anonymous guestId s = .error "Poll has closed" := by
  have h1 : ¬ ((!truthy userId && !poll.guestVoting) = true) := by
    rw [not_permitted_iff]; rcases hperm with hp | hp <;> simp [hp]
  have h2 : ¬ ((match poll.startsAt with
             | some t => decide (now < t)
             | none => false) = true) := by
    rw [not_started_iff]
    rintro ⟨t, ht, hlt⟩
    have := hstart t ht
    omega
  have h3 : ¬ (poll.status ≠ POLL_STATUS.ACTIVE) := by simpa using hact
  simp only [castVoteBody, hpoll]
  rw [if_neg h1, if_neg h2, if_neg h3, if_pos ((expired_iff now poll.closesAt).mpr ⟨t, hc, hle⟩)]

theorem castVoteBody_cardinality {s : Store} {now : Nat} {pollId : String}
    {userId : Option String} {ids : List String} (anonymous : Bool) (guestId : Option String)
    {poll : Poll} (hpoll : docGet s.polls pollId = some poll)
    (hperm : truthy userId = true ∨ poll.guestVoting = true)
    (hstart : ∀ t, poll.startsAt = some t → t ≤ now)
    (hact : poll.status = POLL_STATUS.ACTIVE)
    (hopen : ∀ t, poll.closesAt = some t → now < t)
    (hty : poll.type = POLL_TYPES.SINGLE_CHOICE) (hlen : 1 < ids.length) :
    castVoteBody now pollId userId ids anonymous guestId s
      = .error "Single choice poll only allows one option" := by
  have h1 : ¬ ((!truthy userId && !poll.guestVoting) = true) := by
    rw [not_permitted_iff]; rcases hperm with hp | hp <;> simp [hp]
  have h2 : ¬ ((match poll.startsAt with
             | some t => decide (now < t)
             | none => false) = true) := by
    rw [not_started_iff]
    rintro ⟨t, ht, hlt⟩
    have := hstart t ht
    omega
  have h3 : ¬ (poll.status ≠ POLL_STATUS.ACTIVE) := by simpa using hact
  have h4 : ¬ ((match poll.closesAt with
             | some t => decide (now ≥ t)
             | none => false) = true) := by
    rw [expired_iff]
    rintro ⟨t, ht, hle⟩
    have := hopen t ht
    omega
  simp only [castVoteBody, hpoll]
  rw [if_neg h1, if_neg h2, if_neg h3, if_neg h4, if_pos ⟨hty, hlen⟩]

theorem castVoteBody_invalid_option {s : Store} {now : Nat} {pollId : String}
    {userId : Option String} {ids : List String} (anonymous : Bool) {guestId : Option String}
    {poll : Poll} (hpoll : docGet s.polls pollId = some poll)
    (hperm : truthy userId = true ∨ poll.guestVoting = true)
    (hstart : ∀ t, poll.startsAt = some t → t ≤ now)
    (hact : poll.status = POLL_STATUS.ACTIVE)
    (hopen : ∀ t, poll.closesAt = some t → now < t)
    (hcard : poll.type = POLL_TYPES.SINGLE_CHOICE → ids.length ≤ 1)
    (hfresh : docGet s.votes (getVoteId pollId userId guestId) = none)
    (hbad : ∃ o ∈ ids, docGet s.pollOptions (pollId, o) = none) :
    castVoteBody now pollId userId ids anonymous guestId s
      = .error "Invalid option selected" := by
  have h1 : ¬ ((!truthy userId && !poll.guestVoting) = true) := by
    rw [not_permitted_iff]; rcases hperm with hp | hp <;> simp [hp]
  have h2 : ¬ ((match poll.startsAt with
             | some t => decide (now < t)
             | none => false) = true) := by
    rw [not_started_iff]
    rintro ⟨t, ht, hlt⟩
    have := hstart t ht
    omega
  have h3 : ¬ (poll.status ≠ POLL_STATUS.ACTIVE) := by simpa using hact
  have h4 : ¬ ((match poll.closesAt with
             | some t => decide (now ≥ t)
             | none => false) = true) := by
    rw [expired_iff]
    rintro ⟨t, ht, hle⟩
    have := hopen t ht
    omega
  have h5 : ¬ (poll.type = POLL_TYPES.SINGLE_CHOICE ∧ ids.length > 1) := by
    rintro ⟨a, b⟩; have := hcard a; omega
  have h6 : ¬ ((docGet s.votes (getVoteId pollId userId guestId)).isSome = true) := by
    simp [hfresh]
  have h7 : ids.any (fun optionId => (docGet s.pollOptions (pollId, optionId)).isNone) = true := by
    obtain ⟨o, ho, hnone⟩ := hbad
    rw [List.any_eq_true]
    exact ⟨o, ho, by simp [hnone]⟩
  simp only [castVoteBody, hpoll]
  rw [if_neg h1, if_neg h2, if_neg h3, if_neg h4, if_neg h5, if_neg h6, if_pos h7]

theorem castVote_not_ok_store {s : Store} {now : Nat} {pollId : String}
    {userId : Option String} {optionIds : Option (List String)} {anonymous : Bool}
    {guestId : Option String}
    (h : (castVote s now pollId userId optionIds anonymous guestId).2 ≠ .ok ()) :
    (castVote s now pollId userId optionIds anonymous guestId).1 = s := by
  cases hr : (castVote s now pollId userId optionIds anonymous guestId).2 with
  | ok u => exact absurd hr h
  | error e => exact castVote_store_of_error _ _ _ _ _ _ _ e hr

/-! ## Eligibility, permission and cardinality errors -/

/-- C11 fails as stated: on the explicitly closed poll `P` a permitted voter with a
non-empty selection is refused with 'Poll is not active', not with
'Poll has closed'. -/
theorem castVote_on_closed_poll_not_active :
    (docGet demoClosed.polls "P").map Poll.status = some POLL_STATUS.CLOSED ∧
    castVote demoClosed 30 "P" (some "bob") (some ["o0"]) false none
      = (demoClosed, .error "Poll is not active") ∧
    (castVote demoClosed 30 "P" (some "bob") (some ["o0"]) false none).2
      ≠ .error "Poll has closed" := by
  refine ⟨by decide, by rfl, ?_⟩
  have : (castVote demoClosed 30 "P" (some "bob") (some ["o0"]) false none).2
      = .error "Poll is not active" := by rfl
  rw [this]
  simp

/-- C11, amended: for every existing poll whose stored status is closed, every
`castVote` by a permitted voter with a non-empty selection fails and changes nothing;
the error is 'Poll is not active' when `startsAt` is unset or not later than `now`
and 'Poll has not started yet' when `startsAt` is later than `now`, never
'Poll has closed', whatever `closesAt`. -/
theorem castVote_closed_status (s : Store) (now : Nat) (pollId : String)
    (userId : Option String) (ids : List String) (anonymous : Bool)
    (guestId : Option String) (poll : Poll)
    (hpoll : docGet s.polls pollId = some poll)
    (hst : poll.status = POLL_STATUS.CLOSED)
    (hperm : truthy userId = true ∨ poll.guestVoting = true)
    (hne : ids ≠ []) :
    ((∀ t, poll.startsAt = some t → t ≤ now) →
      castVote s now pollId userId (some ids) anonymous guestId
        = (s, .error "Poll is not active")) ∧
    (∀ t, poll.startsAt = some t → now < t →
      castVote s now pollId userId (some ids) anonymous guestId
        = (s, .error "Poll has not started yet")) ∧
    (castVote s now pollId userId (some ids) anonymous guestId).2 ≠ .error "Poll has closed" ∧
    (castVote s now pollId userId (some ids) anonymous guestId).1 = s := by
  have hna : poll.status ≠ POLL_STATUS.ACTIVE := by
    rw [hst]; decide
  have h1 : (∀ t, poll.startsAt = some t → t ≤ now) →
      castVote s now pollId userId (some ids) anonymous guestId
        = (s, .error "Poll is not active") := fun hstart =>
    castVote_eq_error hne (castVoteBody_not_active ids anonymous guestId hpoll hperm hstart hna)
  have h2 : ∀ t, poll.startsAt = some t → now < t →
      castVote s now pollId userId (some ids) anonymous guestId
        = (s, .error "Poll has not started yet") := fun t ht hlt =>
    castVote_eq_error hne (castVoteBody_not_started ids anonymous guestId hpoll hperm ht hlt)
  have h3 : castVote s now pollId userId (some ids) anonymous guestId
        = (s, .error "Poll is not active") ∨
      castVote s now pollId userId (some ids) anonymous guestId
        = (s, .error "Poll has not started yet") := by
    by_cases hstart : ∀ t, poll.startsAt = some t → t ≤ now
    · exact Or.inl (h1 hstart)
    · simp only [not_forall] at hstart
      obtain ⟨t, ht, hlt⟩ := hstart
      exact Or.inr (h2 t ht (by omega))
  refine ⟨h1, h2, ?_, ?_⟩
  · rcases h3 with h | h <;> rw [h] <;> simp
  · rcases h3 with h | h <;> rw [h]

theorem castVote_closed_status_witness :
    docGet demoClosed.polls "P"
      = some { demoPoll with totalVotes := 1, status := "closed", updatedAt := 25 } ∧
    castVote demoClosed 30 "P" (some "bob") (some ["o0"]) false none
      = (demoClosed, .error "Poll is not active") :=
  ⟨by rfl,
    (castVote_closed_status demoClosed 30 "P" (some "bob") ["o0"] false none
      { demoPoll with totalVotes := 1, status := "closed", updatedAt := 25 }
      (by rfl) (by rfl) (Or.inl (by decide)) (by decide)).1
      (by intro t h; simp [demoPoll] at h)⟩

/-- C12 fails as stated: the poll `T` has `closesAt = 30` and was closed by its
creator at instant 25; a vote at instant 40, after the close time, is refused with
'Poll is not active', not with 'Poll has closed'. -/
theorem castVote_past_close_not_active :
    (docGet demoTimedClosed.polls "T").map (fun p => (p.status, p.startsAt, p.closesAt))
      = some (POLL_STATUS.CLOSED, none, some 30) ∧
    castVote demoTimedClosed 40 "T" (some "bob") (some ["o0"]) false none
      = (demoTimedClosed, .error "Poll is not active") ∧
    (castVote demoTimedClosed 40 "T" (some "bob") (some ["o0"]) false none).2
      ≠ .error "Poll has closed" := by
  refine ⟨by decide, by rfl, ?_⟩
  have : (castVote demoTimedClosed 40 "T" (some "bob") (some ["o0"]) false none).2
      = .error "Poll is not active" := by rfl
  rw [this]
  simp

/-- C12, amended: for every existing poll, permitted voter and non-empty selection,
if `startsAt` is set and later than `now` then `castVote` fails with
'Poll has not started yet'; if `closesAt` is set and not later than `now`, the poll
has started and its status is active, then `castVote` fails with 'Poll has closed';
and whenever `closesAt` is set and not later than `now`, `castVote` fails.  In each
case the database, hence every poll and option counter, is unchanged. -/
theorem castVote_temporal_gating (s : Store) (now : Nat) (pollId : String)
    (userId : Option String) (ids : List String) (anonymous : Bool)
    (guestId : Option String) (poll : Poll)
    (hpoll : docGet s.polls pollId = some poll)
    (hperm : truthy userId = true ∨ poll.guestVoting = true)
    (hne : ids ≠ []) :
    (∀ t, poll.startsAt = some t → now < t →
      castVote s now pollId userId (some ids) anonymous guestId
        = (s, .error "Poll has not started yet")) ∧
    (∀ t, poll.closesAt = some t → t ≤ now →
      (∀ t', poll.startsAt = some t' → t' ≤ now) → poll.status = POLL_STATUS.ACTIVE →
      castVote s now pollId userId (some ids) anonymous guestId
        = (s, .error "Poll has closed")) ∧
    (∀ t, poll.closesAt = some t → t ≤ now →
      (castVote s now pollId userId (some ids) anonymous guestId).2 ≠ .ok () ∧
      (castVote s now pollId userId (some ids) anonymous guestId).1 = s) := by
  refine ⟨?_, ?_, ?_⟩
  · intro t ht hlt
    exact castVote_eq_error hne
      (castVoteBody_not_started ids anonymous guestId hpoll hperm ht hlt)
  · intro t ht hle hstart hact
    exact castVote_eq_error hne
      (castVoteBody_closed ids anonymous guestId hpoll hperm hstart hact ht hle)
  · intro t ht hle
    have hnok : (castVote s now pollId userId (some ids) anonymous guestId).2 ≠ .ok () := by
      intro hok
      obtain ⟨ids', poll', _, hacc⟩ := accepts_of_castVote_ok hok
      have hp : poll' = poll := by
        have := hacc.poll_eq
        rw [hpoll] at this
        exact (Option.some.inj this).symm
      subst hp
      have := hacc.open_ t ht
      omega
    exact ⟨hnok, castVote_not_ok_store hnok⟩

theorem castVote_temporal_gating_witness :
    docGet demoScheduled.polls "S" = some demoScheduledPoll ∧
    castVote demoScheduled 15 "S" (some "bob") (some ["o0"]) false none
      = (demoScheduled, .error "Poll has not started yet") :=
  ⟨by rfl,
    (castVote_temporal_gating demoScheduled 15 "S" (some "bob") ["o0"] false none
      demoScheduledPoll (by rfl) (Or.inl (by decide)) (by decide)).1 20 (by rfl) (by decide)⟩

/-- C13: on an existing poll with `guestVoting = false`, every `castVote` without a
user id (null or empty) and with a non-empty selection fails with
'This poll requires authentication to vote', whatever the poll's status, times and
type, the selected options or prior votes, and the database, hence `totalVotes` and
every option counter, is unchanged. -/
theorem castVote_guest_gate (s : Store) (now : Nat) (pollId : String)
    (userId : Option String) (ids : List String) (anonymous : Bool)
    (guestId : Option String) (poll : Poll)
    (hpoll : docGet s.polls pollId = some poll)
    (hguest : poll.guestVoting = false)
    (hu : truthy userId = false)
    (hne : ids ≠ []) :
    castVote s now pollId userId (some ids) anonymous guestId
      = (s, .error "This poll requires authentication to vote") :=
  castVote_eq_error hne
    (castVoteBody_not_permitted now ids anonymous guestId hpoll hu hguest)

theorem castVote_guest_gate_witness :
    docGet demoMembers.polls "M" = some demoMembersPoll ∧
    castVote demoMembers 20 "M" none (some ["o0"]) false (some "g1")
      = (demoMembers, .error "This poll requires authentication to vote") ∧
    (docGet demoMembers.polls "M").map Poll.totalVotes = some 0 :=
  ⟨by rfl,
    castVote_guest_gate demoMembers 20 "M" none ["o0"] false (some "g1") demoMembersPoll
      (by rfl) (by rfl) (by rfl) (by decide),
    by decide⟩

/-- C14: on an existing single-choice poll, `castVote` with more than one option id
fails and changes nothing; when the voter is permitted and the poll is votable the
error is 'Single choice poll only allows one option', whether or not the voter has
already voted and whether or not the ids name options. -/
theorem castVote_single_choice_cardinality (s : Store) (now : Nat) (pollId : String)
    (userId : Option String) (ids : List String) (anonymous : Bool)
    (guestId : Option String) (poll : Poll)
    (hpoll : docGet s.polls pollId = some poll)
    (hty : poll.type = POLL_TYPES.SINGLE_CHOICE)
    (hlen : 1 < ids.length) :
    (castVote s now pollId userId (some ids) anonymous guestId).2 ≠ .ok () ∧
    (castVote s now pollId userId (some ids) anonymous guestId).1 = s ∧
    ((truthy userId = true ∨ poll.guestVoting = true) →
      (∀ t, poll.startsAt = some t → t ≤ now) → poll.status = POLL_STATUS.ACTIVE →
      (∀ t, poll.closesAt = some t → now < t) →
      castVote s now pollId userId (some ids) anonymous guestId
        = (s, .error "Single choice poll only allows one option")) := by
  have hne : ids ≠ [] := by
    intro h; rw [h] at hlen; simp at hlen
  have hnok : (castVote s now pollId userId (some ids) anonymous guestId).2 ≠ .ok () := by
    intro hok
    obtain ⟨ids', poll', hids, hacc⟩ := accepts_of_castVote_ok hok
    cases hids
    have hp : poll' = poll := by
      have := hacc.poll_eq
      rw [hpoll] at this
      exact (Option.some.inj this).symm
    subst hp
    have := hacc.cardinality hty
    omega
  refine ⟨hnok, castVote_not_ok_store hnok, ?_⟩
  intro hperm hstart hact hopen
  exact castVote_eq_error hne
    (castVoteBody_cardinality anonymous guestId hpoll hperm hstart hact hopen hty hlen)

theorem castVote_single_choice_cardinality_witness :
    docGet demoStore.polls "P" = some demoPoll ∧
    demoPoll.type = POLL_TYPES.SINGLE_CHOICE ∧
    (castVote demoStore 20 "P" (some "alice") (some ["o0", "o1"]) false none).1 = demoStore :=
  ⟨by rfl, by rfl,
    (castVote_single_choice_cardinality demoStore 20 "P" (some "alice") ["o0", "o1"] false
      none demoPoll (by rfl) (by rfl) (by decide)).2.1⟩

/-! ## Repeated option ids -/

theorem mem_dedupOptionIds (ids : List String) (o : String) :
    o ∈ dedupOptionIds ids ↔ o ∈ ids := by
  induction ids with
  | nil => simp [dedupOptionIds]
  | cons a rest ih =>
    simp only [dedupOptionIds, List.mem_cons, List.mem_filter, ih, decide_eq_true_eq]
    by_cases h : o = a
    · simp [h]
    · simp [h]

theorem dedupOptionIds_eq_nil (ids : List String) : dedupOptionIds ids = [] ↔ ids = [] := by
  cases ids with
  | nil => simp [dedupOptionIds]
  | cons a rest => simp [dedupOptionIds]

theorem dedupOptionIds_of_nodup (ids : List String) (h : ids.Nodup) :
    dedupOptionIds ids = ids := by
  induction ids with
  | nil => rfl
  | cons a rest ih =>
    rw [List.nodup_cons] at h
    simp only [dedupOptionIds, ih h.2]
    congr 1
    rw [List.filter_eq_self]
    intro b hb
    simp only [decide_eq_true_eq]
    intro hba
    exact h.1 (hba ▸ hb)

theorem any_dedupOptionIds (ids : List String) (f : String → Bool) :
    (dedupOptionIds ids).any f = ids.any f := by
  rw [Bool.eq_iff_iff, List.any_eq_true, List.any_eq_true]
  constructor
  · rintro ⟨o, ho, hf⟩
    exact ⟨o, (mem_dedupOptionIds ids o).mp ho, hf⟩
  · rintro ⟨o, ho, hf⟩
    exact ⟨o, (mem_dedupOptionIds ids o).mpr ho, hf⟩

theorem castVoteBody_dedup_result (s : Store) (now : Nat) (pollId : String)
    (userId : Option String) (ids : List String) (anonymous : Bool)
    (guestId : Option String)
    (hty : ∀ poll, docGet s.polls pollId = some poll → poll.type ≠ POLL_TYPES.SINGLE_CHOICE) :
    (castVoteBody now pollId userId ids anonymous guestId s).map (fun _ => ())
      = (castVoteBody now pollId userId (dedupOptionIds ids) anonymous guestId s).map
          (fun _ => ()) := by
  unfold castVoteBody
  cases hp : docGet s.polls pollId with
  | none => rfl
  | some poll =>
    have hns := hty poll hp
    have h5 : ¬ (poll.type = POLL_TYPES.SINGLE_CHOICE ∧ ids.length > 1) := fun h => hns h.1
    have h5' : ¬ (poll.type = POLL_TYPES.SINGLE_CHOICE ∧ (dedupOptionIds ids).length > 1) :=
      fun h => hns h.1
    simp only [if_neg h5, if_neg h5', any_dedupOptionIds]
    split_ifs <;> rfl

/-- C15 fails as stated: on the votable single-choice poll `P` the selection
`[o0, o0]` is rejected with 'Single choice poll only allows one option' and nothing
changes, while the selection `[o0]`, its list without the repeated id, is accepted. -/
theorem castVote_repeated_id_rejected_on_single_choice :
    dedupOptionIds ["o0", "o0"] = ["o0"] ∧
    castVote demoStore 20 "P" (some "alice") (some ["o0", "o0"]) false none
      = (demoStore, .error "Single choice poll only allows one option") ∧
    (castVote demoStore 20 "P" (some "alice") (some ["o0"]) false none).2 = .ok () :=
  ⟨by decide, by rfl, by rfl⟩

/-- C15, amended: `castVote` does not deduplicate `optionIds`.  With a list and with
the list without its repeated ids it ends the same way, the same error or success in
both, whenever the poll is not single-choice (or does not exist) or the list has no
repeated id; on a single-choice poll a list with a repeated id has more than one
entry and is refused, with 'Single choice poll only allows one option' when the voter
is permitted and the poll votable, and nothing changes. -/
theorem castVote_without_dedup (s : Store) (now : Nat) (pollId : String)
    (userId : Option String) (ids : List String) (anonymous : Bool)
    (guestId : Option String) :
    ((∀ poll, docGet s.polls pollId = some poll → poll.type ≠ POLL_TYPES.SINGLE_CHOICE) →
      (castVote s now pollId userId (some ids) anonymous guestId).2
        = (castVote s now pollId userId (some (dedupOptionIds ids)) anonymous guestId).2) ∧
    (ids.Nodup →
      castVote s now pollId userId (some ids) anonymous guestId
        = castVote s now pollId userId (some (dedupOptionIds ids)) anonymous guestId) ∧
    (∀ poll, docGet s.polls pollId = some poll → poll.type = POLL_TYPES.SINGLE_CHOICE →
      ¬ ids.Nodup →
      (castVote s now pollId userId (some ids) anonymous guestId).2 ≠ .ok () ∧
      (castVote s now pollId userId (some ids) anonymous guestId).1 = s ∧
      ((truthy userId = true ∨ poll.guestVoting = true) →
        (∀ t, poll.startsAt = some t → t ≤ now) → poll.status = POLL_STATUS.ACTIVE →
        (∀ t, poll.closesAt = some t → now < t) →
        castVote s now pollId userId (some ids) anonymous guestId
          = (s, .error "Single choice poll only allows one option"))) := by
  refine ⟨?_, ?_, ?_⟩
  · intro hty
    by_cases hne : ids = []
    · subst hne; rfl
    · have hne' : dedupOptionIds ids ≠ [] := fun h => hne ((dedupOptionIds_eq_nil ids).mp h)
      rw [castVote_result now pollId userId anonymous guestId hne,
        castVote_result now pollId userId anonymous guestId hne']
      exact castVoteBody_dedup_result s now pollId userId ids anonymous guestId hty
  · intro hnd
    rw [dedupOptionIds_of_nodup ids hnd]
  · intro poll hpoll hty hdup
    have hlen : 1 < ids.length := by
      cases ids with
      | nil => exact absurd List.nodup_nil hdup
      | cons a rest =>
        cases rest with
        | nil => exact absurd (List.nodup_singleton a) hdup
        | cons b rest' => simp
    have hne : ids ≠ [] := by
      intro h; rw [h] at hlen; simp at hlen
    have hnok : (castVote s now pollId userId (some ids) anonymous guestId).2 ≠ .ok () := by
      intro hok
      obtain ⟨ids', poll', hids, hacc⟩ := accepts_of_castVote_ok hok
      cases hids
      have hp : poll' = poll := by
        have := hacc.poll_eq
        rw [hpoll] at this
        exact (Option.some.inj this).symm
      subst hp
      have := hacc.cardinality hty
      omega
    refine ⟨hnok, castVote_not_ok_store hnok, ?_⟩
    intro hperm hstart hact hopen
    exact castVote_eq_error hne
      (castVoteBody_cardinality anonymous guestId hpoll hperm hstart hact hopen hty hlen)

theorem castVote_without_dedup_witness :
    (∀ poll, docGet demoMulti.polls "Q" = some poll → poll.type ≠ POLL_TYPES.SINGLE_CHOICE) ∧
    (castVote demoMulti 20 "Q" (some "alice") (some ["o0", "o0"]) false none).2
      = (castVote demoMulti 20 "Q" (some "alice") (some (dedupOptionIds ["o0", "o0"])) false
          none).2 :=
  ⟨by intro poll h; cases h; decide,
    (castVote_without_dedup demoMulti 20 "Q" (some "alice") ["o0", "o0"] false none).1
      (by intro poll h; cases h; decide)⟩

/-! ## The stored vote -/

/-- C16 fails as stated: a selection whose id names no option of the poll is not
always refused with 'Invalid option selected'.  On poll `P`, where `alice` has voted,
her call with the unknown id `zz` is refused with
'You have already voted on this poll', and once the poll is closed a call by `bob`
with `zz` is refused with 'Poll is not active'. -/
theorem castVote_unknown_option_other_error :
    docGet demoVoted.pollOptions ("P", "zz") = none ∧
    castVote demoVoted 21 "P" (some "alice") (some ["zz"]) false none
      = (demoVoted, .error "You have already voted on this poll") ∧
    docGet demoClosed.pollOptions ("P", "zz") = none ∧
    castVote demoClosed 26 "P" (some "bob") (some ["zz"]) false none
      = (demoClosed, .error "Poll is not active") :=
  ⟨by decide, by rfl, by decide, by rfl⟩

/-- C16, amended: `castVote` fails with 'At least one option must be selected' on a
missing or empty selection.  With a selected id that names no option of the poll it
never succeeds and changes nothing; on an existing poll, with well-formed document
ids, it fails with 'Invalid option selected' exactly when the checks that come before
the option check pass: the voter is permitted, the poll has started, is active and
has not closed, the selection passes the single-choice check and the voter has no
vote on the poll.  So in every reachable database every stored vote has a non-empty
`optionIds`, each id in it names an option of the vote's poll, and the list has
length exactly 1 when that poll is single-choice. -/
theorem stored_votes_valid (s : Store) (now : Nat) (pollId : String)
    (userId : Option String) (anonymous : Bool) (guestId : Option String) :
    castVote s now pollId userId none anonymous guestId
      = (s, .error "At least one option must be selected") ∧
    castVote s now pollId userId (some []) anonymous guestId
      = (s, .error "At least one option must be selected") ∧
    (∀ ids : List String, (∃ o ∈ ids, docGet s.pollOptions (pollId, o) = none) →
      (castVote s now pollId userId (some ids) anonymous guestId).2 ≠ .ok () ∧
      (castVote s now pollId userId (some ids) anonymous guestId).1 = s ∧
      (∀ poll, docGet s.polls pollId = some poll →
        isDocumentId pollId = true →
        isDocumentId (getVoteId pollId userId guestId) = true →
        (∀ o ∈ ids, isDocumentId o = true) →
        (castVote s now pollId userId (some ids) anonymous guestId
            = (s, .error "Invalid option selected")
          ↔ ((truthy userId = true ∨ poll.guestVoting = true) ∧
              (∀ t, poll.startsAt = some t → t ≤ now) ∧
              poll.status = POLL_STATUS.ACTIVE ∧
              (∀ t, poll.closesAt = some t → now < t) ∧
              (poll.type = POLL_TYPES.SINGLE_CHOICE → ids.length ≤ 1) ∧
              docGet s.votes (getVoteId pollId userId guestId) = none)))) ∧
    (Reachable s → ∀ (voteId : String) (vote : Vote), docGet s.votes voteId = some vote →
      vote.optionIds ≠ [] ∧
      (∀ o ∈ vote.optionIds, (docGet s.pollOptions (vote.pollId, o)).isSome = true) ∧
      (∀ poll, docGet s.polls vote.pollId = some poll →
        poll.type = POLL_TYPES.SINGLE_CHOICE → vote.optionIds.length = 1)) := by
  refine ⟨rfl, rfl, ?_, ?_⟩
  · intro ids hbad
    have hne : ids ≠ [] := by
      obtain ⟨o, ho, _⟩ := hbad
      intro h; rw [h] at ho; simp at ho
    have hnok : (castVote s now pollId userId (some ids) anonymous guestId).2 ≠ .ok () := by
      intro hok
      obtain ⟨ids', poll', hids, hacc⟩ := accepts_of_castVote_ok hok
      cases hids
      obtain ⟨o, ho, hnone⟩ := hbad
      have := hacc.options o ho
      rw [hnone] at this
      simp at this
    refine ⟨hnok, castVote_not_ok_store hnok, ?_⟩
    intro poll hpoll _ _ _
    constructor
    · intro hres
      have hres2 : (castVote s now pollId userId (some ids) anonymous guestId).2
          = .error "Invalid option selected" := by rw [hres]
      rw [castVote_result now pollId userId anonymous guestId hne] at hres2
      simp only [castVoteBody, hpoll] at hres2
      split_ifs at hres2 with h1 h2 h3 h4 h5 h6 h7
      · simp [Except.map] at hres2
      · simp [Except.map] at hres2
      · simp [Except.map] at hres2
      · simp [Except.map] at hres2
      · simp [Except.map] at hres2
      · simp [Except.map] at hres2
      · refine ⟨?_, ?_, ?_, ?_, ?_, ?_⟩
        · cases hu : truthy userId <;> cases hg : poll.guestVoting <;> simp [hu, hg] at h1 ⊢
        · intro t ht
          simp only [ht, decide_eq_true_eq] at h2
          omega
        · simpa using h3
        · intro t ht
          simp only [ht, decide_eq_true_eq] at h4
          omega
        · intro hs
          by_contra hl
          exact h5 ⟨hs, by omega⟩
        · cases hv : docGet s.votes (getVoteId pollId userId guestId) with
          | none => rfl
          | some v => rw [hv] at h6; simp at h6
      · simp [Except.map] at hres2
    · rintro ⟨hperm, hstart, hact, hopen, hcard, hfresh⟩
      exact castVote_eq_error hne
        (castVoteBody_invalid_option anonymous hpoll hperm hstart hact hopen hcard hfresh hbad)
  · intro hreach voteId vote hv
    have hinv := inv_of_reachable hreach
    have hmem := mem_of_docGet hv
    refine ⟨hinv.vote_nonempty _ hmem, ?_, ?_⟩
    · intro o ho
      exact (docGet_isSome_iff _ _).mpr (hinv.vote_options _ hmem o ho)
    · intro poll hp hty
      exact hinv.vote_single _ hmem (vote.pollId, poll) (mem_of_docGet hp) rfl hty

theorem stored_votes_valid_witness :
    (∃ o ∈ ["o0", "zz"], docGet demoMulti.pollOptions ("Q", o) = none) ∧
    docGet demoMulti.polls "Q" = some demoMultiPoll ∧
    isDocumentId "Q" = true ∧
    isDocumentId (getVoteId "Q" (some "alice") none) = true ∧
    (∀ o ∈ ["o0", "zz"], isDocumentId o = true) ∧
    castVote demoMulti 20 "Q" (some "alice") (some ["o0", "zz"]) false none
      = (demoMulti, .error "Invalid option selected") ∧
    Reachable demoVoted ∧
    docGet demoVoted.votes "P_alice" = some demoVote ∧
    demoVote.optionIds ≠ [] :=
  ⟨⟨"zz", by decide, by decide⟩, by rfl, by decide, by decide, by decide,
    ((((stored_votes_valid demoMulti 20 "Q" (some "alice") false none).2.2.1 ["o0", "zz"]
      ⟨"zz", by decide, by decide⟩).2.2 demoMultiPoll (by rfl) (by decide) (by decide)
      (by decide)).mpr
      ⟨Or.inl (by decide), by intro t h; simp [demoMultiPoll] at h, by rfl,
        by intro t h; simp [demoMultiPoll] at h, by intro h; revert h; decide, by rfl⟩),
    reachable_demoVoted, by rfl,
    ((stored_votes_valid demoVoted 20 "P" (some "alice") false none).2.2.2
      reachable_demoVoted "P_alice" demoVote (by rfl)).1⟩

/-- C17 fails as stated: a successful `castVote` called with both a user id and a
guest id stores a vote whose `userId` and `guestId` are both non-null. -/
theorem castVote_stores_both_identities :
    (castVote demoStore 20 "P" (some "alice") (some ["o0"]) false (some "g1")).2 = .ok () ∧
    (docGet (castVote demoStore 20 "P" (some "alice") (some ["o0"]) false (some "g1")).1.votes
        (getVoteId "P" (some "alice") (some "g1"))).map (fun v => (v.userId, v.guestId))
      = some (some "alice", some "g1") :=
  ⟨by rfl, by decide⟩

/-- C17, amended: for every vote document written by a successful `castVote` in which
exactly one of the arguments `userId` and `guestId` is non-empty, exactly one of the
stored `userId` and `guestId` fields is non-null: the field of the non-empty argument
holds it and the other field is null. -/
theorem castVote_stored_identity (s s' : Store) (now : Nat) (pollId : String)
    (userId : Option String) (ids : List String) (anonymous : Bool)
    (guestId : Option String)
    (h : castVote s now pollId userId (some ids) anonymous guestId = (s', .ok ()))
    (hone : truthy userId ≠ truthy guestId) :
    ∃ vote, docGet s'.votes (getVoteId pollId userId guestId) = some vote ∧
      vote.userId.isSome ≠ vote.guestId.isSome ∧
      (truthy userId = true → vote.userId = userId ∧ vote.guestId = none) ∧
      (truthy guestId = true → vote.userId = none ∧ vote.guestId = guestId) := by
  obtain ⟨ids', poll, hids, hacc⟩ := accepts_of_castVote_ok (by rw [h])
  cases hids
  rw [castVote_of_accepts anonymous hacc] at h
  have hs' : s' = afterVote s (getVoteId pollId userId guestId)
      (voteData now pollId userId ids anonymous guestId poll) pollId ids :=
    (congrArg Prod.fst h).symm
  subst hs'
  refine ⟨voteData now pollId userId ids anonymous guestId poll, ?_, ?_, ?_, ?_⟩
  · simp [afterVote, docGet_docSet]
  · cases hu : truthy userId <;> cases hg : truthy guestId
    · rw [hu, hg] at hone; exact absurd rfl hone
    · cases guestId with
      | none => simp [truthy] at hg
      | some g => simp [voteData, orNull, hu, hg]
    · cases userId with
      | none => simp [truthy] at hu
      | some u => simp [voteData, orNull, hu, hg]
    · rw [hu, hg] at hone; exact absurd rfl hone
  · intro hu
    have hg : truthy guestId = false := by
      cases hg : truthy guestId
      · rfl
      · rw [hu, hg] at hone; exact absurd rfl hone
    simp [voteData, orNull, hu, hg]
  · intro hg
    have hu : truthy userId = false := by
      cases hu : truthy userId
      · rfl
      · rw [hu, hg] at hone; exact absurd rfl hone
    simp [voteData, orNull, hu, hg]

theorem castVote_stored_identity_witness :
    castVote demoStore 20 "P" (some "alice") (some ["o0"]) false none = (demoVoted, .ok ()) ∧
    truthy (some "alice") ≠ truthy none ∧
    ∃ vote, docGet demoVoted.votes (getVoteId "P" (some "alice") none) = some vote ∧
      vote.userId.isSome ≠ vote.guestId.isSome ∧
      (truthy (some "alice") = true → vote.userId = some "alice" ∧ vote.guestId = none) ∧
      (truthy none = true → vote.userId = none ∧ vote.guestId = none) :=
  ⟨by rfl, by decide,
    castVote_stored_identity demoStore demoVoted 20 "P" (some "alice") ["o0"] false none
      (by rfl) (by decide)⟩

/-- C18: the vote stored by a successful `castVote` has `anonymous` equal to the
caller's `anonymous` argument OR the poll's `anonymous` flag; on an anonymous poll
every vote is stored as anonymous whatever the argument. -/
theorem castVote_effective_anonymity (s s' : Store) (now : Nat) (pollId : String)
    (userId : Option String) (ids : List String) (anonymous : Bool)
    (guestId : Option String)
    (h : castVote s now pollId userId (some ids) anonymous guestId = (s', .ok ())) :
    ∃ poll vote, docGet s.polls pollId = some poll ∧
      docGet s'.votes (getVoteId pollId userId guestId) = some vote ∧
      vote.anonymous = (anonymous || poll.anonymous) ∧
      (poll.anonymous = true → vote.anonymous = true) := by
  obtain ⟨ids', poll, hids, hacc⟩ := accepts_of_castVote_ok (by rw [h])
  cases hids
  rw [castVote_of_accepts anonymous hacc] at h
  have hs' : s' = afterVote s (getVoteId pollId userId guestId)
      (voteData now pollId userId ids anonymous guestId poll) pollId ids :=
    (congrArg Prod.fst h).symm
  subst hs'
  refine ⟨poll, voteData now pollId userId ids anonymous guestId poll, hacc.poll_eq, ?_, rfl, ?_⟩
  · simp [afterVote, docGet_docSet]
  · intro hp
    simp [voteData, hp]

theorem castVote_effective_anonymity_witness :
    (castVote demoMembers 20 "M" (some "alice") (some ["o0"]) false none).2 = .ok () ∧
    ∃ poll vote, docGet demoMembers.polls "M" = some poll ∧
      docGet (castVote demoMembers 20 "M" (some "alice") (some ["o0"]) false none).1.votes
        (getVoteId "M" (some "alice") none) = some vote ∧
      vote.anonymous = (false || poll.anonymous) ∧
      (poll.anonymous = true → vote.anonymous = true) :=
  ⟨by rfl,
    castVote_effective_anonymity demoMembers
      (castVote demoMembers 20 "M" (some "alice") (some ["o0"]) false none).1 20 "M"
      (some "alice") ["o0"] false none (by rfl)⟩

/-- C20: after a successful `castVote`, `getUserVote` for the same identity returns
the vote stored at `getVoteId`, with the `pollId` and `optionIds` that were passed,
and `hasUserVoted` returns true; on the database before that vote `getUserVote`
returns null and `hasUserVoted` returns false. -/
theorem read_your_writes (s s' : Store) (now : Nat) (pollId : String)
    (userId : Option String) (ids : List String) (anonymous : Bool)
    (guestId : Option String)
    (h : castVote s now pollId userId (some ids) anonymous guestId = (s', .ok ())) :
    (∃ vote, getUserVote s' pollId userId guestId
        = some (getVoteId pollId userId guestId, vote) ∧
      vote.pollId = pollId ∧ vote.optionIds = ids) ∧
    hasUserVoted s' pollId userId guestId = true ∧
    getUserVote s pollId userId guestId = none ∧
    hasUserVoted s pollId userId guestId = false := by
  obtain ⟨ids', poll, hids, hacc⟩ := accepts_of_castVote_ok (by rw [h])
  cases hids
  rw [castVote_of_accepts anonymous hacc] at h
  have hs' : s' = afterVote s (getVoteId pollId userId guestId)
      (voteData now pollId userId ids anonymous guestId poll) pollId ids :=
    (congrArg Prod.fst h).symm
  subst hs'
  have hget : docGet (afterVote s (getVoteId pollId userId guestId)
      (voteData now pollId userId ids anonymous guestId poll) pollId ids).votes
      (getVoteId pollId userId guestId)
      = some (voteData now pollId userId ids anonymous guestId poll) := by
    simp [afterVote, docGet_docSet]
  refine ⟨⟨voteData now pollId userId ids anonymous guestId poll, ?_, rfl, rfl⟩, ?_, ?_, ?_⟩
  · simp only [getUserVote, hget]
  · simp only [hasUserVoted, hget]; rfl
  · simp only [getUserVote, hacc.fresh]
  · simp only [hasUserVoted, hacc.fresh]; rfl

theorem read_your_writes_witness :
    castVote demoStore 20 "P" (some "alice") (some ["o0"]) false none = (demoVoted, .ok ()) ∧
    hasUserVoted demoVoted "P" (some "alice") none = true ∧
    getUserVote demoStore "P" (some "alice") none = none :=
  ⟨by rfl,
    (read_your_writes demoStore demoVoted 20 "P" (some "alice") ["o0"] false none
      (by rfl)).2.1,
    (read_your_writes demoStore demoVoted 20 "P" (some "alice") ["o0"] false none
      (by rfl)).2.2.1⟩

/-! ## Poll results -/

theorem optionBefore_total (a b : String × PollOption) :
    optionBefore a b = true ∨ optionBefore b a = true := by
  simp only [optionBefore, Bool.or_eq_true, Bool.and_eq_true, decide_eq_true_eq]
  rcases Nat.lt_trichotomy a.2.order b.2.order with h | h | h
  · exact Or.inl (Or.inl h)
  · rcases le_total a.1 b.1 with hle | hle
    · exact Or.inl (Or.inr ⟨h, hle⟩)
    · exact Or.inr (Or.inr ⟨h.symm, hle⟩)
  · exact Or.inr (Or.inl h)

theorem optionBefore_trans (a b c : String × PollOption)
    (hab : optionBefore a b = true) (hbc : optionBefore b c = true) :
    optionBefore a c = true := by
  simp only [optionBefore, Bool.or_eq_true, Bool.and_eq_true, decide_eq_true_eq] at hab hbc ⊢
  rcases hab with h1 | ⟨h1, h1'⟩ <;> rcases hbc with h2 | ⟨h2, h2'⟩
  · exact Or.inl (by omega)
  · exact Or.inl (by omega)
  · exact Or.inl (by omega)
  · exact Or.inr ⟨by omega, le_trans h1' h2'⟩

theorem optionBefore_order_le (a b : String × PollOption) (h : optionBefore a b = true) :
    a.2.order ≤ b.2.order := by
  simp only [optionBefore, Bool.or_eq_true, Bool.and_eq_true, decide_eq_true_eq] at h
  rcases h with h | ⟨h, _⟩ <;> omega

theorem getOptions_sorted (s : Store) (pollId : String) :
    List.Sorted (fun a b => a.2.order ≤ b.2.order) (getOptions s pollId) := by
  have hsorted : List.Sorted (fun a b => optionBefore a b = true) (getOptions s pollId) :=
    @List.sorted_insertionSort _ (fun a b => optionBefore a b = true) _
      ⟨optionBefore_total⟩ ⟨optionBefore_trans⟩ _
  exact List.Pairwise.imp (fun {a b} h => optionBefore_order_le a b h) hsorted

theorem getOptions_perm (s : Store) (pollId : String) :
    List.Perm (getOptions s pollId)
      ((optionsOf s.pollOptions pollId).map (fun e => (e.1.2, e.2))) :=
  List.perm_insertionSort _ _

/-! ## Rounding to a double -/

theorem roundHalfEven_sub_le (q : ℚ) : |(roundHalfEven q : ℚ) - q| ≤ 1 / 2 := by
  have h1 := Int.floor_le q
  have h2 := Int.lt_floor_add_one q
  unfold roundHalfEven
  split_ifs with a b c
  · rw [abs_le]; constructor <;> linarith
  · rw [abs_le]; push_cast; constructor <;> linarith
  · rw [abs_le]; constructor <;> linarith
  · rw [abs_le]; push_cast; constructor <;> linarith

theorem roundHalfEven_intCast (z : ℤ) : roundHalfEven (z : ℚ) = z := by
  unfold roundHalfEven
  simp

theorem roundHalfEven_eq_of_abs_lt (q : ℚ) (m : ℤ) (h : |q - m| < 1 / 2) :
    roundHalfEven q = m := by
  rw [abs_lt] at h
  have h1 := Int.floor_le q
  have h2 := Int.lt_floor_add_one q
  unfold roundHalfEven
  split_ifs with a b c
  · have : (⌊q⌋ : ℚ) < m + 1 := by linarith
    have h3 : ⌊q⌋ < m + 1 := by exact_mod_cast this
    have : (m : ℚ) < ⌊q⌋ + 1 := by linarith
    have h4 : m < ⌊q⌋ + 1 := by exact_mod_cast this
    omega
  · have : (⌊q⌋ : ℚ) + 1 < m + 1 + 1 := by linarith
    have h3 : ⌊q⌋ + 1 < m + 1 + 1 := by exact_mod_cast this
    have : (m : ℚ) < ⌊q⌋ + 1 + 1 := by linarith
    have h4 : m < ⌊q⌋ + 1 + 1 := by exact_mod_cast this
    have : (m : ℚ) ≠ ⌊q⌋ := by
      intro e; rw [e] at h; linarith
    have h5 : m ≠ ⌊q⌋ := by exact_mod_cast this
    omega
  · have : q - ⌊q⌋ = 1 / 2 := le_antisymm (not_lt.mp b) (not_lt.mp a)
    have : (⌊q⌋ : ℚ) < m + 1 := by linarith
    have h3 : ⌊q⌋ < m + 1 := by exact_mod_cast this
    have : (m : ℚ) < ⌊q⌋ + 1 := by linarith
    have h4 : m < ⌊q⌋ + 1 := by exact_mod_cast this
    have h5 : m = ⌊q⌋ := by omega
    rw [h5] at h
    linarith
  · have e : q - ⌊q⌋ = 1 / 2 := le_antisymm (not_lt.mp b) (not_lt.mp a)
    have : (⌊q⌋ : ℚ) < m + 1 := by linarith
    have h3 : ⌊q⌋ < m + 1 := by exact_mod_cast this
    have : (m : ℚ) < ⌊q⌋ + 1 + 1 := by linarith
    have h4 : m < ⌊q⌋ + 1 + 1 := by exact_mod_cast this
    have h5 : m = ⌊q⌋ ∨ m = ⌊q⌋ + 1 := by omega
    rcases h5 with h5 | h5
    · rw [h5] at h; linarith
    · rw [h5] at h; push_cast at h; linarith

theorem toDouble_zero : toDouble 0 = 0 := by simp [toDouble]

theorem toDouble_eq_of_bounds (q : ℚ) (e : ℤ) (hlo : (2 : ℚ) ^ e ≤ |q|)
    (hhi : |q| < (2 : ℚ) ^ (e + 1)) :
    toDouble q = roundHalfEven (q / 2 ^ (e - 52)) * 2 ^ (e - 52) := by
  have hpos : 0 < |q| := lt_of_lt_of_le (by positivity) hlo
  have hq : q ≠ 0 := abs_pos.mp hpos
  have hlog : Int.log 2 |q| = e := by
    have h1 : e ≤ Int.log 2 |q| := (Int.zpow_le_iff_le_log (by norm_num) hpos).mp (by exact_mod_cast hlo)
    have h2 : Int.log 2 |q| < e + 1 := (Int.lt_zpow_iff_log_lt (by norm_num) hpos).mp (by exact_mod_cast hhi)
    omega
  unfold toDouble
  rw [if_neg hq, hlog]

theorem toDouble_error (q : ℚ) : |toDouble q - q| ≤ |q| * 2 ^ (-53 : ℤ) := by
  by_cases hq : q = 0
  · subst hq; simp [toDouble]
  · have hpos : 0 < |q| := abs_pos.mpr hq
    have hlo : ((2 : ℕ) : ℚ) ^ Int.log 2 |q| ≤ |q| := Int.zpow_log_le_self (by norm_num) hpos
    have hlo' : (2 : ℚ) ^ Int.log 2 |q| ≤ |q| := by exact_mod_cast hlo
    unfold toDouble
    rw [if_neg hq]
    generalize Int.log 2 |q| = e at hlo'
    have hk : (0 : ℚ) < 2 ^ (e - 52) := by positivity
    have hr := roundHalfEven_sub_le (q / 2 ^ (e - 52))
    have e1 : (roundHalfEven (q / 2 ^ (e - 52)) : ℚ) * 2 ^ (e - 52) - q
        = ((roundHalfEven (q / 2 ^ (e - 52)) : ℚ) - q / 2 ^ (e - 52)) * 2 ^ (e - 52) := by
      field_simp
    rw [e1, abs_mul, abs_of_pos hk]
    have e2 : (2 : ℚ) ^ (e - 52) = 2 ^ e * 2 ^ (-52 : ℤ) := by
      rw [← zpow_add₀ (by norm_num : (2 : ℚ) ≠ 0)]; congr 1
    calc |(roundHalfEven (q / 2 ^ (e - 52)) : ℚ) - q / 2 ^ (e - 52)| * 2 ^ (e - 52)
        ≤ 1 / 2 * 2 ^ (e - 52) := by
          apply mul_le_mul_of_nonneg_right hr (le_of_lt hk)
      _ = 2 ^ e * 2 ^ (-53 : ℤ) := by
          rw [e2]
          have : (2 : ℚ) ^ (-52 : ℤ) = 2 * 2 ^ (-53 : ℤ) := by norm_num
          rw [this]; ring
      _ ≤ |q| * 2 ^ (-53 : ℤ) := by
          apply mul_le_mul_of_nonneg_right hlo' (by positivity)

theorem toDouble_of_representable (m : ℤ) (k : ℤ) (hm : |m| < 2 ^ 53) :
    toDouble ((m : ℚ) * 2 ^ k) = (m : ℚ) * 2 ^ k := by
  by_cases h0 : m = 0
  · subst h0; simp [toDouble]
  · have hk : (0 : ℚ) < 2 ^ k := by positivity
    have hq : (m : ℚ) * 2 ^ k ≠ 0 := by
      apply mul_ne_zero
      · exact_mod_cast h0
      · exact ne_of_gt hk
    have hpos : 0 < |(m : ℚ) * 2 ^ k| := abs_pos.mpr hq
    have habs : |(m : ℚ) * 2 ^ k| < ((2 : ℕ) : ℚ) ^ (53 + k) := by
      rw [abs_mul, abs_of_pos hk]
      have : (|(m : ℚ)|) < 2 ^ (53 : ℤ) := by
        have : ((|m| : ℤ) : ℚ) < ((2 ^ 53 : ℤ) : ℚ) := by exact_mod_cast hm
        rw [Int.cast_abs] at this
        norm_num at this ⊢
        exact this
      push_cast
      rw [zpow_add₀ (by norm_num : (2 : ℚ) ≠ 0)]
      exact mul_lt_mul_of_pos_right this hk
    have hlog : Int.log 2 |(m : ℚ) * 2 ^ k| < 53 + k :=
      (Int.lt_zpow_iff_log_lt (by norm_num) hpos).mp habs
    unfold toDouble
    rw [if_neg hq]
    generalize Int.log 2 |(m : ℚ) * 2 ^ k| = e at hlog
    obtain ⟨n, hn⟩ : ∃ n : ℕ, k - (e - 52) = n := ⟨(k - (e - 52)).toNat, by omega⟩
    have e1 : (m : ℚ) * 2 ^ k / 2 ^ (e - 52) = ((m * 2 ^ n : ℤ) : ℚ) := by
      rw [mul_div_assoc, ← zpow_sub₀ (by norm_num : (2 : ℚ) ≠ 0), hn]
      push_cast
      rw [zpow_natCast]
    rw [e1, roundHalfEven_intCast]
    push_cast
    rw [mul_assoc]
    congr 1
    rw [← zpow_natCast, ← zpow_add₀ (by norm_num : (2 : ℚ) ≠ 0), ← hn]
    congr 1
    ring


theorem toDouble_eq_of_pos (q : ℚ) (e m : ℤ) (hlo : (2 : ℚ) ^ e ≤ q)
    (hhi : q < (2 : ℚ) ^ (e + 1)) (h1 : (m : ℚ) - 1 / 2 < q / 2 ^ (e - 52))
    (h2 : q / 2 ^ (e - 52) < (m : ℚ) + 1 / 2) :
    toDouble q = (m : ℚ) * 2 ^ (e - 52) := by
  have hpos : 0 < q := lt_of_lt_of_le (by positivity) hlo
  rw [toDouble_eq_of_bounds q e (by rwa [abs_of_pos hpos]) (by rwa [abs_of_pos hpos]),
    roundHalfEven_eq_of_abs_lt _ m (by rw [abs_lt]; constructor <;> linarith)]

theorem percentage_error (a : ℚ) (ha : 0 ≤ a) :
    |toDouble (toDouble a * 100) - 100 * a|
      ≤ 100 * a * (2 ^ (-52 : ℤ) + 2 ^ (-106 : ℤ)) := by
  have h1 := toDouble_error a
  have h2 := toDouble_error (toDouble a * 100)
  rw [abs_of_nonneg ha] at h1
  have h3 : |toDouble a| ≤ a + a * 2 ^ (-53 : ℤ) := by
    have := abs_sub_abs_le_abs_sub (toDouble a) a
    rw [abs_of_nonneg ha] at this
    linarith
  have h4 : |toDouble a * 100| = |toDouble a| * 100 := by
    rw [abs_mul]; norm_num
  rw [h4] at h2
  have h5 : toDouble (toDouble a * 100) - 100 * a
      = (toDouble (toDouble a * 100) - toDouble a * 100) + 100 * (toDouble a - a) := by ring
  rw [h5]
  have h6 := abs_add (toDouble (toDouble a * 100) - toDouble a * 100) (100 * (toDouble a - a))
  have h7 : |100 * (toDouble a - a)| = 100 * |toDouble a - a| := by
    rw [abs_mul]; norm_num
  rw [h7] at h6
  have hu : (0 : ℚ) ≤ 2 ^ (-53 : ℤ) := by positivity
  have h8 : |toDouble a| * 100 * 2 ^ (-53 : ℤ) ≤ (a + a * 2 ^ (-53 : ℤ)) * 100 * 2 ^ (-53 : ℤ) := by
    apply mul_le_mul_of_nonneg_right _ hu
    linarith
  have e52 : (2 : ℚ) ^ (-52 : ℤ) = 2 * 2 ^ (-53 : ℤ) := by norm_num
  have e106 : (2 : ℚ) ^ (-106 : ℤ) = 2 ^ (-53 : ℤ) * 2 ^ (-53 : ℤ) := by norm_num
  rw [e52, e106]
  nlinarith

theorem toDouble_one_third : toDouble (1 / 3) = 6004799503160661 / 2 ^ 54 := by
  have := toDouble_eq_of_pos (1 / 3) (-2) 6004799503160661 (by norm_num) (by norm_num)
    (by norm_num) (by norm_num)
  rw [this]; norm_num

theorem percentage_one_third :
    toDouble (toDouble (1 / 3) * 100) = 2345624805922133 / 2 ^ 46 := by
  rw [toDouble_one_third]
  have := toDouble_eq_of_pos (6004799503160661 / 2 ^ 54 * 100) 5 4691249611844266
    (by norm_num) (by norm_num) (by norm_num) (by norm_num)
  rw [this]; norm_num

theorem percentage_two_thirds :
    toDouble (toDouble (2 / 3) * 100) = 2345624805922133 / 2 ^ 45 := by
  have h := toDouble_eq_of_pos (2 / 3) (-1) 6004799503160661 (by norm_num) (by norm_num)
    (by norm_num) (by norm_num)
  rw [h]
  have := toDouble_eq_of_pos (((6004799503160661 : ℤ) : ℚ) * 2 ^ (-1 - 52 : ℤ) * 100) 6 4691249611844266
    (by norm_num) (by norm_num) (by norm_num) (by norm_num)
  rw [this]; norm_num

theorem percentage_seven_hundredths :
    toDouble (toDouble (7 / 100) * 100) = 7 + 1 / 2 ^ 50 := by
  have h := toDouble_eq_of_pos (7 / 100) (-4) 5044031582654956 (by norm_num) (by norm_num)
    (by norm_num) (by norm_num)
  rw [h]
  have := toDouble_eq_of_pos (((5044031582654956 : ℤ) : ℚ) * 2 ^ (-4 - 52 : ℤ) * 100) 2 7881299347898369
    (by norm_num) (by norm_num) (by norm_num) (by norm_num)
  rw [this]; norm_num

theorem percentage_half : toDouble (toDouble (1 / 2) * 100) = 50 := by
  have h := toDouble_of_representable 1 (-1) (by norm_num)
  have h2 := toDouble_of_representable 50 0 (by norm_num)
  norm_num at h h2
  rw [h]
  norm_num
  exact h2

theorem percentage_ninety_three_hundredths :
    toDouble (toDouble (93 / 100) * 100) = 93 := by
  have h := toDouble_eq_of_pos (93 / 100) (-1) 8376695306909123 (by norm_num) (by norm_num)
    (by norm_num) (by norm_num)
  rw [h]
  have := toDouble_eq_of_pos (((8376695306909123 : ℤ) : ℚ) * 2 ^ (-1 - 52 : ℤ) * 100) 6
    6544293208522752 (by norm_num) (by norm_num) (by norm_num) (by norm_num)
  rw [this]; norm_num

theorem percentage_whole : toDouble (toDouble 1 * 100) = 100 := by
  have h := toDouble_of_representable 1 0 (by norm_num)
  have h2 := toDouble_of_representable 100 0 (by norm_num)
  norm_num at h h2
  rw [h]
  norm_num
  exact h2

/-! ## getPollResults -/

theorem getPollResults_eq (s : Store) (pollId : String) (poll : Poll)
    (h : docGet s.polls pollId = some poll) :
    getPollResults s pollId = some
      { pollId := pollId
        totalVotes := poll.totalVotes
        options := (getOptions s pollId).map (fun o =>
          { id := o.1, text := o.2.text, voteCount := o.2.voteCount
            percentage := if poll.totalVotes > 0
              then jsMul (jsDiv (o.2.voteCount : ℚ) (poll.totalVotes : ℚ)) 100 else 0 }) } := by
  simp only [getPollResults, getPoll, h, orZero, percentage]

/-- C19 fails as stated: the percentages are not the exact values of
`100 * voteCount / totalVotes`.  With Red 1 and Blue 2 of 3 votes on poll `P`,
`getPollResults` returns the doubles 33.33333333333333 and 66.66666666666666, which
are not 100/3 and 200/3 and do not add up to 100; with Red 7 of 100 on poll `R` it
returns 7.000000000000001, although the exact value 7 is itself a double. -/
theorem getPollResults_not_exact :
    Reachable demoThreeVotes ∧
    getPollResults demoThreeVotes "P" = some
      { pollId := "P", totalVotes := 3,
        options := [{ id := "o0", text := "Red", voteCount := 1,
                      percentage := 2345624805922133 / 2 ^ 46 },
                    { id := "o1", text := "Blue", voteCount := 2,
                      percentage := 2345624805922133 / 2 ^ 45 }] } ∧
    (2345624805922133 / 2 ^ 46 : ℚ) ≠ 100 * 1 / 3 ∧
    (2345624805922133 / 2 ^ 45 : ℚ) ≠ 100 * 2 / 3 ∧
    (2345624805922133 / 2 ^ 46 + 2345624805922133 / 2 ^ 45 : ℚ) ≠ 100 ∧
    getPollResults demoTally "R" = some
      { pollId := "R", totalVotes := 100,
        options := [{ id := "o0", text := "Red", voteCount := 7,
                      percentage := 7 + 1 / 2 ^ 50 },
                    { id := "o1", text := "Blue", voteCount := 93, percentage := 93 }] } ∧
    (7 + 1 / 2 ^ 50 : ℚ) ≠ 100 * 7 / 100 := by
  have hpoll : docGet demoThreeVotes.polls "P" = some { demoPoll with totalVotes := 3 } := by
    rfl
  have hopts : getOptions demoThreeVotes "P"
      = [("o0", { pollId := "P", text := "Red", order := 0, voteCount := 1, createdAt := 10 }),
         ("o1", { pollId := "P", text := "Blue", order := 1, voteCount := 2, createdAt := 10 })] := by
    decide
  have hpollR : docGet demoTally.polls "R"
      = some { demoPoll with
                 totalVotes := 100, publicLink := "https://voteapp.example/vote/R" } := by rfl
  have hoptsR : getOptions demoTally "R"
      = [("o0", { pollId := "R", text := "Red", order := 0, voteCount := 7, createdAt := 10 }),
         ("o1", { pollId := "R", text := "Blue", order := 1, voteCount := 93,
                  createdAt := 10 })] := by
    decide
  have h1 : jsMul (jsDiv 1 3) 100 = 2345624805922133 / 2 ^ 46 := by
    simp only [jsMul, jsDiv]; exact percentage_one_third
  have h2 : jsMul (jsDiv 2 3) 100 = 2345624805922133 / 2 ^ 45 := by
    simp only [jsMul, jsDiv]; exact percentage_two_thirds
  have h7 : jsMul (jsDiv 7 100) 100 = 7 + 1 / 2 ^ 50 := by
    simp only [jsMul, jsDiv]; exact percentage_seven_hundredths
  have h93 : jsMul (jsDiv 93 100) 100 = 93 := by
    simp only [jsMul, jsDiv]; exact percentage_ninety_three_hundredths
  refine ⟨?_, ?_, by norm_num, by norm_num, by norm_num, ?_, by norm_num⟩
  · exact Reachable.vote 22 "P" (some "u2") (some ["o1"]) false none
      (Reachable.vote 21 "P" (some "u1") (some ["o1"]) false none
        (Reachable.vote 20 "P" none (some ["o0"]) false (some "g1") reachable_demoStore))
  · rw [getPollResults_eq _ _ _ hpoll, hopts]
    simp only [List.map_cons, List.map_nil, Nat.cast_ofNat, Nat.cast_one]
    norm_num [h1, h2]
  · rw [getPollResults_eq _ _ _ hpollR, hoptsR]
    simp only [List.map_cons, List.map_nil, Nat.cast_ofNat]
    norm_num [h7, h93]

/-- C19, amended: `getPollResults` returns null when the poll is absent; otherwise,
for counters below 2^53, it returns the poll's `totalVotes` and one entry per option
of the poll, in ascending display order, with the option's id, text and `voteCount`
and a percentage that is 0 when `totalVotes` is 0 and otherwise the double computed
as `(voteCount / totalVotes) * 100`, the division and the multiplication each rounded
to the nearest double.  That double is within the relative error `2^-52 + 2^-106` of
`100 * voteCount / totalVotes`, and is exactly 0, 50 and 100 when `voteCount` is 0,
half of `totalVotes` and `totalVotes`.  A missing counter field counts as 0, and the
percentage is 0 when either counter field is missing. -/
theorem getPollResults_percentages (s : Store) (pollId : String) :
    (docGet s.polls pollId = none → getPollResults s pollId = none) ∧
    (orZero none = 0 ∧ (∀ voteCount, percentage voteCount none = 0) ∧
      (∀ totalVotes, percentage none (some totalVotes) = 0)) ∧
    (∀ poll, docGet s.polls pollId = some poll →
      poll.totalVotes < 2 ^ 53 →
      (∀ o ∈ getOptions s pollId, o.2.voteCount < 2 ^ 53) →
      getPollResults s pollId = some
        { pollId := pollId
          totalVotes := poll.totalVotes
          options := (getOptions s pollId).map (fun o =>
            { id := o.1, text := o.2.text, voteCount := o.2.voteCount
              percentage := if poll.totalVotes > 0
                then jsMul (jsDiv (o.2.voteCount : ℚ) (poll.totalVotes : ℚ)) 100
                else 0 }) } ∧
      (0 < poll.totalVotes → ∀ o ∈ getOptions s pollId,
        |jsMul (jsDiv (o.2.voteCount : ℚ) (poll.totalVotes : ℚ)) 100
            - 100 * (o.2.voteCount : ℚ) / (poll.totalVotes : ℚ)|
          ≤ 100 * (o.2.voteCount : ℚ) / (poll.totalVotes : ℚ)
              * (2 ^ (-52 : ℤ) + 2 ^ (-106 : ℤ)) ∧
        (o.2.voteCount = 0 →
          jsMul (jsDiv (o.2.voteCount : ℚ) (poll.totalVotes : ℚ)) 100 = 0) ∧
        (2 * o.2.voteCount = poll.totalVotes →
          jsMul (jsDiv (o.2.voteCount : ℚ) (poll.totalVotes : ℚ)) 100 = 50) ∧
        (o.2.voteCount = poll.totalVotes →
          jsMul (jsDiv (o.2.voteCount : ℚ) (poll.totalVotes : ℚ)) 100 = 100))) ∧
    List.Perm (getOptions s pollId)
      ((optionsOf s.pollOptions pollId).map (fun e => (e.1.2, e.2))) ∧
    List.Sorted (fun a b => a.2.order ≤ b.2.order) (getOptions s pollId) := by
  refine ⟨?_, ⟨rfl, fun _ => rfl, ?_⟩, ?_, getOptions_perm s pollId,
    getOptions_sorted s pollId⟩
  · intro h
    simp [getPollResults, getPoll, h]
  · intro totalVotes
    simp [percentage, orZero, jsMul, jsDiv, toDouble_zero]
  · intro poll h _ _
    refine ⟨getPollResults_eq s pollId poll h, ?_⟩
    intro hpos o _
    have ht : (0 : ℚ) < (poll.totalVotes : ℚ) := by exact_mod_cast hpos
    refine ⟨?_, ?_, ?_, ?_⟩
    · have ha : (0 : ℚ) ≤ (o.2.voteCount : ℚ) / (poll.totalVotes : ℚ) := by positivity
      have := percentage_error _ ha
      simp only [jsMul, jsDiv]
      rw [mul_div_assoc]
      exact this
    · intro hv
      simp [jsMul, jsDiv, hv, toDouble_zero]
    · intro hv
      have e : (o.2.voteCount : ℚ) / (poll.totalVotes : ℚ) = 1 / 2 := by
        have : (poll.totalVotes : ℚ) = 2 * (o.2.voteCount : ℚ) := by exact_mod_cast hv.symm
        rw [this] at ht ⊢
        field_simp
        ring
      simp only [jsMul, jsDiv, e]
      exact percentage_half
    · intro hv
      have e : (o.2.voteCount : ℚ) / (poll.totalVotes : ℚ) = 1 := by
        rw [hv]; exact div_self (ne_of_gt ht)
      simp only [jsMul, jsDiv, e]
      exact percentage_whole

theorem getPollResults_percentages_witness :
    docGet demoTwoVotes.polls "P" = some { demoPoll with totalVotes := 2 } ∧
    getPollResults demoTwoVotes "P" = some
      { pollId := "P", totalVotes := 2,
        options := [{ id := "o0", text := "Red", voteCount := 1, percentage := 50 },
                    { id := "o1", text := "Blue", voteCount := 1, percentage := 50 }] } := by
  have hpoll : docGet demoTwoVotes.polls "P" = some { demoPoll with totalVotes := 2 } := by rfl
  have hopts : getOptions demoTwoVotes "P"
      = [("o0", { pollId := "P", text := "Red", order := 0, voteCount := 1, createdAt := 10 }),
         ("o1", { pollId := "P", text := "Blue", order := 1, voteCount := 1, createdAt := 10 })] := by
    decide
  have hsmall : ∀ o ∈ getOptions demoTwoVotes "P", o.2.voteCount < 2 ^ 53 := by
    rw [hopts]; decide
  have hthm := (getPollResults_percentages demoTwoVotes "P").2.2.1 _ hpoll (by decide) hsmall
  have hred := (hthm.2 (by decide)
    ("o0", { pollId := "P", text := "Red", order := 0, voteCount := 1, createdAt := 10 })
    (by rw [hopts]; decide)).2.2.1 (by decide)
  refine ⟨hpoll, ?_⟩
  rw [hthm.1, hopts]
  simp only [List.map_cons, List.map_nil]
  simp only [Nat.cast_ofNat, Nat.cast_one] at hred ⊢
  norm_num [hred]

/-! ## createPoll -/

theorem docGet_foldl_docSet_of_not_mem {κ : Type} {α : Type} [DecidableEq κ]
    (batch c : List (κ × α)) (k : κ) (h : k ∉ batch.map Prod.fst) :
    docGet (batch.foldl (fun c e => docSet c e.1 e.2) c) k = docGet c k := by
  induction batch generalizing c with
  | nil => rfl
  | cons e rest ih =>
    rw [List.map_cons, List.mem_cons, not_or] at h
    rw [List.foldl_cons, ih _ h.2, docGet_docSet, if_neg h.1]

theorem docGet_foldl_docSet_of_mem {κ : Type} {α : Type} [DecidableEq κ]
    (P : α → Prop) (batch c : List (κ × α)) (k : κ) (hP : ∀ e ∈ batch, P e.2)
    (h : k ∈ batch.map Prod.fst) :
    ∃ v, docGet (batch.foldl (fun c e => docSet c e.1 e.2) c) k = some v ∧ P v := by
  induction batch generalizing c with
  | nil => simp at h
  | cons e rest ih =>
    rw [List.foldl_cons]
    by_cases hr : k ∈ rest.map Prod.fst
    · exact ih _ (fun e' he' => hP e' (List.mem_cons_of_mem _ he')) hr
    · rw [List.map_cons, List.mem_cons] at h
      have hk : k = e.1 := h.resolve_right hr
      refine ⟨e.2, ?_, hP e (List.mem_cons_self _ _)⟩
      rw [docGet_foldl_docSet_of_not_mem _ _ _ hr, docGet_docSet, if_pos hk]

theorem createPoll_poll (s : Store) (now : Nat) (baseUrl pollId : String)
    (optionId : Nat → String) (pollData : PollData) (userId : String) :
    docGet (createPoll s now baseUrl pollId optionId pollData userId).1.polls pollId
      = some { pollDoc now pollData userId with
          publicLink := generatePublicLink baseUrl pollId } := by
  simp only [createPoll, docGet_docUpdate, docGet_docSet, if_true, Option.map_some']

theorem sum_eq_zero_of_forall (l : List ((String × String) × PollOption))
    (h : ∀ e ∈ l, e.2.voteCount = 0) : (l.map (fun e => e.2.voteCount)).sum = 0 := by
  induction l with
  | nil => rfl
  | cons e rest ih =>
    rw [List.map_cons, List.sum_cons, h e (List.mem_cons_self _ _),
      ih (fun e' he' => h e' (List.mem_cons_of_mem _ he'))]

/-- C21: the poll `createPoll` creates has status draft when `startsAt` is given and
strictly later than the creation instant and status active otherwise, its
`totalVotes` is 0 and every option created has `voteCount` 0; created in a reachable
database under a new id, the poll has no vote document and its option counters sum
to 0, so both counter invariants hold with zero votes. -/
theorem createPoll_initial_state (s : Store) (now : Nat) (baseUrl pollId : String)
    (optionId : Nat → String) (pollData : PollData) (userId : String) :
    (∃ poll,
      docGet (createPoll s now baseUrl pollId optionId pollData userId).1.polls pollId
        = some poll ∧
      (∀ t, pollData.startsAt = some t → now < t → poll.status = POLL_STATUS.DRAFT) ∧
      ((∀ t, pollData.startsAt = some t → t ≤ now) → poll.status = POLL_STATUS.ACTIVE) ∧
      poll.totalVotes = 0) ∧
    (∀ e ∈ createOptions now pollId optionId 0 (pollData.options.getD []),
      ∃ o, docGet (createPoll s now baseUrl pollId optionId pollData userId).1.pollOptions e.1
          = some o ∧ o.voteCount = 0) ∧
    (Reachable s → docGet s.polls pollId = none →
      (∀ i j, i < (pollData.options.getD []).length → j < (pollData.options.getD []).length →
        optionId i = optionId j → i = j) →
      votesOf (createPoll s now baseUrl pollId optionId pollData userId).1.votes pollId = [] ∧
      (∀ e ∈ optionsOf (createPoll s now baseUrl pollId optionId pollData userId).1.pollOptions
          pollId, e.2.voteCount = 0) ∧
      ((optionsOf (createPoll s now baseUrl pollId optionId pollData userId).1.pollOptions
          pollId).map (fun e => e.2.voteCount)).sum = 0) := by
  refine ⟨⟨_, createPoll_poll s now baseUrl pollId optionId pollData userId, ?_, ?_, rfl⟩,
    ?_, ?_⟩
  · intro t ht hlt
    simp [pollDoc, initialStatus, ht, hlt]
  · intro hle
    cases hs : pollData.startsAt with
    | none => simp [pollDoc, initialStatus, hs]
    | some t =>
      have := hle t hs
      have hn : ¬ t > now := by omega
      simp [pollDoc, initialStatus, hs, hn]
  · intro e he
    have hk : e.1 ∈ (createOptions now pollId optionId 0 (pollData.options.getD [])).map
        Prod.fst := List.mem_map.mpr ⟨e, he, rfl⟩
    exact docGet_foldl_docSet_of_mem (fun o => o.voteCount = 0) _ s.pollOptions e.1
      (fun e' he' => (mem_createOptions he').2.1) hk
  · intro hreach hfresh hinj
    have hinv := inv_of_reachable hreach
    have hzero : ∀ e ∈ optionsOf
        (createPoll s now baseUrl pollId optionId pollData userId).1.pollOptions pollId,
        e.2.voteCount = 0 := by
      rw [createPoll_eq hinv now baseUrl pollId optionId pollData userId hfresh hinj]
      intro e he
      have hf := List.mem_filter.mp he
      have hp : e.1.1 = pollId := by simpa using hf.2
      rcases List.mem_append.mp hf.1 with hb | ho
      · exact (mem_createOptions (List.mem_reverse.mp hb)).2.1
      · exfalso
        have := hinv.option_poll e ho
        rw [hp] at this
        exact (docGet_eq_none_iff _ _).mp hfresh this
    refine ⟨?_, hzero, sum_eq_zero_of_forall _ hzero⟩
    rw [createPoll_eq hinv now baseUrl pollId optionId pollData userId hfresh hinj]
    exact votesOf_eq_nil_of_fresh hinv hfresh

theorem createPoll_initial_state_witness :
    demoOpeningData.startsAt = some 20 ∧
    (∃ poll, docGet demoOpening.polls "D" = some poll ∧ poll.status = POLL_STATUS.DRAFT) ∧
    Reachable Store.empty ∧
    votesOf demoStore.votes "P" = [] := by
  have h1 := createPoll_initial_state Store.empty 10 "https://voteapp.example" "D"
    demoOptionId demoOpeningData "creator"
  have h2 := createPoll_initial_state Store.empty 10 "https://voteapp.example" "P"
    demoOptionId demoPollData "creator"
  refine ⟨rfl, ?_, Reachable.empty, (h2.2.2 Reachable.empty rfl demoOptionId_injective).1⟩
  obtain ⟨poll, hp, hd, _, _⟩ := h1.1
  exact ⟨poll, hp, hd 20 rfl (by decide)⟩

/-- C22: the code breaks the claim for the poll `D`, created at instant 10 with
`startsAt = 20` and no `closesAt`.  Its status is stored as draft and no operation but
an explicit `updatePoll` changes it, so a permitted voter with a valid selection at
instant 25, after the start time, is refused with 'Poll is not active'. -/
theorem scheduled_poll_stays_draft :
    Reachable demoOpening ∧
    (docGet demoOpening.polls "D").map (fun p => (p.status, p.startsAt, p.closesAt))
      = some (POLL_STATUS.DRAFT, some 20, none) ∧
    (docGet demoOpening.pollOptions ("D", "o0")).isSome = true ∧
    castVote demoOpening 25 "D" (some "bob") (some ["o0"]) false none
      = (demoOpening, .error "Poll is not active") :=
  ⟨Reachable.create 10 "https://voteapp.example" "D" demoOptionId demoOpeningData "creator"
      Reachable.empty rfl demoOptionId_injective,
    by decide, by decide, by rfl⟩

/-! ## deletePoll, closePoll and missing polls -/

theorem deletePoll_eq_of_nodup (s : Store) (pollId : String)
    (hnd : (s.votes.map Prod.fst).Nodup) :
    deletePoll s pollId
      = { polls := s.polls.filter (fun e => decide (e.1 ≠ pollId))
          pollOptions := s.pollOptions.filter (fun e => decide (e.1.1 ≠ pollId))
          votes := s.votes.filter (fun e => decide (e.2.pollId ≠ pollId)) } := by
  unfold deletePoll
  simp only [foldl_docDelete, docDelete]
  congr 1
  · apply List.filter_congr
    intro e he
    by_cases h : e.1.1 = pollId
    · have : e.1 ∈ (s.pollOptions.filter (fun e => decide (e.1.1 = pollId))).map Prod.fst :=
        List.mem_map.mpr ⟨e, List.mem_filter.mpr ⟨he, by simpa using h⟩, rfl⟩
      simp [h, this]
    · have : e.1 ∉ (s.pollOptions.filter (fun e => decide (e.1.1 = pollId))).map Prod.fst := by
        intro hm
        obtain ⟨e', he', hk⟩ := List.mem_map.mp hm
        have h' := (List.mem_filter.mp he').2
        simp only [decide_eq_true_eq] at h'
        rw [hk] at h'
        exact h h'
      simp [h, this]
  · apply List.filter_congr
    intro e he
    by_cases h : e.2.pollId = pollId
    · have : e.1 ∈ (s.votes.filter (fun e => decide (e.2.pollId = pollId))).map Prod.fst :=
        List.mem_map.mpr ⟨e, List.mem_filter.mpr ⟨he, by simpa using h⟩, rfl⟩
      simp [h, this]
    · have : e.1 ∉ (s.votes.filter (fun e => decide (e.2.pollId = pollId))).map Prod.fst := by
        intro hm
        obtain ⟨e', he', hk⟩ := List.mem_map.mp hm
        have hf := List.mem_filter.mp he'
        have h' := hf.2
        simp only [decide_eq_true_eq] at h'
        have := eq_of_mem_of_key_eq hnd hf.1 he hk
        rw [this] at h'
        exact h h'
      simp [h, this]

theorem docGet_filter_value {κ : Type} {α : Type} [DecidableEq κ] (c : List (κ × α))
    (P : α → Bool) (hnd : (c.map Prod.fst).Nodup) (k : κ) :
    docGet (c.filter (fun e => P e.2)) k = (docGet c k).filter P := by
  cases hget : docGet c k with
  | none =>
    have hk : k ∉ (c.filter (fun e => P e.2)).map Prod.fst := by
      intro hm
      obtain ⟨e, he, hke⟩ := List.mem_map.mp hm
      exact (docGet_eq_none_iff c k).mp hget
        (List.mem_map.mpr ⟨e, (List.mem_filter.mp he).1, hke⟩)
    rw [(docGet_eq_none_iff _ _).mpr hk]
    rfl
  | some v =>
    have hmem := mem_of_docGet hget
    by_cases hp : P v = true
    · have : (k, v) ∈ c.filter (fun e => P e.2) := List.mem_filter.mpr ⟨hmem, hp⟩
      rw [docGet_of_mem (filter_keys_nodup _ hnd) this]
      simp [Option.filter, hp]
    · have hk : k ∉ (c.filter (fun e => P e.2)).map Prod.fst := by
        intro hm
        obtain ⟨e, he, hke⟩ := List.mem_map.mp hm
        have hf := List.mem_filter.mp he
        have heq : e = (k, v) := eq_of_mem_of_key_eq hnd hf.1 hmem hke
        rw [heq] at hf
        exact hp hf.2
      rw [(docGet_eq_none_iff _ _).mpr hk]
      simp [Option.filter, hp]

/-- C23: `deletePoll` removes the poll document, every option document of the poll
and every vote document whose `pollId` field is the poll's id, and nothing else:
every other poll, option and vote document stays as it was.  Vote documents are held
under distinct ids. -/
theorem deletePoll_cascade (s : Store) (pollId : String)
    (hnd : (s.votes.map Prod.fst).Nodup) :
    docGet (deletePoll s pollId).polls pollId = none ∧
    (∀ q, q ≠ pollId → docGet (deletePoll s pollId).polls q = docGet s.polls q) ∧
    (∀ o, docGet (deletePoll s pollId).pollOptions (pollId, o) = none) ∧
    (∀ e ∈ (deletePoll s pollId).pollOptions, e.1.1 ≠ pollId) ∧
    (∀ q o, q ≠ pollId →
      docGet (deletePoll s pollId).pollOptions (q, o) = docGet s.pollOptions (q, o)) ∧
    (∀ e ∈ (deletePoll s pollId).votes, e.2.pollId ≠ pollId) ∧
    (∀ k, docGet (deletePoll s pollId).votes k
      = (docGet s.votes k).filter (fun v => decide (v.pollId ≠ pollId))) ∧
    (deletePoll s pollId).votes = s.votes.filter (fun e => decide (e.2.pollId ≠ pollId)) := by
  rw [deletePoll_eq_of_nodup s pollId hnd]
  refine ⟨?_, ?_, ?_, ?_, ?_, ?_, ?_, rfl⟩
  · show docGet (docDelete s.polls pollId) pollId = none
    rw [docGet_docDelete, if_pos rfl]
  · intro q hq
    show docGet (docDelete s.polls pollId) q = docGet s.polls q
    rw [docGet_docDelete, if_neg hq]
  · intro o
    have := docGet_filter_key s.pollOptions (fun k => decide (k.1 ≠ pollId)) (pollId, o)
    simp only [ne_eq, not_true_eq_false, decide_False, Bool.false_eq_true, if_false] at this
    exact this
  · intro e he
    simpa using (List.mem_filter.mp he).2
  · intro q o hq
    have := docGet_filter_key s.pollOptions (fun k => decide (k.1 ≠ pollId)) (q, o)
    simp only [ne_eq, hq, not_false_eq_true, decide_True, if_true] at this
    exact this
  · intro e he
    simpa using (List.mem_filter.mp he).2
  · intro k
    exact docGet_filter_value s.votes (fun v => decide (v.pollId ≠ pollId)) hnd k

theorem deletePoll_cascade_witness :
    (demoVoted.votes.map Prod.fst).Nodup ∧
    docGet (deletePoll demoVoted "P").polls "P" = none ∧
    (deletePoll demoVoted "P").votes = [] :=
  ⟨by decide, (deletePoll_cascade demoVoted "P" (by decide)).1,
    by
      rw [(deletePoll_cascade demoVoted "P" (by decide)).2.2.2.2.2.2.2]
      decide⟩

/-- C25 fails as stated: with an empty selection `castVote` on a poll id that names
no poll fails with 'At least one option must be selected', not with
'Poll not found'. -/
theorem castVote_missing_poll_empty_selection :
    docGet Store.empty.polls "nowhere" = none ∧
    castVote Store.empty 20 "nowhere" (some "alice") (some []) false none
      = (Store.empty, .error "At least one option must be selected") ∧
    castVote Store.empty 20 "nowhere" (some "alice") none false none
      = (Store.empty, .error "At least one option must be selected") :=
  ⟨rfl, rfl, rfl⟩

/-- C25, amended: for every well-formed document id that names no existing poll
document, every voter identity and every non-empty `optionIds`, `castVote` fails with
'Poll not found'; with a missing or empty `optionIds` it fails with
'At least one option must be selected', whatever the poll id. -/
theorem castVote_poll_not_found (s : Store) (now : Nat) (pollId : String)
    (userId : Option String) (anonymous : Bool) (guestId : Option String)
    (hpoll : docGet s.polls pollId = none) :
    (isDocumentId pollId = true → ∀ ids : List String, ids ≠ [] →
      castVote s now pollId userId (some ids) anonymous guestId
        = (s, .error "Poll not found")) ∧
    castVote s now pollId userId (some []) anonymous guestId
      = (s, .error "At least one option must be selected") ∧
    castVote s now pollId userId none anonymous guestId
      = (s, .error "At least one option must be selected") := by
  refine ⟨?_, rfl, rfl⟩
  intro _ ids hne
  apply castVote_eq_error hne
  simp only [castVoteBody, hpoll]

theorem castVote_poll_not_found_witness :
    docGet demoStore.polls "nowhere" = none ∧
    isDocumentId "nowhere" = true ∧
    castVote demoStore 20 "nowhere" none (some ["o0"]) false (some "g1")
      = (demoStore, .error "Poll not found") :=
  ⟨by rfl, by decide,
    (castVote_poll_not_found demoStore 20 "nowhere" none false (some "g1") (by rfl)).1
      (by decide) ["o0"] (by decide)⟩

/-- C27: on an existing poll `closePoll` succeeds, sets the status to closed and the
`updatedAt` stamp, and leaves the poll's other fields, its options, all votes and all
other polls unchanged; afterwards every `castVote` on that poll, by any voter with any
selection at any instant, fails and changes nothing. -/
theorem closePoll_effect (s : Store) (now : Nat) (pollId : String) (poll : Poll)
    (hpoll : docGet s.polls pollId = some poll) :
    (closePoll s now pollId).2 = .ok () ∧
    docGet (closePoll s now pollId).1.polls pollId
      = some { poll with status := POLL_STATUS.CLOSED, updatedAt := now } ∧
    (∀ q, q ≠ pollId → docGet (closePoll s now pollId).1.polls q = docGet s.polls q) ∧
    (closePoll s now pollId).1.pollOptions = s.pollOptions ∧
    (closePoll s now pollId).1.votes = s.votes ∧
    (∀ (now' : Nat) (userId : Option String) (optionIds : Option (List String))
        (anonymous : Bool) (guestId : Option String),
      (castVote (closePoll s now pollId).1 now' pollId userId optionIds anonymous guestId).2
        ≠ .ok () ∧
      (castVote (closePoll s now pollId).1 now' pollId userId optionIds anonymous guestId).1
        = (closePoll s now pollId).1) := by
  have hclosed : docGet (closePoll s now pollId).1.polls pollId
      = some { poll with status := POLL_STATUS.CLOSED, updatedAt := now } := by
    simp only [closePoll, updatePoll, hpoll, docGet_docUpdate, if_true, Option.map_some']
    rfl
  refine ⟨?_, hclosed, ?_, ?_, ?_, ?_⟩
  · simp only [closePoll, updatePoll, hpoll]
  · intro q hq
    simp only [closePoll, updatePoll, hpoll, docGet_docUpdate, if_neg hq]
  · simp only [closePoll, updatePoll, hpoll]
  · simp only [closePoll, updatePoll, hpoll]
  · intro now' userId optionIds anonymous guestId
    have hnok : (castVote (closePoll s now pollId).1 now' pollId userId optionIds anonymous
        guestId).2 ≠ .ok () := by
      intro hok
      obtain ⟨ids, poll', _, hacc⟩ := accepts_of_castVote_ok hok
      have hp := hacc.poll_eq
      rw [hclosed] at hp
      have hst := hacc.active
      rw [← Option.some.inj hp] at hst
      have hne : POLL_STATUS.CLOSED ≠ POLL_STATUS.ACTIVE := by decide
      exact hne hst
    exact ⟨hnok, castVote_not_ok_store hnok⟩

theorem closePoll_effect_witness :
    docGet demoVoted.polls "P" = some { demoPoll with totalVotes := 1 } ∧
    (closePoll demoVoted 25 "P").2 = .ok () ∧
    (castVote demoClosed 30 "P" (some "bob") (some ["o0"]) false none).1 = demoClosed :=
  ⟨by rfl,
    (closePoll_effect demoVoted 25 "P" { demoPoll with totalVotes := 1 } (by rfl)).1,
    ((closePoll_effect demoVoted 25 "P" { demoPoll with totalVotes := 1 }
      (by rfl)).2.2.2.2.2 30 (some "bob") (some ["o0"]) false none).2⟩

/-! ## Guest ids -/

theorem guest_prefix_ne_empty (rest : String) : "guest_" ++ rest ≠ "" := by
  intro h
  have := congrArg String.data h
  simp only [String.data_append] at this
  exact absurd this (by simp)

theorem generated_guestId_ne_empty (now : Nat) (random : String) :
    "guest_" ++ toString now ++ "_" ++ random ≠ "" := by
  rw [String.append_assoc, String.append_assoc]
  exact guest_prefix_ne_empty _

theorem getGuestId_of_stored {localStorage : LocalStorage} {g : String} (now : Nat)
    (random : String) (h : docGet localStorage GUEST_ID_KEY = some g) (hg : g ≠ "") :
    getGuestId localStorage now random = (localStorage, g) := by
  simp only [getGuestId, h, if_pos hg]

theorem getGuestId_of_absent {localStorage : LocalStorage} (now : Nat) (random : String)
    (h : docGet localStorage GUEST_ID_KEY = none ∨ docGet localStorage GUEST_ID_KEY = some "") :
    getGuestId localStorage now random
      = (docSet localStorage GUEST_ID_KEY ("guest_" ++ toString now ++ "_" ++ random),
          "guest_" ++ toString now ++ "_" ++ random) := by
  rcases h with h | h
  · simp only [getGuestId, h]
  · simp only [getGuestId, h]
    rw [if_neg (by simp)]

theorem getGuestId_stored_after (localStorage : LocalStorage) (now : Nat) (random : String) :
    docGet (getGuestId localStorage now random).1 GUEST_ID_KEY
        = some (getGuestId localStorage now random).2 ∧
      (getGuestId localStorage now random).2 ≠ "" := by
  cases h : docGet localStorage GUEST_ID_KEY with
  | none =>
    rw [getGuestId_of_absent now random (Or.inl h)]
    exact ⟨by simp [docGet_docSet], generated_guestId_ne_empty now random⟩
  | some g =>
    by_cases hg : g = ""
    · subst hg
      rw [getGuestId_of_absent now random (Or.inr h)]
      exact ⟨by simp [docGet_docSet], generated_guestId_ne_empty now random⟩
    · rw [getGuestId_of_stored now random h hg]
      exact ⟨h, hg⟩

/-- C26: with `localStorage` as explicit state, `getGuestId` returns a stored
(non-empty) guest id and leaves the storage unchanged; otherwise it stores under its
key, and returns, the new non-empty id `guest_<timestamp>_<random>`, leaving the other
keys unchanged; a second call returns the same id and changes nothing; after
`clearGuestId` no id is stored. -/
theorem getGuestId_stable (localStorage : LocalStorage) (now : Nat) (random : String) :
    (∀ g, docGet localStorage GUEST_ID_KEY = some g → g ≠ "" →
      getGuestId localStorage now random = (localStorage, g)) ∧
    ((docGet localStorage GUEST_ID_KEY = none ∨ docGet localStorage GUEST_ID_KEY = some "") →
      (getGuestId localStorage now random).2 = "guest_" ++ toString now ++ "_" ++ random ∧
      (getGuestId localStorage now random).2 ≠ "" ∧
      docGet (getGuestId localStorage now random).1 GUEST_ID_KEY
        = some ("guest_" ++ toString now ++ "_" ++ random) ∧
      (∀ k, k ≠ GUEST_ID_KEY →
        docGet (getGuestId localStorage now random).1 k = docGet localStorage k)) ∧
    (∀ (now' : Nat) (random' : String),
      getGuestId (getGuestId localStorage now random).1 now' random'
        = ((getGuestId localStorage now random).1, (getGuestId localStorage now random).2)) ∧
    docGet (clearGuestId localStorage) GUEST_ID_KEY = none ∧
    (∀ k, k ≠ GUEST_ID_KEY → docGet (clearGuestId localStorage) k = docGet localStorage k) := by
  refine ⟨?_, ?_, ?_, ?_, ?_⟩
  · intro g h hg
    exact getGuestId_of_stored now random h hg
  · intro h
    rw [getGuestId_of_absent now random h]
    refine ⟨rfl, generated_guestId_ne_empty now random, by simp [docGet_docSet], ?_⟩
    intro k hk
    simp only [docGet_docSet, if_neg hk]
  · intro now' random'
    obtain ⟨h1, h2⟩ := getGuestId_stored_after localStorage now random
    exact getGuestId_of_stored now' random' h1 h2
  · simp [clearGuestId, docGet_docDelete]
  · intro k hk
    simp only [clearGuestId, docGet_docDelete, if_neg hk]

theorem getGuestId_stable_witness :
    docGet ([] : LocalStorage) GUEST_ID_KEY = none ∧
    (getGuestId [] 1700 "abc").2 = "guest_1700_abc" ∧
    getGuestId (getGuestId [] 1700 "abc").1 1800 "xyz"
      = ([("voteapp_guest_id", "guest_1700_abc")], "guest_1700_abc") := by
  have h := getGuestId_stable [] 1700 "abc"
  refine ⟨rfl, ?_, ?_⟩
  · rw [(h.2.1 (Or.inl rfl)).1]
    decide
  · rw [h.2.2.1 1800 "xyz"]
    decide

/-! ## The vote page -/

theorem castVote_gate_iff (s : Store) (now : Nat) (pollId : String)
    (userId : Option String) (ids : List String) (anonymous : Bool)
    (guestId : Option String) (poll : Poll)
    (hpoll : docGet s.polls pollId = some poll)
    (hperm : truthy userId = true ∨ poll.guestVoting = true)
    (hne : ids ≠ []) :
    ((castVote s now pollId userId (some ids) anonymous guestId).2
          ≠ .error "Poll has not started yet" ∧
        (castVote s now pollId userId (some ids) anonymous guestId).2
          ≠ .error "Poll is not active" ∧
        (castVote s now pollId userId (some ids) anonymous guestId).2
          ≠ .error "Poll has closed")
      ↔ votable now poll := by
  constructor
  · rintro ⟨n1, n2, n3⟩
    by_cases hstart : ∀ t, poll.startsAt = some t → t ≤ now
    · by_cases hact : poll.status = POLL_STATUS.ACTIVE
      · by_cases hopen : ∀ t, poll.closesAt = some t → now < t
        · exact ⟨hstart, hact, hopen⟩
        · exfalso
          simp only [not_forall] at hopen
          obtain ⟨t, ht, hle⟩ := hopen
          apply n3
          rw [castVote_eq_error hne
            (castVoteBody_closed ids anonymous guestId hpoll hperm hstart hact ht (by omega))]
      · exfalso
        apply n2
        rw [castVote_eq_error hne
          (castVoteBody_not_active ids anonymous guestId hpoll hperm hstart hact)]
    · exfalso
      simp only [not_forall] at hstart
      obtain ⟨t, ht, hlt⟩ := hstart
      apply n1
      rw [castVote_eq_error hne
        (castVoteBody_not_started ids anonymous guestId hpoll hperm ht (by omega))]
  · rintro ⟨hstart, hact, hopen⟩
    have h1 : ¬ ((!truthy userId && !poll.guestVoting) = true) := by
      rw [not_permitted_iff]; rcases hperm with hp | hp <;> simp [hp]
    have h2 : ¬ ((match poll.startsAt with
               | some t => decide (now < t)
               | none => false) = true) := by
      rw [not_started_iff]
      rintro ⟨t, ht, hlt⟩
      have := hstart t ht
      omega
    have h3 : ¬ (poll.status ≠ POLL_STATUS.ACTIVE) := by simpa using hact
    have h4 : ¬ ((match poll.closesAt with
               | some t => decide (now ≥ t)
               | none => false) = true) := by
      rw [expired_iff]
      rintro ⟨t, ht, hle⟩
      have := hopen t ht
      omega
    rw [castVote_result now pollId userId anonymous guestId hne]
    simp only [castVoteBody, hpoll, if_neg h1, if_neg h2, if_neg h3, if_neg h4]
    split_ifs <;> simp [Except.map]

/-- C28 fails as stated: for the active poll `T` with `closesAt = 30`, at instant 40
the page shows the voting section to a user who has not voted and `handleVote`
dispatches the vote, while `castVote` refuses it with 'Poll has closed'. -/
theorem votePage_offers_vote_after_close :
    showsVotingSection demoTimedPoll none = true ∧
    (handleVote [] 40 "abc" "T" ["o0"] (some demoTimedPoll) (some "bob")).2
      = .dispatch "T" (some "bob") ["o0"] false none ∧
    docGet demoTimed.polls "T" = some demoTimedPoll ∧
    castVote demoTimed 40 "T" (some "bob") (some ["o0"]) false none
      = (demoTimed, .error "Poll has closed") ∧
    ¬ votable 40 demoTimedPoll := by
  refine ⟨by decide, by decide, by rfl, by rfl, ?_⟩
  rintro ⟨_, _, hopen⟩
  have := hopen 30 rfl
  omega

/-- C28, amended: whenever the page shows the voting section and the checks of
`handleVote` pass, the voter has no vote, the selection is non-empty and the poll's
status is active; the page compares neither `startsAt` nor `closesAt` with the clock,
so the poll is votable under the gate of `castVote` exactly when in addition
`startsAt` is unset or not later than `now` and `closesAt` is unset or later than
`now`. -/
theorem votePage_gate (localStorage : LocalStorage) (now : Nat) (random : String)
    (pollId : String) (selectedOptions : List String) (poll : Poll) (user : Option String)
    (userVote : Option (String × Vote)) (pid : String) (userId : Option String)
    (ids : List String) (anonymous : Bool) (guestId : Option String)
    (hshow : showsVotingSection poll userVote = true)
    (hsubmit : (handleVote localStorage now random pollId selectedOptions (some poll) user).2
      = .dispatch pid userId ids anonymous guestId) :
    userVote = none ∧ poll.status = POLL_STATUS.ACTIVE ∧ pid = pollId ∧
    ids = selectedOptions ∧ ids ≠ [] ∧
    (votable now poll ↔
      ((∀ t, poll.startsAt = some t → t ≤ now) ∧ (∀ t, poll.closesAt = some t → now < t))) ∧
    (∀ s : Store, docGet s.polls pollId = some poll →
      (truthy userId = true ∨ poll.guestVoting = true) →
      (((castVote s now pollId userId (some ids) anonymous guestId).2
            ≠ .error "Poll has not started yet" ∧
          (castVote s now pollId userId (some ids) anonymous guestId).2
            ≠ .error "Poll is not active" ∧
          (castVote s now pollId userId (some ids) anonymous guestId).2
            ≠ .error "Poll has closed")
        ↔ ((∀ t, poll.startsAt = some t → t ≤ now) ∧
            (∀ t, poll.closesAt = some t → now < t)))) := by
  have hshow' : userVote = none ∧ poll.status = POLL_STATUS.ACTIVE := by
    simp only [showsVotingSection, hasVoted, Bool.and_eq_true, Bool.not_eq_true',
      decide_eq_true_eq] at hshow
    refine ⟨?_, hshow.2⟩
    cases userVote with
    | none => rfl
    | some v => simp at hshow
  have hv : votable now poll ↔
      ((∀ t, poll.startsAt = some t → t ≤ now) ∧ (∀ t, poll.closesAt = some t → now < t)) :=
    ⟨fun h => ⟨h.1, h.2.2⟩, fun h => ⟨h.1, hshow'.2, h.2⟩⟩
  have hargs : pid = pollId ∧ ids = selectedOptions ∧ ids ≠ [] := by
    unfold handleVote at hsubmit
    by_cases hlen : selectedOptions.length = 0
    · rw [if_pos hlen] at hsubmit
      cases hsubmit
    · rw [if_neg hlen] at hsubmit
      have hne : selectedOptions ≠ [] := fun h => hlen (by rw [h]; rfl)
      simp only at hsubmit
      by_cases hlogin : (!poll.guestVoting && user.isNone) = true
      · rw [if_pos hlogin] at hsubmit
        cases hsubmit
      · rw [if_neg hlogin, if_neg (by simpa using hshow'.2)] at hsubmit
        cases user with
        | none =>
          simp only [VoteAttempt.dispatch.injEq] at hsubmit
          obtain ⟨h1, _, h3, _, _⟩ := hsubmit
          exact ⟨h1.symm, h3.symm, by rw [← h3]; exact hne⟩
        | some uid =>
          simp only [VoteAttempt.dispatch.injEq] at hsubmit
          obtain ⟨h1, _, h3, _, _⟩ := hsubmit
          exact ⟨h1.symm, h3.symm, by rw [← h3]; exact hne⟩
  refine ⟨hshow'.1, hshow'.2, hargs.1, hargs.2.1, hargs.2.2, hv, ?_⟩
  intro s hpoll hperm
  rw [castVote_gate_iff s now pollId userId ids anonymous guestId poll hpoll hperm hargs.2.2]
  exact hv

theorem votePage_gate_witness :
    showsVotingSection demoPoll none = true ∧
    (handleVote [] 20 "abc" "P" ["o0"] (some demoPoll) (some "alice")).2
      = .dispatch "P" (some "alice") ["o0"] false none ∧
    votable 20 demoPoll := by
  have h := votePage_gate [] 20 "abc" "P" ["o0"] demoPoll (some "alice") none "P"
    (some "alice") ["o0"] false none (by decide) (by decide)
  refine ⟨by decide, by decide, h.2.2.2.2.2.1.mpr ⟨?_, ?_⟩⟩
  · intro t ht; simp [demoPoll] at ht
  · intro t ht; simp [demoPoll] at ht

/-! ## Vote ids across polls -/

theorem split_at_first_underscore (l l' x x' : List Char) (hl : '_' ∉ l) (hl' : '_' ∉ l')
    (h : l ++ '_' :: x = l' ++ '_' :: x') : l = l' ∧ x = x' := by
  induction l generalizing l' with
  | nil =>
    cases l' with
    | nil =>
      simp only [List.nil_append, List.cons.injEq, true_and] at h
      exact ⟨rfl, h⟩
    | cons c rest =>
      simp only [List.nil_append, List.cons_append, List.cons.injEq] at h
      exact absurd (h.1 ▸ List.mem_cons_self _ _) hl'
  | cons c rest ih =>
    cases l' with
    | nil =>
      simp only [List.nil_append, List.cons_append, List.cons.injEq] at h
      exact absurd (h.1 ▸ List.mem_cons_self _ _) hl
    | cons c' rest' =>
      simp only [List.cons_append, List.cons.injEq] at h
      have hr : '_' ∉ rest := fun hm => hl (List.mem_cons_of_mem _ hm)
      have hr' : '_' ∉ rest' := fun hm => hl' (List.mem_cons_of_mem _ hm)
      obtain ⟨h1, h2⟩ := ih rest' hr hr' h.2
      exact ⟨by rw [h.1, h1], h2⟩

theorem getVoteId_identity (pollId : String) (v : VoterIdentity) (hv : v.valid) :
    getVoteId pollId v.userId v.guestId = pollId ++ "_" ++ v.key := by
  cases v with
  | user id =>
    exact getVoteId_user pollId hv.1 none
  | guest id =>
    show getVoteId pollId none (some id) = pollId ++ "_" ++ ("guest_" ++ id)
    rw [getVoteId_guest]
    apply String.ext
    simp [String.data_append, jsString]

theorem identity_key_injective (v v' : VoterIdentity) (hv : v.valid) (hv' : v'.valid)
    (h : v.key = v'.key) : v = v' := by
  cases v with
  | user id =>
    cases v' with
    | user id' =>
      simp only [VoterIdentity.key] at h
      rw [h]
    | guest id' =>
      exfalso
      simp only [VoterIdentity.key] at h
      apply hv.2
      rw [h]
      exact ⟨id'.toList, by simp [String.data_append]⟩
  | guest id =>
    cases v' with
    | user id' =>
      exfalso
      simp only [VoterIdentity.key] at h
      apply hv'.2
      rw [← h]
      exact ⟨id.toList, by simp [String.data_append]⟩
    | guest id' =>
      simp only [VoterIdentity.key] at h
      rw [string_append_left_cancel h]

theorem voteId_eq_imp (p p' : String) (v v' : VoterIdentity)
    (hp : '_' ∉ p.toList) (hp' : '_' ∉ p'.toList) (hv : v.valid) (hv' : v'.valid)
    (h : getVoteId p v.userId v.guestId = getVoteId p' v'.userId v'.guestId) :
    p = p' ∧ v = v' := by
  rw [getVoteId_identity p v hv, getVoteId_identity p' v' hv'] at h
  have hd := congrArg String.data h
  simp only [String.data_append, List.append_assoc] at hd
  have hsplit := split_at_first_underscore p.data p'.data v.key.data v'.key.data hp hp' hd
  exact ⟨String.ext hsplit.1, identity_key_injective v v' hv hv' (String.ext hsplit.2)⟩

/-- C29 fails as stated: the vote id of user `b_c` on poll `a` equals the vote id of
user `c` on poll `a_b`; once `c` has voted on `a_b`, `castVote` tells `b_c`, who has
not voted, 'You have already voted on this poll' on poll `a`. -/
theorem voteId_collision_across_polls :
    getVoteId "a" (some "b_c") none = getVoteId "a_b" (some "c") none ∧
    "a" ≠ "a_b" ∧
    (VoterIdentity.user "b_c").valid ∧ (VoterIdentity.user "c").valid ∧
    hasUserVoted demoTwoPolls "a" (some "b_c") none = false ∧
    (castVote demoTwoPolls 20 "a_b" (some "c") (some ["o0"]) false none).2 = .ok () ∧
    (castVote (castVote demoTwoPolls 20 "a_b" (some "c") (some ["o0"]) false none).1
        21 "a" (some "b_c") (some ["o0"]) false none).2
      = .error "You have already voted on this poll" :=
  ⟨by decide, by decide, ⟨by decide, by decide⟩, ⟨by decide, by decide⟩, by decide, by rfl,
    by rfl⟩

/-- C29, amended: for poll ids that contain no underscore, as the ids Firestore
generates, vote ids do not collide across polls: for voter identities `v`, `v'`
(user ids non-empty and not beginning with `guest_`), equal vote ids give `p = p'` and
`v = v'`; so a successful vote by one voter on one poll leaves unchanged whether any
other voter, or the same voter on another poll, has a vote document. -/
theorem voteId_injective_across_polls (p p' : String) (v v' : VoterIdentity)
    (hp : '_' ∉ p.toList) (hp' : '_' ∉ p'.toList) (hv : v.valid) (hv' : v'.valid) :
    (getVoteId p v.userId v.guestId = getVoteId p' v'.userId v'.guestId → p = p' ∧ v = v') ∧
    (∀ (s s' : Store) (now : Nat) (ids : List String) (anonymous : Bool),
      castVote s now p' v'.userId (some ids) anonymous v'.guestId = (s', .ok ()) →
      ¬ (p = p' ∧ v = v') →
      hasUserVoted s' p v.userId v.guestId = hasUserVoted s p v.userId v.guestId) := by
  refine ⟨voteId_eq_imp p p' v v' hp hp' hv hv', ?_⟩
  intro s s' now ids anonymous h hne
  obtain ⟨ids', poll, hids, hacc⟩ := accepts_of_castVote_ok (by rw [h])
  cases hids
  rw [castVote_of_accepts anonymous hacc] at h
  have hs' : s' = afterVote s (getVoteId p' v'.userId v'.guestId)
      (voteData now p' v'.userId ids anonymous v'.guestId poll) p' ids :=
    (congrArg Prod.fst h).symm
  subst hs'
  have hk : getVoteId p v.userId v.guestId ≠ getVoteId p' v'.userId v'.guestId :=
    fun heq => hne (voteId_eq_imp p p' v v' hp hp' hv hv' heq)
  simp only [hasUserVoted, afterVote, docGet_docSet, if_neg hk]

theorem voteId_injective_across_polls_witness :
    '_' ∉ "P".toList ∧ '_' ∉ "Q".toList ∧
    (VoterIdentity.user "alice").valid ∧ (VoterIdentity.guest "g1").valid ∧
    (getVoteId "P" (some "alice") none = getVoteId "Q" none (some "g1") →
      "P" = "Q" ∧ VoterIdentity.user "alice" = VoterIdentity.guest "g1") :=
  ⟨by decide, by decide, ⟨by decide, by decide⟩, trivial,
    (voteId_injective_across_polls "P" "Q" (.user "alice") (.guest "g1") (by decide)
      (by decide) ⟨by decide, by decide⟩ trivial).1⟩

/-! ## The selection of the vote page -/

theorem toggleAll_snoc (currentPoll : Option Poll) (selected clicks : List String)
    (x : String) :
    toggleAll currentPoll selected (clicks ++ [x])
      = handleOptionToggle currentPoll (toggleAll currentPoll selected clicks) x := by
  simp [toggleAll, List.foldl_append]

theorem handleOptionToggle_nodup (currentPoll : Option Poll) (selected : List String)
    (x : String) (h : selected.Nodup) : (handleOptionToggle currentPoll selected x).Nodup := by
  unfold handleOptionToggle
  cases currentPoll with
  | none => exact h
  | some poll =>
    simp only
    split_ifs with h1 h2
    · exact List.nodup_singleton x
    · exact h.filter _
    · have hx : x ∉ selected := by simpa using h2
      rw [List.nodup_append]
      refine ⟨h, List.nodup_singleton x, ?_⟩
      intro a ha hb
      rw [List.mem_singleton] at hb
      exact hx (hb ▸ ha)

theorem toggleAll_nodup (currentPoll : Option Poll) (selected clicks : List String)
    (h : selected.Nodup) : (toggleAll currentPoll selected clicks).Nodup := by
  induction clicks generalizing selected with
  | nil => exact h
  | cons x rest ih =>
    exact ih _ (handleOptionToggle_nodup currentPoll selected x h)

theorem handleOptionToggle_absent (poll : Poll) (selected : List String) (x : String)
    (hty : poll.type ≠ POLL_TYPES.SINGLE_CHOICE) (hx : x ∉ selected) :
    handleOptionToggle (some poll) selected x = selected ++ [x] := by
  have : ¬ (selected.contains x = true) := by simpa using hx
  simp only [handleOptionToggle, if_neg hty, if_neg this]

theorem handleOptionToggle_present (poll : Poll) (selected : List String) (x : String)
    (hty : poll.type ≠ POLL_TYPES.SINGLE_CHOICE) (hx : x ∈ selected) :
    handleOptionToggle (some poll) selected x
      = selected.filter (fun id => decide (id ≠ x)) := by
  have : selected.contains x = true := by simpa using hx
  simp only [handleOptionToggle, if_neg hty, if_pos this]

theorem filter_ne_of_not_mem (selected : List String) (x : String) (hx : x ∉ selected) :
    selected.filter (fun id => decide (id ≠ x)) = selected := by
  rw [List.filter_eq_self]
  intro a ha
  simp only [decide_eq_true_eq]
  intro h
  exact hx (h ▸ ha)

/-- C30 fails as stated: on a multiple-choice poll, from the selection `[a, b]`
reached from the empty one, toggling `a` twice gives `[b, a]`, not `[a, b]`. -/
theorem toggle_twice_reorders :
    toggleAll (some demoMultiPoll) [] ["a", "b"] = ["a", "b"] ∧
    toggleAll (some demoMultiPoll) [] ["a", "b", "a", "a"] = ["b", "a"] ∧
    handleOptionToggle (some demoMultiPoll)
      (handleOptionToggle (some demoMultiPoll) ["a", "b"] "a") "a" ≠ ["a", "b"] :=
  ⟨by decide, by decide, by decide⟩

/-- C30, amended: starting from the empty selection, after any sequence of
`handleOptionToggle` calls the selection has no repeated option id; on a single-choice
poll it is exactly the option toggled last; on a multiple-choice poll toggling an
option adds it at the end if absent and removes it if present, so toggling the same
option twice restores the previous selection up to the order of its ids, and exactly
when the option was absent. -/
theorem votePage_selection (poll : Poll) (clicks : List String) :
    (toggleAll (some poll) [] clicks).Nodup ∧
    (poll.type = POLL_TYPES.SINGLE_CHOICE →
      ∀ x, toggleAll (some poll) [] (clicks ++ [x]) = [x]) ∧
    (poll.type ≠ POLL_TYPES.SINGLE_CHOICE → ∀ (selected : List String) (x : String),
      (x ∉ selected → handleOptionToggle (some poll) selected x = selected ++ [x]) ∧
      (x ∈ selected → handleOptionToggle (some poll) selected x
        = selected.filter (fun id => decide (id ≠ x))) ∧
      (x ∉ selected →
        handleOptionToggle (some poll) (handleOptionToggle (some poll) selected x) x
          = selected) ∧
      (selected.Nodup → List.Perm
        (handleOptionToggle (some poll) (handleOptionToggle (some poll) selected x) x)
        selected)) := by
  refine ⟨toggleAll_nodup (some poll) [] clicks List.nodup_nil, ?_, ?_⟩
  · intro hty x
    rw [toggleAll_snoc]
    simp only [handleOptionToggle, if_pos hty]
  · intro hty selected x
    have habsent : x ∉ selected →
        handleOptionToggle (some poll) (handleOptionToggle (some poll) selected x) x
          = selected := by
      intro hx
      rw [handleOptionToggle_absent poll selected x hty hx,
        handleOptionToggle_present poll _ x hty (by simp), List.filter_append,
        filter_ne_of_not_mem selected x hx]
      simp
    refine ⟨handleOptionToggle_absent poll selected x hty,
      handleOptionToggle_present poll selected x hty, habsent, ?_⟩
    intro hnd
    by_cases hx : x ∈ selected
    · have hnot : x ∉ selected.filter (fun id => decide (id ≠ x)) := by
        simp [List.mem_filter]
      rw [handleOptionToggle_present poll selected x hty hx,
        handleOptionToggle_absent poll _ x hty hnot]
      have herase : selected.filter (fun id => decide (id ≠ x)) = selected.erase x := by
        rw [List.Nodup.erase_eq_filter hnd x]
        apply List.filter_congr
        intro a _
        by_cases ha : a = x <;> simp [ha]
      rw [herase]
      exact (List.perm_append_comm).trans (List.perm_cons_erase hx).symm
    · rw [habsent hx]

theorem votePage_selection_witness :
    demoPoll.type = POLL_TYPES.SINGLE_CHOICE ∧
    toggleAll (some demoPoll) [] (["o0", "o1"] ++ ["o0"]) = ["o0"] :=
  ⟨rfl, (votePage_selection demoPoll ["o0", "o1"]).2.1 rfl "o0"⟩

end VoteApp
